import Mathlib

/-!
The chat client sozialm: transport encoding and overlay sequencing.

A shallow embedding of these parts of the chat client:

* `encode` / `decode` of `common/js/generalfunc.js` (the same two loops are
  found in `public/common/js/common.js`, which only adds a debug print);
* the overlay objects of `common/js/overlays.js` (`Overlay`, `SplashScreen`,
  `AlertDialog`, `ActionDialog`, `Dialog`, `Menu`) with the timers they start;
* the listeners of the chat page `messaging/chat/script.js` (remote
  notifications, send, unsend, reply, bubble highlighter, long press) and
  `smoothScroll` of `public/common/js/common.js`;
* `getURLQuery`, `getURLQueryFieldValue` and `generateToken` of
  `common/js/generalfunc.js`.

Conventions of the embedding
* A JavaScript string is a `List Char`.  Every pattern and replacement text
  used below is ASCII, so matching by code point and matching by UTF-16 code
  unit find the same occurrences.
* `setTimeout(f, d)` appends a timer to the pending list of the state; the
  closure `f` is a value of `Task`, run by `runTask` when the timer fires.
* A listener of the chat page is a function of the page variables it reads and
  writes; what it asks of the dialogs and of the remote database is returned as
  a list of `ChatEffect`.
-/

namespace Sozialm

/-! ## Transport encoding (`generalfunc.js`, `common.js`) -/

/-- The string `specialChars` of `encode` and `decode`:
newline, carriage return and `! " # $ % & ' . / < = > @ [ \ ] { }`. -/
def specialChars : List Char := "\n\r!\"#$%&'./<=>@[\\]\x7b\x7d".data

/-- The template text made of `ASCII` and `character.charCodeAt(0)` in decimal. -/
def token (character : Char) : List Char :=
  "ASCII".data ++ (toString character.toNat).data

/-- Scanner behind `String.prototype.replaceAll` for a string pattern: with
`skip = 0` the pattern is looked for at the current position; after a match the
replacement is emitted and the remaining `pat.length - 1` characters of the
match are skipped, so matches are found left to right and never overlap. -/
def replaceAllAux (pat rep : List Char) : Nat → List Char → List Char
  | _, [] => []
  | skip + 1, _ :: s => replaceAllAux pat rep skip s
  | 0, c :: s =>
    if pat.isPrefixOf (c :: s) then rep ++ replaceAllAux pat rep (pat.length - 1) s
    else c :: replaceAllAux pat rep 0 s

/-- The call `str.replaceAll(pat, rep)` for a non-empty string pattern `pat` and a
replacement text without `$` patterns (the only `$` passed below is the lone
character `$`, which `replaceAll` inserts literally). -/
def replaceAll (pat rep str : List Char) : List Char :=
  replaceAllAux pat rep 0 str

/-- The function `encode` of `generalfunc.js`: one `replaceAll` pass per special
character, in the order of `specialChars`. -/
def encode (str : List Char) : List Char :=
  specialChars.foldl (fun str character => replaceAll [character] (token character) str) str

/-- The function `decode` of `generalfunc.js`: one `replaceAll` pass per special
character, in the order of `specialChars`, each turning a token back into its
character. -/
def decode (str : List Char) : List Char :=
  specialChars.foldl (fun str character => replaceAll (token character) [character] str) str

/-- Character-wise substitution that writes the token of every character found
in `L` and keeps every other character. -/
def subst (L : List Char) (x : Char) : List Char :=
  if x ∈ L then token x else [x]

/-- The simultaneous substitution the specification describes: a special
character becomes its token, any other character stays. -/
def encodeChar (c : Char) : List Char :=
  if c ∈ specialChars then token c else [c]

/-- A string has no occurrence of the token of a special character. -/
def TokenFree (s : List Char) : Prop :=
  ∀ c ∈ specialChars, ¬ token c <:+: s

instance (s : List Char) : Decidable (TokenFree s) := by
  unfold TokenFree; infer_instance

/-- The character codes of the special characters, in decimal. -/
def reservedCodes : List Nat :=
  [10, 13, 33, 34, 35, 36, 37, 38, 39, 46, 47, 60, 61, 62, 64, 91, 92, 93, 123, 125]

/-! ## Overlays (`overlays.js`) -/

/-- The JavaScript values the overlay functions inspect with `typeof` and with
truthiness tests.  A function is known by an identity; numbers are integers or
`NaN`, which is all `typeof` and `!` can tell apart. -/
inductive JSVal where
  | undefined
  | null
  | bool (b : Bool)
  | number (n : Int)
  | nan
  | string (s : String)
  | function (id : Nat)
  | object (id : Nat)
  deriving DecidableEq, Repr

/-- The result of `typeof v`. -/
def JSVal.typeof : JSVal → String
  | .undefined => "undefined"
  | .null => "object"
  | .bool _ => "boolean"
  | .number _ => "number"
  | .nan => "number"
  | .string _ => "string"
  | .function _ => "function"
  | .object _ => "object"

/-- The truthiness of a value: `if (v)` takes the branch exactly when this is `true`. -/
def JSVal.truthy : JSVal → Bool
  | .undefined => false
  | .null => false
  | .bool b => b
  | .number n => n != 0
  | .nan => false
  | .string s => s != ""
  | .function _ => true
  | .object _ => true

/-- The object `Overlay`: the shared register. -/
structure OverlayObj where
  instance_open : Bool
  animation_duration : Nat
  deriving DecidableEq, Repr

/-- One registration made by `addEventListener('click', callback, options)`. -/
structure Listener where
  callback : Nat
  once : Bool
  deriving DecidableEq, Repr

/-- The parts of the document the overlay functions write. -/
structure Dom where
  splashScreen_innerHTML : String
  splashScreenRoot_animation : String
  alertDialog_h2 : String
  alertDialog_div : String
  alertDialog_btn : String
  alertDialog_btn_click : List Listener
  alertDialogRoot_animation : String
  alertDialog_animation : String
  actionDialog_h2 : String
  actionDialog_content : String
  actionDialog_btnOk : String
  actionDialog_btnOk_click : List Listener
  actionDialogRoot_animation : String
  actionDialog_animation : String
  menu_h2 : String
  menuRoot_animation : String
  menu_animation : String
  deriving DecidableEq, Repr

/-- The closures handed to `setTimeout` by the overlay functions, with the
variables each closure captures. -/
inductive Task where
  | splashDisplay (innerHTML : String)
  | splashHide (func : JSVal)
  | alertDisplay (title message button : String) (func : JSVal)
  | alertHide (func : JSVal)
  | actionDisplay (title message button : String)
  | actionHide (func : JSVal)
  | menuDisplay (title : String)
  | menuHide (func : JSVal)
  deriving DecidableEq, Repr

/-- A pending `setTimeout(task, delay)` started when the clock showed `due - delay`. -/
structure Timer where
  delay : Nat
  due : Nat
  task : Task
  deriving DecidableEq, Repr

/-- What the page observes besides the state of the overlays. -/
inductive Effect where
  | thrown (message : String)
  | uncaught (message : String)
  | invoked (func : Nat)
  deriving DecidableEq, Repr

/-- The four overlay objects. -/
inductive Inst where
  | SplashScreen
  | Menu
  | AlertDialog
  | ActionDialog
  deriving DecidableEq, Repr

/-- The mutable state of `overlays.js`, the document parts it writes, the pending
timers in the order they were started, the clock in milliseconds and the
effects observed so far. -/
structure State where
  Overlay : OverlayObj
  SplashScreen_visible : Bool
  AlertDialog_visible : Bool
  ActionDialog_visible : Bool
  ActionDialog_onClickFunction : JSVal
  Menu_visible : Bool
  dom : Dom
  timers : List Timer
  now : Nat
  log : List Effect
  deriving DecidableEq, Repr

/-- The state and the error thrown, if any, when a function returns. -/
structure Outcome where
  state : State
  thrown : Option String
  deriving DecidableEq, Repr

/-- The positional arguments of a `display` call; `none` and `undefined` stand
for an omitted argument.  `SplashScreen.display` and `Menu.display` declare
only the first parameter. -/
structure DisplayArgs where
  title : Option String
  message : Option String
  button : JSVal
  func : JSVal
  deriving DecidableEq, Repr

/-- The state after the module has been loaded. -/
def State.init : State where
  Overlay := { instance_open := false, animation_duration := 250 }
  SplashScreen_visible := false
  AlertDialog_visible := false
  ActionDialog_visible := false
  ActionDialog_onClickFunction := .undefined
  Menu_visible := false
  dom := {
    splashScreen_innerHTML := "", splashScreenRoot_animation := "",
    alertDialog_h2 := "", alertDialog_div := "", alertDialog_btn := "",
    alertDialog_btn_click := [], alertDialogRoot_animation := "",
    alertDialog_animation := "",
    actionDialog_h2 := "", actionDialog_content := "", actionDialog_btnOk := "",
    actionDialog_btnOk_click := [], actionDialogRoot_animation := "",
    actionDialog_animation := "",
    menu_h2 := "", menuRoot_animation := "", menu_animation := "" }
  timers := []
  now := 0
  log := []

/-- The flag `visible` of an overlay object. -/
def State.visible (s : State) : Inst → Bool
  | .SplashScreen => s.SplashScreen_visible
  | .Menu => s.Menu_visible
  | .AlertDialog => s.AlertDialog_visible
  | .ActionDialog => s.ActionDialog_visible

/-- The method `Overlay.setInstanceOpen(val)`. -/
def Overlay.setInstanceOpen (val : Bool) (s : State) : State :=
  { s with Overlay := { s.Overlay with instance_open := val } }

/-- The method `Overlay.setAnimDuration(val)`. -/
def Overlay.setAnimDuration (val : Nat) (s : State) : State :=
  { s with Overlay := { s.Overlay with animation_duration := val } }

/-- The call `setTimeout(task, timeout)`. -/
def setTimeout (task : Task) (timeout : Nat) (s : State) : State :=
  { s with timers := s.timers ++ [{ delay := timeout, due := s.now + timeout, task := task }] }

/-- The expression `text.replace(/\n/g, '<br>')`. -/
def newlinesToBr (text : String) : String :=
  String.mk (replaceAll "\n".data "<br>".data text.data)

/-- The call `addEventListener('click', callback, options)` on a list of
registrations: a callback already registered is not registered again. -/
def addEventListener (callback : JSVal) (once : Bool) (ls : List Listener) : List Listener :=
  match callback with
  | .function f => if ls.any (fun l => l.callback == f) then ls else ls ++ [{ callback := f, once := once }]
  | _ => ls

/-- The call `removeEventListener('click', callback)` on a list of registrations. -/
def removeEventListener (callback : JSVal) (ls : List Listener) : List Listener :=
  match callback with
  | .function f => ls.filter (fun l => l.callback != f)
  | _ => ls

/-- The statement found in `ActionDialog.display` and in `ActionDialog.hide`:
`if (this.onClickFunction) $('#actionDialog_btnOk').removeEventListener('click', this.onClickFunction);` -/
def ActionDialog.removeClickListener (s : State) : State :=
  if s.ActionDialog_onClickFunction.truthy then
    { s with dom := { s.dom with actionDialog_btnOk_click :=
        (removeEventListener s.ActionDialog_onClickFunction s.dom.actionDialog_btnOk_click) } }
  else s

/-- The statements that end the closure of every `hide`: `if (!func) return;`,
the `typeof` test that throws, and `func.call()`.  The text `name` is the
object named in the message.  The invocation of the callback is noted in the
log; the calls the callback makes to the overlay functions are further events
of the run. -/
def additionalFunction (name : String) (func : JSVal) (s : State) : Outcome :=
  if !func.truthy then { state := s, thrown := none }
  else
    match func with
    | .function f => { state := { s with log := s.log ++ [.invoked f] }, thrown := none }
    | _ =>
      { state := s,
        thrown := some ("Error: overlays.js: " ++ name ++ ".hide(): func is " ++ func.typeof
          ++ ", expected function") }

/-- Running the closure of a timer. -/
def runTask (task : Task) (s : State) : Outcome :=
  match task with
  | .splashDisplay innerHTML =>
    let s := { s with dom := { s.dom with
      splashScreen_innerHTML := innerHTML,
      splashScreenRoot_animation := "fadeIn 0ms forwards" } }
    { state := Overlay.setInstanceOpen true { s with SplashScreen_visible := true },
      thrown := none }
  | .splashHide func =>
    additionalFunction "SplashScreen" func
      (Overlay.setInstanceOpen false { s with SplashScreen_visible := false })
  | .alertDisplay title message button func =>
    let d := toString s.Overlay.animation_duration
    let s := { s with dom := { s.dom with
      alertDialog_h2 := newlinesToBr title,
      alertDialog_div := newlinesToBr message,
      alertDialog_btn := button,
      alertDialog_btn_click :=
        if func.truthy then addEventListener func true s.dom.alertDialog_btn_click
        else s.dom.alertDialog_btn_click,
      alertDialogRoot_animation := "fadeIn " ++ d ++ "ms forwards",
      alertDialog_animation := "scaleIn " ++ d ++ "ms forwards" } }
    { state := Overlay.setInstanceOpen true { s with AlertDialog_visible := true },
      thrown := none }
  | .alertHide func =>
    additionalFunction "AlertDialog" func
      (Overlay.setInstanceOpen false { s with AlertDialog_visible := false })
  | .actionDisplay title message button =>
    let d := toString s.Overlay.animation_duration
    let s := { s with dom := { s.dom with
      actionDialog_h2 := newlinesToBr title,
      actionDialog_content := newlinesToBr message,
      actionDialog_btnOk := button,
      actionDialog_btnOk_click :=
        if s.ActionDialog_onClickFunction.truthy then
          addEventListener s.ActionDialog_onClickFunction false s.dom.actionDialog_btnOk_click
        else s.dom.actionDialog_btnOk_click,
      actionDialogRoot_animation := "fadeIn " ++ d ++ "ms forwards",
      actionDialog_animation := "scaleIn " ++ d ++ "ms forwards" } }
    { state := Overlay.setInstanceOpen true { s with ActionDialog_visible := true },
      thrown := none }
  | .actionHide func =>
    additionalFunction "ActionDialog" func
      (Overlay.setInstanceOpen false { s with ActionDialog_visible := false })
  | .menuDisplay title =>
    let d := toString s.Overlay.animation_duration
    let s := { s with dom := { s.dom with
      menu_h2 := newlinesToBr title,
      menuRoot_animation := "fadeIn " ++ d ++ "ms forwards",
      menu_animation := "scaleIn " ++ d ++ "ms forwards" } }
    { state := Overlay.setInstanceOpen true { s with Menu_visible := true },
      thrown := none }
  | .menuHide func =>
    additionalFunction "Menu" func
      (Overlay.setInstanceOpen false { s with Menu_visible := false })

/-- The delay chosen by every `display`: `animation_duration` when an overlay is
open, `0` otherwise. -/
def displayTimeout (s : State) : Nat :=
  if s.Overlay.instance_open then s.Overlay.animation_duration else 0

/-- The method `SplashScreen.display(innerHTML = '')`. -/
def SplashScreen.display (innerHTML : Option String) (s : State) : Outcome :=
  let innerHTML := innerHTML.getD ""
  let timeout := displayTimeout s
  if !s.SplashScreen_visible then
    { state := setTimeout (.splashDisplay innerHTML) timeout s, thrown := none }
  else
    { state := s,
      thrown := some "Error: overlays.js: SplashScreen.display(): SplashScreen is already visible" }

/-- The method `SplashScreen.hide(func)`. -/
def SplashScreen.hide (func : JSVal) (s : State) : Outcome :=
  let timeout := s.Overlay.animation_duration
  let p : State × Nat :=
    if s.SplashScreen_visible then
      ({ s with dom := { s.dom with
          splashScreen_innerHTML := "",
          splashScreenRoot_animation :=
            "fadeOut " ++ toString s.Overlay.animation_duration ++ "ms forwards" } }, timeout)
    else (s, 0)
  { state := setTimeout (.splashHide func) p.2 p.1, thrown := none }

/-- The method `AlertDialog.display(title = 'Alert!', message = '', button = 'Close', func)`. -/
def AlertDialog.display (title message : Option String) (button func : JSVal) (s : State) :
    Outcome :=
  let title := title.getD "Alert!"
  let message := message.getD ""
  let button := if button = .undefined then JSVal.string "Close" else button
  match button with
  | .string b =>
    if func.truthy && func.typeof != "function" then
      { state := s,
        thrown := some ("Error: overlays.js: AlertDialog.display(): func is " ++ func.typeof
          ++ ", expected function") }
    else
      let timeout := displayTimeout s
      if !s.AlertDialog_visible then
        { state := setTimeout (.alertDisplay title message b func) timeout s, thrown := none }
      else
        { state := s,
          thrown := some ("Error: overlays.js: AlertDialog.display(): AlertDialog "
            ++ "(a.k.a. 'alert') is already visible") }
  | _ =>
    { state := s,
      thrown := some ("Error: overlays.js: AlertDialog.display(): button is " ++ button.typeof
        ++ ", expected String") }

/-- The method `AlertDialog.hide(func)`. -/
def AlertDialog.hide (func : JSVal) (s : State) : Outcome :=
  let timeout := s.Overlay.animation_duration
  let d := toString s.Overlay.animation_duration
  let p : State × Nat :=
    if s.AlertDialog_visible then
      ({ s with dom := { s.dom with
          alertDialogRoot_animation := "fadeOut " ++ d ++ "ms forwards",
          alertDialog_animation := "scaleOut " ++ d ++ "ms forwards" } }, timeout)
    else (s, 0)
  { state := setTimeout (.alertHide func) p.2 p.1, thrown := none }

/-- The method `ActionDialog.display(title = 'Alert!', message = '', button = 'OK', func)`. -/
def ActionDialog.display (title message : Option String) (button func : JSVal) (s : State) :
    Outcome :=
  let title := title.getD "Alert!"
  let message := message.getD ""
  let button := if button = .undefined then JSVal.string "OK" else button
  match button with
  | .string b =>
    if !func.truthy || func.typeof != "function" then
      { state := s,
        thrown := some ("Error: overlays.js: ActionDialog.display(): func is " ++ func.typeof
          ++ ", expected function") }
    else
      let s := ActionDialog.removeClickListener s
      let s := { s with ActionDialog_onClickFunction := func }
      let timeout := displayTimeout s
      if !s.ActionDialog_visible then
        { state := setTimeout (.actionDisplay title message b) timeout s, thrown := none }
      else
        { state := s,
          thrown := some ("Error: overlays.js: ActionDialog.display(): ActionDialog "
            ++ "(a.k.a. 'action') is already visible") }
  | _ =>
    { state := s,
      thrown := some ("Error: overlays.js: ActionDialog.display(): button is " ++ button.typeof
        ++ ", expected String") }

/-- The method `ActionDialog.hide(func)`. -/
def ActionDialog.hide (func : JSVal) (s : State) : Outcome :=
  let timeout := s.Overlay.animation_duration
  let d := toString s.Overlay.animation_duration
  let p : State × Nat :=
    if s.ActionDialog_visible then
      ({ s with dom := { s.dom with
          actionDialogRoot_animation := "fadeOut " ++ d ++ "ms forwards",
          actionDialog_animation := "scaleOut " ++ d ++ "ms forwards" } }, timeout)
    else (s, 0)
  { state := setTimeout (.actionHide func) p.2 (ActionDialog.removeClickListener p.1),
    thrown := none }

/-- The method `Menu.display(title = 'Menu')`. -/
def Menu.display (title : Option String) (s : State) : Outcome :=
  let title := title.getD "Menu"
  let timeout := displayTimeout s
  if !s.Menu_visible then
    { state := setTimeout (.menuDisplay title) timeout s, thrown := none }
  else
    { state := s, thrown := some "Error: overlays.js: Menu.display(): menu is already visible" }

/-- The method `Menu.hide(func)`. -/
def Menu.hide (func : JSVal) (s : State) : Outcome :=
  let timeout := s.Overlay.animation_duration
  let d := toString s.Overlay.animation_duration
  let p : State × Nat :=
    if s.Menu_visible then
      ({ s with dom := { s.dom with
          menuRoot_animation := "fadeOut " ++ d ++ "ms forwards",
          menu_animation := "scaleOut " ++ d ++ "ms forwards" } }, timeout)
    else (s, 0)
  { state := setTimeout (.menuHide func) p.2 p.1, thrown := none }

/-- The method `Dialog.display(category, title, message, button, func)`. -/
def Dialog.display (category : String) (title message : Option String) (button func : JSVal)
    (s : State) : Outcome :=
  if category = "alert" then AlertDialog.display title message button func s
  else if category = "action" then ActionDialog.display title message button func s
  else
    { state := s,
      thrown := some ("Error: overlays.js: Dialog.display(): category = " ++ category
        ++ ", expected 'alert' or 'action'") }

/-- The method `Dialog.hide(category, func)`. -/
def Dialog.hide (category : String) (func : JSVal) (s : State) : Outcome :=
  if category = "alert" then AlertDialog.hide func s
  else if category = "action" then ActionDialog.hide func s
  else
    { state := s,
      thrown := some ("Error: overlays.js: Dialog.hide(): category = " ++ category
        ++ ", expected 'alert' or 'action'") }

/-- The method `display` of the overlay object `i`; the two dialogs are reached
through `Dialog.display` with their category. -/
def display (i : Inst) (a : DisplayArgs) (s : State) : Outcome :=
  match i with
  | .SplashScreen => SplashScreen.display a.title s
  | .Menu => Menu.display a.title s
  | .AlertDialog => Dialog.display "alert" a.title a.message a.button a.func s
  | .ActionDialog => Dialog.display "action" a.title a.message a.button a.func s

/-- The method `hide` of the overlay object `i`. -/
def hide (i : Inst) (func : JSVal) (s : State) : Outcome :=
  match i with
  | .SplashScreen => SplashScreen.hide func s
  | .Menu => Menu.hide func s
  | .AlertDialog => Dialog.hide "alert" func s
  | .ActionDialog => Dialog.hide "action" func s

/-- The overlay object whose `display` started the task, if it is such a task. -/
def Task.displayOf : Task → Option Inst
  | .splashDisplay _ => some .SplashScreen
  | .alertDisplay _ _ _ _ => some .AlertDialog
  | .actionDisplay _ _ _ => some .ActionDialog
  | .menuDisplay _ => some .Menu
  | _ => none

/-- The overlay object whose `hide` started the task, if it is such a task. -/
def Task.hideOf : Task → Option Inst
  | .splashHide _ => some .SplashScreen
  | .alertHide _ => some .AlertDialog
  | .actionHide _ => some .ActionDialog
  | .menuHide _ => some .Menu
  | _ => none

/-- What can happen to the page: a call of an exported function, the passing of
`ms` milliseconds, or the firing of the pending timer at position `k`. -/
inductive Event where
  | display (i : Inst) (a : DisplayArgs)
  | hide (i : Inst) (func : JSVal)
  | setInstanceOpen (val : Bool)
  | setAnimDuration (val : Nat)
  | tick (ms : Nat)
  | fire (k : Nat)
  deriving DecidableEq, Repr

/-- The timer at position `k` may fire: it is due, and every timer started
before it with a delay not larger than its own has already fired. -/
def canFire (s : State) (k : Nat) : Option Timer :=
  match s.timers[k]? with
  | none => none
  | some t =>
    if t.due ≤ s.now ∧ (s.timers.take k).all (fun u => decide (t.delay < u.delay)) then some t
    else none

/-- The state after a function returned: an error it threw is noted in the log. -/
def Outcome.settle (o : Outcome) : State :=
  match o.thrown with
  | none => o.state
  | some m => { o.state with log := o.state.log ++ [.thrown m] }

/-- The state after a timer closure returned: an error it threw is uncaught. -/
def Outcome.settleTimer (o : Outcome) : State :=
  match o.thrown with
  | none => o.state
  | some m => { o.state with log := o.state.log ++ [.uncaught m] }

/-- One event.  An event that cannot happen (no such timer, or a timer that may
not fire yet) leaves the state as it is. -/
def step (s : State) : Event → State
  | .display i a => (display i a s).settle
  | .hide i func => (hide i func s).settle
  | .setInstanceOpen val => Overlay.setInstanceOpen val s
  | .setAnimDuration val => Overlay.setAnimDuration val s
  | .tick ms => { s with now := s.now + ms }
  | .fire k =>
    match canFire s k with
    | none => s
    | some t => (runTask t.task { s with timers := s.timers.eraseIdx k }).settleTimer

/-- A sequence of events, from left to right. -/
def run (s : State) (events : List Event) : State :=
  events.foldl step s

/-- The overlay objects whose flag `visible` is set. -/
def visibleInsts (s : State) : List Inst :=
  [Inst.SplashScreen, Inst.Menu, Inst.AlertDialog, Inst.ActionDialog].filter s.visible

/-- The pending timers that were started by a `display`. -/
def pendingDisplays (s : State) : List Timer :=
  s.timers.filter (fun t => t.task.displayOf.isSome)

/-- No event of the sequence fires a timer started by `hide` of the object `i`. -/
def noHideFired (i : Inst) : State → List Event → Bool
  | _, [] => true
  | s, e :: es =>
    (match e with
      | .fire k =>
        (match canFire s k with
          | some t => decide (t.task.hideOf ≠ some i)
          | none => true)
      | _ => true) && noHideFired i (step s e) es

/-- The caller's discipline under which overlays do not pile up: `display` is
only called while no overlay object is visible and no timer started by an
earlier `display` is pending. -/
def disciplined : State → List Event → Bool
  | _, [] => true
  | s, e :: es =>
    (match e with
      | .display _ _ => decide (visibleInsts s = [] ∧ pendingDisplays s = [])
      | _ => true) && disciplined (step s e) es

/-- The name of an overlay object as its error messages spell it. -/
def Inst.name : Inst → String
  | .SplashScreen => "SplashScreen"
  | .Menu => "Menu"
  | .AlertDialog => "AlertDialog"
  | .ActionDialog => "ActionDialog"

/-- The arguments pass the `typeof` tests at the head of `display`: a button
title that is omitted or a string, and a callback that is falsy or a function
for `AlertDialog`, a function for `ActionDialog`. -/
def argsAccepted : Inst → DisplayArgs → Bool
  | .SplashScreen, _ => true
  | .Menu, _ => true
  | .AlertDialog, a =>
    (a.button == .undefined || a.button.typeof == "string")
      && (!a.func.truthy || a.func.typeof == "function")
  | .ActionDialog, a =>
    (a.button == .undefined || a.button.typeof == "string")
      && (a.func.truthy && a.func.typeof == "function")

/-- The button title after the default of the parameter has been applied. -/
def buttonText (default : String) : JSVal → String
  | .string b => b
  | _ => default

/-- The closure a `display` call that does not throw hands to `setTimeout`. -/
def displayTask : Inst → DisplayArgs → Task
  | .SplashScreen, a => .splashDisplay (a.title.getD "")
  | .Menu, a => .menuDisplay (a.title.getD "Menu")
  | .AlertDialog, a =>
    .alertDisplay (a.title.getD "Alert!") (a.message.getD "") (buttonText "Close" a.button) a.func
  | .ActionDialog, a =>
    .actionDisplay (a.title.getD "Alert!") (a.message.getD "") (buttonText "OK" a.button)

/-- The closure a `hide` call hands to `setTimeout`. -/
def hideTask : Inst → JSVal → Task
  | .SplashScreen, func => .splashHide func
  | .Menu, func => .menuHide func
  | .AlertDialog, func => .alertHide func
  | .ActionDialog, func => .actionHide func

/-- The texts an overlay object shows in the document. -/
def shownContent (s : State) : Inst → List String
  | .SplashScreen => [s.dom.splashScreen_innerHTML]
  | .Menu => [s.dom.menu_h2]
  | .AlertDialog => [s.dom.alertDialog_h2, s.dom.alertDialog_div, s.dom.alertDialog_btn]
  | .ActionDialog => [s.dom.actionDialog_h2, s.dom.actionDialog_content, s.dom.actionDialog_btnOk]

/-- The texts a `display` call asks an overlay object to show. -/
def requestedContent : Inst → DisplayArgs → List String
  | .SplashScreen, a => [a.title.getD ""]
  | .Menu, a => [newlinesToBr (a.title.getD "Menu")]
  | .AlertDialog, a =>
    [newlinesToBr (a.title.getD "Alert!"), newlinesToBr (a.message.getD ""),
      buttonText "Close" a.button]
  | .ActionDialog, a =>
    [newlinesToBr (a.title.getD "Alert!"), newlinesToBr (a.message.getD ""),
      buttonText "OK" a.button]

/-- A `display` call without arguments. -/
def noArgs : DisplayArgs :=
  { title := none, message := none, button := .undefined, func := .undefined }

/-- The error is the one `Dialog.display` and `Dialog.hide` throw for a
category they do not know: its message starts with the name of the object
`Dialog`. -/
def isCategoryError (thrown : Option String) : Bool :=
  match thrown with
  | some message => "Error: overlays.js: Dialog.".data.isPrefixOf message.data
  | none => false

/-! ## Callbacks registered on the dialog buttons -/

/-- A click on a button: every registered callback is invoked in the order of
registration, and the registrations made with `once` are dropped. -/
def dispatchClick (ls : List Listener) : List Effect × List Listener :=
  (ls.map (fun l => Effect.invoked l.callback), ls.filter (fun l => !l.once))

/-- The click registrations on `#actionDialog_btnOk` are in order: there is none,
or there is exactly one and it is for the function kept in
`ActionDialog.onClickFunction`. -/
def actionListenersOk (s : State) : Prop :=
  s.dom.actionDialog_btnOk_click = []
    ∨ ∃ f, s.ActionDialog_onClickFunction = JSVal.function f
        ∧ s.dom.actionDialog_btnOk_click = [{ callback := f, once := false }]

/-- A `display` call with a title, a message, a button title and a callback. -/
def withCallback (func : Nat) : DisplayArgs :=
  { title := some "Title", message := some "Message", button := .string "OK",
    func := .function func }

/-! ## Chat page (`messaging/chat/script.js`, `common.js`) -/

/-- The length of a JavaScript string: its number of UTF-16 code units. -/
def jsLength (s : List Char) : Nat :=
  (s.map (fun c => if c.toNat < 65536 then 1 else 2)).sum

/-- The characters `String.prototype.trim` strips: white space and line
terminators of ECMAScript. -/
def isTrimmed (c : Char) : Bool :=
  [9, 10, 11, 12, 13, 32, 160, 5760, 8232, 8233, 8239, 8287, 12288, 65279].contains c.toNat
    || (8192 ≤ c.toNat && c.toNat ≤ 8202)

/-- The method `String.prototype.trim`. -/
def trim (s : List Char) : List Char :=
  ((s.dropWhile isTrimmed).reverse.dropWhile isTrimmed).reverse

/-- The method `String.prototype.includes` for a string argument. -/
def includes (s pat : List Char) : Bool :=
  decide (pat <:+: s)

/-- The method `String.prototype.substring(start)` on a string whose first
`start` code units are characters of the basic plane. -/
def substring (s : List Char) (start : Nat) : List Char :=
  s.drop start

/-- What the page takes from outside this file: the constant `USER_ID` of
`variables.js`, `HtmlSanitizer.SanitizeHtml`, `MDtoHTML.makeHtml` of showdown,
and what the loop over `pre > code` with `hljs` makes of the converted text. -/
structure Externals where
  USER_ID : String
  SanitizeHtml : List Char → List Char
  makeHtml : List Char → List Char
  highlightCode : List Char → List Char

/-- The object `time` of a message. Of its fields only `stamp` is read by the
code below: `some t` when `parseInt(time.stamp)` is the integer `t`, `none` when
the field is missing or not numeric, so that `parseInt` gives `NaN`. -/
structure MessageTime where
  stamp : Option Int
  time : String
  deriving DecidableEq, Repr

/-- A message as written under `CHAT_ROOT` and as kept in `ChatData`. -/
structure Message where
  pushkey : String
  uid : String
  message : List Char
  time : MessageTime
  deriving DecidableEq, Repr

/-- The result of `snapshot.val()` in the listeners: the string
`'default-placeholder'` or a message. -/
inductive SnapshotVal where
  | default_placeholder
  | data (data : Message)
  deriving DecidableEq, Repr

/-- The object `ChatData`: its own properties in the order of their creation.
The object is a plain object; its prototype is not part of the page. -/
abbrev ChatData := List (String × Message)

/-- The own property `ChatData[key]`, if there is one; `none` stands for
`undefined`. -/
def ChatData.get : ChatData → String → Option Message
  | [], _ => none
  | (k, v) :: cd, key => if k = key then some v else ChatData.get cd key

/-- The assignment `ChatData[key] = value`: an existing property keeps its
place, a new one is created last.  For the name `__proto__` no property is
created: where the object has no own property of that name the assignment runs
the setter inherited from `Object.prototype`, which puts `value` in the place of
the prototype and leaves the own properties as they are. -/
def ChatData.set : ChatData → String → Message → ChatData
  | [], key, value => if key = "__proto__" then [] else [(key, value)]
  | (k, v) :: cd, key, value =>
    if k = key then (key, value) :: cd else (k, v) :: ChatData.set cd key value

/-- The statement `delete ChatData[key]`. -/
def ChatData.delete : ChatData → String → ChatData
  | [], _ => []
  | (k, v) :: cd, key =>
    if k = key then ChatData.delete cd key else (k, v) :: ChatData.delete cd key

/-- The property names of `ChatData`. -/
def ChatData.keys (cd : ChatData) : List String :=
  cd.map (fun p => p.1)

/-- The array index a property name stands for, if it is the canonical decimal
form of an integer below `2 ^ 32 - 1`. -/
def arrayIndex (key : String) : Option Nat :=
  match key.toNat? with
  | some n => if toString n == key && n < 4294967295 then some n else none
  | none => none

/-- Insertion of a key into a list of keys sorted by array index. -/
def insertByIndex (key : String × Nat) : List (String × Nat) → List (String × Nat)
  | [] => [key]
  | k :: ks => if key.2 ≤ k.2 then key :: k :: ks else k :: insertByIndex key ks

/-- The order in which `for (let pushkey in ChatData)` visits the properties:
array indices in ascending order, then the other names in the order of their
creation. -/
def ChatData.forInOrder (cd : ChatData) : List String :=
  ((cd.keys.filterMap (fun k => (arrayIndex k).map (fun n => (k, n)))).foldr insertByIndex []).map
      (fun p => p.1)
    ++ cd.keys.filter (fun k => (arrayIndex k).isNone)

/-- The class of the inner `div` of a bubble: `this chatbubble_bg` for a message
of the local user, `that` for any other. -/
inductive BubbleClass where
  | this_chatbubble_bg
  | that
  deriving DecidableEq, Repr

/-- One `<div class="bubbles"><div class="..." id="...">...</div></div>` of the
chat area. -/
structure Bubble where
  cls : BubbleClass
  id : String
  innerHTML : List Char
  deriving DecidableEq, Repr

/-- The variables of the chat page: `ChatData`, the bubbles of `#chatarea` in
document order, the value of `#txtmsg` and `quote_reply_text`. -/
structure ChatPage where
  ChatData : ChatData
  chatarea : List Bubble
  txtmsg_value : List Char
  quote_reply_text : List Char
  deriving DecidableEq, Repr

/-- What a handler asks of the rest of the page and of the remote database. -/
inductive ChatEffect where
  | dialogDisplay (category title message : String)
  | remoteDelete (key : String)
  | remoteCreate (message : List Char)
  | focus
  deriving DecidableEq, Repr

/-- The page, the requests and the error thrown, if any, when a handler returns. -/
structure Handled where
  page : ChatPage
  effects : List ChatEffect
  thrown : Option String
  deriving DecidableEq, Repr

/-- Modelled from the spec: the helper `$` of `domfunc.js` is not among the
sources; `$('#id')` is taken to be the first element with that id, here the
first bubble whose inner `div` has it, or `null`. -/
def ChatPage.byId (p : ChatPage) (id : String) : Option Bubble :=
  p.chatarea.find? (fun b => b.id == id)

/-- Modelled from the spec: the helper `appendHTMLString` of `domfunc.js` is not
among the sources; the bubble is taken to become the last child of `#chatarea`. -/
def appendHTMLString (b : Bubble) (p : ChatPage) : ChatPage :=
  { p with chatarea := p.chatarea ++ [b] }

/-- The statement `$(sel).parentNode.parentNode.removeChild($(sel).parentNode)`
for an element that exists: the first bubble with that id leaves the chat area. -/
def removeBubble (id : String) (p : ChatPage) : ChatPage :=
  { p with chatarea := p.chatarea.eraseP (fun b => b.id == id) }

/-- The statements of `loadMessageFrom(pushkey)` after `ChatData[pushkey]` has
been read as the message `m`; the scroll they end with is not part of the page
state. -/
def loadMessageOf (E : Externals) (pushkey : String) (m : Message) (p : ChatPage) : ChatPage :=
  if m.uid == E.USER_ID then
    appendHTMLString { cls := .this_chatbubble_bg, id := pushkey, innerHTML := m.message } p
  else appendHTMLString { cls := .that, id := pushkey, innerHTML := m.message } p

/-- The inner function `loadMessageFrom(pushkey)` of `loadMessagesToUI`, called
for keys present in `ChatData`. -/
def loadMessageFrom (E : Externals) (pushkey : String) (p : ChatPage) : ChatPage :=
  match p.ChatData.get pushkey with
  | none => p
  | some m => loadMessageOf E pushkey m p

/-- The function `loadMessagesToUI(key = null)`: without a key the chat area is
rebuilt from `ChatData`; with a key present in `ChatData` the optimistic bubble
`#message-placeholder`, if any, is removed and the message is appended.  The
key `__proto__`, for which `ChatData[key]` reads the prototype, is dealt with
in `onChildAdded`, the one place that passes a key. -/
def loadMessagesToUI (E : Externals) (key : Option String) (p : ChatPage) : ChatPage :=
  match key with
  | none => p.ChatData.forInOrder.foldl (fun p k => loadMessageFrom E k p) { p with chatarea := [] }
  | some key =>
    if key == "" then
      p.ChatData.forInOrder.foldl (fun p k => loadMessageFrom E k p) { p with chatarea := [] }
    else if (p.ChatData.get key).isSome then
      loadMessageFrom E key (removeBubble "message-placeholder" p)
    else p

/-- The listener given to `FirebaseDB.onChildAdded`.  After the assignment
`ChatData['__proto__'] = value` the expression `ChatData['__proto__']` read by
`loadMessagesToUI` is `value`, be it as the own property that was there or as
the prototype the assignment has put in place: the optimistic bubble is removed
and the bubble of `value` is appended. -/
def onChildAdded (E : Externals) (val : SnapshotVal) (p : ChatPage) : ChatPage :=
  match val with
  | .default_placeholder => p
  | .data data =>
    let value : Message :=
      { pushkey := data.pushkey, uid := data.uid,
        message := E.SanitizeHtml (decode data.message), time := data.time }
    let p := { p with ChatData := (p.ChatData.set data.pushkey value) }
    if data.pushkey = "__proto__" then
      loadMessageOf E data.pushkey value (removeBubble "message-placeholder" p)
    else loadMessagesToUI E (some data.pushkey) p

/-- The listener given to `FirebaseDB.onChildRemoved`, with `snapshot.val().pushkey`
as argument: when no element has the id, `$(node_id).parentNode` throws and the
`delete` is not reached. -/
def onChildRemoved (pushkey : String) (p : ChatPage) : Handled :=
  match p.byId pushkey with
  | none =>
    { page := p, effects := [],
      thrown := some "TypeError: Cannot read properties of null (reading 'parentNode')" }
  | some _ =>
    { page := { removeBubble pushkey p with ChatData := p.ChatData.delete pushkey },
      effects := [], thrown := none }

/-- A notification of the remote database to the two listeners. -/
inductive Notification where
  | added (val : SnapshotVal)
  | removed (pushkey : String)
  deriving DecidableEq, Repr

/-- The page after a notification; an error thrown by a listener is uncaught
and leaves the page as the listener left it. -/
def deliver (E : Externals) (p : ChatPage) : Notification → ChatPage
  | .added val => onChildAdded E val p
  | .removed pushkey => (onChildRemoved pushkey p).page

/-- The page after a sequence of notifications. -/
def deliverAll (E : Externals) (p : ChatPage) (ns : List Notification) : ChatPage :=
  ns.foldl (deliver E) p

/-- The callback given to `Menu.hide` by the click on `#menu_unsend`;
`id` is `long_pressed_element.id` and `now` the result of `getTimeStamp()`.
With `NaN` for `parseInt(...)` the comparison `> 3600000` is false. -/
def unsendCallback (E : Externals) (now : Int) (id : String) (p : ChatPage) : Handled :=
  match p.ChatData.get id with
  | none =>
    { page := p, effects := [],
      thrown := some "TypeError: Cannot read properties of undefined (reading 'uid')" }
  | some m =>
    if m.uid != E.USER_ID then
      { page := p,
        effects := [.dialogDisplay "alert" "Not allowed"
          "You can unsend a message only if you have sent it."],
        thrown := none }
    else if (match m.time.stamp with
        | some stamp => decide (now - stamp > 3600000)
        | none => false) then
      { page := p,
        effects := [.dialogDisplay "alert" "Not allowed"
          "You can only unsend a message within 1 hour of sending it."],
        thrown := none }
    else { page := p, effects := [.remoteDelete id], thrown := none }

/-- The continuation `.then(() => delete ChatData[id])` of the remote delete. -/
def unsendDone (id : String) (p : ChatPage) : ChatPage :=
  { p with ChatData := p.ChatData.delete id }

/-- The text assigned to `quote_reply_text` by the callback of `#menu_reply`. -/
def quoteBlock (id : String) (innerHTML : List Char) : List Char :=
  "<blockquote id=\"tm_".data ++ id.data ++ "\" style=\"overflow:auto; max-height:100px;\">".data
    ++ innerHTML ++ "</blockquote>\n\n".data

/-- The callback given to `Menu.hide` by the click on `#menu_reply`, for the
long-pressed element. -/
def replyCallback (long_pressed_element : Bubble) (p : ChatPage) : Handled :=
  { page := { p with quote_reply_text :=
      (quoteBlock long_pressed_element.id long_pressed_element.innerHTML) },
    effects := [.focus], thrown := none }

/-- The listener of the click on `#btnsend`. The preview styling is left out;
the optimistic bubble is appended at once, the record is created later by the
timer the listener starts. -/
def btnsendClick (E : Externals) (p : ChatPage) : Handled :=
  let msgbackup := p.txtmsg_value
  if trim msgbackup == [] then
    { page := { p with txtmsg_value := [] }, effects := [.focus], thrown := none }
  else
    let msg := p.quote_reply_text ++ trim msgbackup
    if jsLength msg > 1024 * 2 then
      { page := { p with txtmsg_value := msgbackup },
        effects := [.dialogDisplay "alert" "Warning" "Text exceeds limit of 2KB"],
        thrown := none }
    else
      let code_HTML := E.makeHtml msg
      if trim code_HTML == [] then { page := p, effects := [], thrown := none }
      else
        let code_HTML := E.highlightCode code_HTML
        { page := appendHTMLString
            { cls := .this_chatbubble_bg, id := "message-placeholder", innerHTML := code_HTML }
            { p with quote_reply_text := [], txtmsg_value := [] },
          effects := [.focus, .remoteCreate (encode code_HTML)], thrown := none }

/-- The id looked up by the bubble highlighter for a click on an element with
id `targetId`; `blockquoteIds` are the ids of the `blockquote` elements that
contain the clicked element, in document order. -/
def highlightId (targetId : String) (blockquoteIds : List String) : Option String :=
  if includes targetId.data "tm_".data then some (String.mk (substring targetId.data 3))
  else
    match blockquoteIds.find? (fun id => includes id.data "tm_".data) with
    | some id => some (String.mk (substring id.data 3))
    | none => none

/-- The element `highlight_target` before `.parentNode` is taken: the result of
`$` for the id found, if any. -/
def highlightTarget (targetId : String) (blockquoteIds : List String) (p : ChatPage) :
    Option Bubble :=
  match highlightId targetId blockquoteIds with
  | some id => p.byId id
  | none => none

/-- The scroll state of an element. -/
structure Scrollable where
  scrollHeight : Int
  clientHeight : Int
  scrollTop : Int
  scrollBehavior : String
  deriving DecidableEq, Repr

/-- The assignment `element.scrollTop = value`: the browser keeps the position
between 0 and `scrollHeight - clientHeight`. -/
def setScrollTop (value : Int) (element : Scrollable) : Scrollable :=
  { element with scrollTop := max 0 (min value (element.scrollHeight - element.clientHeight)) }

/-- The function `smoothScroll(element)` of `common.js`. -/
def smoothScroll (element : Scrollable) : Scrollable :=
  let element :=
    if element.scrollHeight - element.scrollTop < 1024 then
      { element with scrollBehavior := "smooth" }
    else { element with scrollBehavior := "auto" }
  setScrollTop element.scrollHeight element

/-- The key was added by a notification of the sequence and no later
notification of the sequence removed it. -/
def AddedNotRemoved (ns : List Notification) (key : String) : Prop :=
  ∃ (pre post : List Notification) (data : Message),
    ns = pre ++ Notification.added (.data data) :: post ∧ data.pushkey = key
      ∧ Notification.removed key ∉ post

/-- The key can be a key generated by the remote database: it is not empty, it
is not the id `message-placeholder` the page gives to its optimistic bubble, and
it is not the name `__proto__`. -/
def isPushKey (key : String) : Prop :=
  key ≠ "" ∧ key ≠ "message-placeholder" ∧ key ≠ "__proto__"

/-- Sample values for the parts taken from outside: the local user is `me`,
and the three text functions leave the text as it is. -/
def sampleExternals : Externals :=
  { USER_ID := "me", SanitizeHtml := id, makeHtml := id, highlightCode := id }

/-- A page without messages and without a draft. -/
def emptyPage : ChatPage :=
  { ChatData := [], chatarea := [], txtmsg_value := [], quote_reply_text := [] }

instance (key : String) : Decidable (isPushKey key) := by
  unfold isPushKey; infer_instance

/-- The key carried by an add-notification, if it carries a message, can be a
key generated by the remote database. -/
def Notification.wellKeyed : Notification → Bool
  | .added (.data data) => decide (isPushKey data.pushkey)
  | _ => true

/-- A rejection of the unsend request: an alert titled `Not allowed`, nothing
else asked of the page or of the database, and the page left as it was. -/
def isNotAllowed (p : ChatPage) (h : Handled) : Prop :=
  h.page = p ∧ h.thrown = none
    ∧ ∃ message, h.effects = [ChatEffect.dialogDisplay "alert" "Not allowed" message]

/-- The send listener turned the draft down: the warning is the only request, the
draft is still in the input and no record is created. -/
def isTooLong (p : ChatPage) (h : Handled) : Prop :=
  h.effects = [ChatEffect.dialogDisplay "alert" "Warning" "Text exceeds limit of 2KB"]
    ∧ h.page.txtmsg_value = p.txtmsg_value ∧ ∀ body, ChatEffect.remoteCreate body ∉ h.effects

/-- A sample message with an empty body. -/
def sampleMessage (pushkey uid : String) (stamp : Option Int) : Message :=
  { pushkey := pushkey, uid := uid, message := [], time := { stamp := stamp, time := "" } }

/-- A page that holds one sample message and its bubble. -/
def samplePage (pushkey uid : String) (stamp : Option Int) : ChatPage :=
  { ChatData := [(pushkey, sampleMessage pushkey uid stamp)],
    chatarea := [{ cls := .that, id := pushkey, innerHTML := [] }],
    txtmsg_value := [], quote_reply_text := [] }

/-! ## URL query functions (`generalfunc.js`) -/

/-- A value stored for a query field: a string, or the array of the strings of
a repeated field. -/
inductive QueryValue where
  | str (value : List Char)
  | arr (values : List (List Char))
  deriving DecidableEq, Repr

/-- The way a call ends: it returns a value or it throws. -/
inductive Completion (α : Type) where
  | returned (value : α)
  | thrown (message : String)
  deriving DecidableEq, Repr

/-- The object `Parameters` of `getURLQuery`: its own properties in the order
they were created. -/
abbrev Parameters := List (List Char × QueryValue)

/-- The own property `Parameters[key]`, if there is one. -/
def Parameters.get : Parameters → List Char → Option QueryValue
  | [], _ => none
  | (k, v) :: rest, key => if k = key then some v else Parameters.get rest key

/-- The assignment to an own property, created at the end when it is new. -/
def Parameters.set : Parameters → List Char → QueryValue → Parameters
  | [], key, value => [(key, value)]
  | (k, v) :: rest, key, value =>
    if k = key then (k, value) :: rest else (k, v) :: Parameters.set rest key value

/-- The expression `querystr.split(/\?|\&/)`. -/
def splitQuery (querystr : List Char) : List (List Char) :=
  querystr.splitOnP (fun c => c == '?' || c == '&')

/-- The expression `item.split(/=/)`. -/
def splitItem (item : List Char) : List (List Char) :=
  item.splitOnP (fun c => c == '=')

/-- The property name that selects the method `Parameters.hasOwnProperty`. -/
def hasOwnPropertyName : List Char := "hasOwnProperty".data

/-- The property name that selects the prototype accessor of an object. -/
def protoName : List Char := "__proto__".data

/-- The loop of `getURLQuery` over the items still to be read.  The object
`Parameters` is created by `\x7b\x7d`, so it inherits from `Object.prototype`:
the call `Parameters.hasOwnProperty(param)` finds the inherited method unless
an own property of that name has been created, in which case the value found
is a string or an array and the call throws a `TypeError`; the assignment
`Parameters['__proto__'] = value` runs the inherited setter, which ignores a
string and creates no own property. -/
def getURLQueryLoop (fields : List (List Char)) :
    List (List Char) → Parameters → Completion Parameters
  | [], P => .returned P
  | item :: items, P =>
    if item = [] then getURLQueryLoop fields items P
    else
      match splitItem item with
      | [param, value] =>
        if param = [] ∨ value = [] then getURLQueryLoop fields items P
        else if fields.length ≠ 0 ∧ param ∉ fields then getURLQueryLoop fields items P
        else
          match P.get hasOwnPropertyName with
          | some _ => .thrown "TypeError: Parameters.hasOwnProperty is not a function"
          | none =>
            match P.get param with
            | none =>
              if param = protoName then getURLQueryLoop fields items P
              else getURLQueryLoop fields items (P.set param (.str value))
            | some (.arr values) =>
              getURLQueryLoop fields items (P.set param (.arr (values ++ [value])))
            | some (.str first) =>
              getURLQueryLoop fields items (P.set param (.arr [first, value]))
      | _ =>
        .thrown ("Error: generalfunc.js: getURLQuery(): malformed URL parameter '"
          ++ String.mk item ++ "'")

/-- The function `getURLQuery(fields, querystr)`. -/
def getURLQuery (fields : List (List Char)) (querystr : List Char) : Completion Parameters :=
  getURLQueryLoop fields (splitQuery querystr) []

/-- The loop of `getURLQueryFieldValue` over the items still to be read, with
the array `values` collected so far.  The built-in `toLowerCase` is a
parameter. -/
def getURLQueryFieldValueLoop (toLowerCase : List Char → List Char) (field : List Char) :
    List (List Char) → List (List Char) → Completion (List (List Char))
  | [], values => .returned values
  | item :: items, values =>
    if item = [] then getURLQueryFieldValueLoop toLowerCase field items values
    else
      match splitItem item with
      | [param, value] =>
        if param ≠ [] ∧ value ≠ [] ∧ toLowerCase field = toLowerCase param then
          getURLQueryFieldValueLoop toLowerCase field items (values ++ [value])
        else getURLQueryFieldValueLoop toLowerCase field items values
      | _ =>
        .thrown ("Error: generalfunc.js: getURLQueryFieldValue(): malformed URL parameter '"
          ++ String.mk item ++ "'")

/-- The value of the last line of the two functions for the strings collected:
`undefined` (here `none`) for none, the string itself for one, the array for
more. -/
def returnedValue : List (List Char) → Option QueryValue
  | [] => none
  | [value] => some (.str value)
  | values => some (.arr values)

/-- The function `getURLQueryFieldValue(field, querystr)`. -/
def getURLQueryFieldValue (toLowerCase : List Char → List Char) (field querystr : List Char) :
    Completion (Option QueryValue) :=
  match getURLQueryFieldValueLoop toLowerCase field (splitQuery querystr) [] with
  | .returned values => .returned (returnedValue values)
  | .thrown e => .thrown e

/-- The name of a parameter: the text of an item before its first `=`. -/
def itemName (item : List Char) : List Char :=
  item.takeWhile (fun c => c != '=')

/-- The value of a parameter: the text of an item after its first `=`. -/
def itemValue (item : List Char) : List Char :=
  (item.dropWhile (fun c => c != '=')).drop 1

/-- An item is malformed when it does not hold exactly one `=`. -/
def malformed (item : List Char) : Prop :=
  item ≠ [] ∧ item.count '=' ≠ 1

instance (item : List Char) : Decidable (malformed item) := by
  unfold malformed; infer_instance

/-- The values of the items that name the parameter `name` and have a value,
in the order of the items. -/
def valuesOf (name : List Char) (items : List (List Char)) : List (List Char) :=
  (items.filter (fun item => itemName item = name ∧ itemName item ≠ [] ∧ itemValue item ≠ [])).map
    itemValue

/-- The lower-case form of a text of ASCII letters, on which `toLowerCase`
agrees with it. -/
def asciiLowerCase (s : List Char) : List Char :=
  s.map Char.toLower

/-- The values of the items that have a name and a value and whose name is
`field` when letter case is ignored, in the order of the items. -/
def matchingValues (toLowerCase : List Char → List Char) (field : List Char)
    (items : List (List Char)) : List (List Char) :=
  (items.filter (fun item =>
    itemName item ≠ [] ∧ itemValue item ≠ [] ∧ toLowerCase field = toLowerCase (itemName item))).map
    itemValue

/-- The values of the items that have a value and whose name is `field` when
letter case is ignored, the name itself being allowed to be empty. -/
def valuesNamedLike (toLowerCase : List Char → List Char) (field : List Char)
    (items : List (List Char)) : List (List Char) :=
  (items.filter (fun item =>
    itemValue item ≠ [] ∧ toLowerCase field = toLowerCase (itemName item))).map itemValue

/-- The values `getURLQuery` is asked for under the name `name`: those of
`valuesOf` when `fields` is empty or lists the name, none otherwise. -/
def selectedValues (fields : List (List Char)) (name : List Char) (items : List (List Char)) :
    List (List Char) :=
  if fields = [] ∨ name ∈ fields then valuesOf name items else []

/-- The value of a property after one more value has been read for it. -/
def pushValue (old : Option QueryValue) (value : List Char) : QueryValue :=
  match old with
  | none => .str value
  | some (.arr values) => .arr (values ++ [value])
  | some (.str first) => .arr [first, value]

/-! ## Tokens (`generalfunc.js`, `common.js`) -/

/-- The array `array_of_chars` of `generateToken`. -/
def array_of_chars : List Char :=
  "abcdefghijklmnopqrstuvwxyzABCDEFGHIJKLMNOPQRSTUVWXYZ1234567890".data

/-- A number that is not negative, as the fraction `num / den`: the value of a
call of `Math.random()`, or of its product with an integer. -/
structure Draw where
  num : Nat
  den : Nat
  deriving DecidableEq, Repr

/-- The integer written by `x.toFixed(0)` for `x = num / den`: the integer
nearest to `x`, the larger one when two are equally near. -/
def toFixed0 (x : Draw) : Nat :=
  (2 * x.num + x.den) / (2 * x.den)

/-- The index `j` computed in one turn of the loop of `generateToken` from the
value `r` of `Math.random()`.  The product of two doubles is a double: `fl`
takes the exact product to the double the multiplication yields. -/
def tokenIndex (fl : Draw → Draw) (r : Draw) : Nat :=
  toFixed0 (fl { num := r.num * (array_of_chars.length - 1), den := r.den })

/-- The function `generateToken(length)`, where `random i` is the value of
`Math.random()` in turn `i` of the loop.  An index outside the array reads
`undefined`, which `join('')` writes as the empty text. -/
def generateToken (fl : Draw → Draw) (random : Nat → Draw) (length : Nat) : List Char :=
  (List.range length).flatMap fun i =>
    match array_of_chars[tokenIndex fl (random i)]? with
    | some c => [c]
    | none => []

/-- A multiplication whose result is exact. -/
def exactProduct (x : Draw) : Draw := x

/-- A sequence of values of `Math.random()`: nought, one third, one half, and
so on in turn. -/
def sampleRandom (i : Nat) : Draw :=
  { num := i % 3, den := i % 3 + 2 }

/-! ## Long press on the chat page (`messaging/chat/script.js`) -/

/-- What the `pointerdown` listener tells apart in the target of the event: an
element of class `bubbles`, an image inside a bubble, a link, anything else. -/
inductive PressTarget where
  | bubbles
  | image
  | link
  | other
  deriving DecidableEq, Repr

/-- The closures the `pointerdown` listener hands to `setTimeout`: the one that
shrinks the pressed bubble after 200 ms, the one that opens the menu after
600 ms, the one that offers the download of an image after 600 ms and the one
that copies a link after 500 ms. -/
inductive PressTask where
  | scale
  | openMenu
  | imageDialog
  | copyLink
  deriving DecidableEq, Repr

/-- A pending timer of the long-press listeners, with the identifier
`setTimeout` returned for it. -/
structure PressTimer where
  id : Nat
  due : Nat
  task : PressTask
  deriving DecidableEq, Repr

/-- The variables `longpress_timer` and `longpress_timeout` (`none` while
undefined), the pending timers, the identifier of the next timer, the clock in
milliseconds and the number of calls of `Menu.display()` made so far.  The
styles the listeners write are left out. -/
structure PressState where
  longpress_timer : Option Nat
  longpress_timeout : Option Nat
  pending : List PressTimer
  nextId : Nat
  now : Nat
  menuDisplayed : Nat
  deriving DecidableEq, Repr

/-- The state when the listeners are registered. -/
def PressState.init : PressState :=
  { longpress_timer := none, longpress_timeout := none, pending := [], nextId := 0, now := 0,
    menuDisplayed := 0 }

/-- The call `setTimeout(task, delay)`; the identifier returned is `s.nextId`. -/
def pressSetTimeout (task : PressTask) (delay : Nat) (s : PressState) : PressState :=
  { s with pending := s.pending ++ [{ id := s.nextId, due := s.now + delay, task := task }],
           nextId := s.nextId + 1 }

/-- The call `clearTimeout(id)`: the timer of that identifier, if it is
pending, is dropped. -/
def pressClearTimeout (id : Option Nat) (s : PressState) : PressState :=
  { s with pending := s.pending.filter (fun t => some t.id ≠ id) }

/-- The `pointerdown` listener. -/
def pointerdown (EXISTS_ANDROID_INTERFACE : Bool) (target : PressTarget) (s : PressState) :
    PressState :=
  match target with
  | .bubbles =>
    let s := { pressSetTimeout .scale 200 s with longpress_timer := some s.nextId }
    { pressSetTimeout .openMenu 600 s with longpress_timeout := some s.nextId }
  | .image =>
    let s := { pressSetTimeout .scale 200 s with longpress_timer := some s.nextId }
    { pressSetTimeout .imageDialog 600 s with longpress_timeout := some s.nextId }
  | .link =>
    if EXISTS_ANDROID_INTERFACE then
      { pressSetTimeout .copyLink 500 s with longpress_timeout := some s.nextId }
    else s
  | .other => s

/-- The `pointerup` listener. -/
def pointerup (s : PressState) : PressState :=
  pressClearTimeout s.longpress_timeout (pressClearTimeout s.longpress_timer s)

/-- The `touchmove` listener. -/
def touchmove (s : PressState) : PressState :=
  pressClearTimeout s.longpress_timeout (pressClearTimeout s.longpress_timer s)

/-- Running the closure of a long-press timer. -/
def runPressTask (task : PressTask) (s : PressState) : PressState :=
  match task with
  | .scale => s
  | .openMenu =>
    let s := pressClearTimeout s.longpress_timer s
    { s with menuDisplayed := s.menuDisplayed + 1 }
  | .imageDialog => pressClearTimeout s.longpress_timer s
  | .copyLink => s

/-- What can happen on the chat page as far as a long press goes. -/
inductive PressEvent where
  | pointerdown (target : PressTarget)
  | pointerup
  | touchmove
  | wait (ms : Nat)
  | fire (id : Nat)
  deriving DecidableEq, Repr

/-- One event; a timer fires only when it is pending and due. -/
def pressStep (EXISTS_ANDROID_INTERFACE : Bool) (s : PressState) : PressEvent → PressState
  | .pointerdown target => pointerdown EXISTS_ANDROID_INTERFACE target s
  | .pointerup => pointerup s
  | .touchmove => touchmove s
  | .wait ms => { s with now := s.now + ms }
  | .fire id =>
    match s.pending.find? (fun t => t.id = id ∧ t.due ≤ s.now) with
    | some t => runPressTask t.task { s with pending := s.pending.filter (fun u => u.id ≠ id) }
    | none => s

/-- A sequence of events, from left to right. -/
def pressRun (EXISTS_ANDROID_INTERFACE : Bool) (s : PressState) (events : List PressEvent) :
    PressState :=
  events.foldl (pressStep EXISTS_ANDROID_INTERFACE) s

/-- Every pending timer is one whose identifier is kept in `longpress_timer`
or in `longpress_timeout`. -/
def pressTracked (s : PressState) : Prop :=
  ∀ t ∈ s.pending, some t.id = s.longpress_timer ∨ some t.id = s.longpress_timeout

/-! ## Theorems on the transport encoding -/

/-! ### Facts about the twenty tokens, checked by evaluation -/

theorem specialChars_nodup : specialChars.Nodup := by decide

theorem token_chars_not_special :
    ∀ p ∈ specialChars, ∀ y ∈ token p, y ∉ specialChars := by decide

theorem token_shape :
    ∀ p ∈ specialChars, token p = 'A' :: (token p).tail ∧ 'A' ∉ (token p).tail := by decide

theorem token_incomparable :
    ∀ c ∈ specialChars, ∀ x ∈ specialChars, x ≠ c →
      (token c).isPrefixOf (token x) = false ∧ (token x).isPrefixOf (token c) = false := by
  decide

theorem letterA_not_special : 'A' ∉ specialChars := by decide

/-! ### The scanner -/

theorem replaceAllAux_skip (pat rep : List Char) (s : List Char) :
    ∀ k, replaceAllAux pat rep k s = replaceAllAux pat rep 0 (s.drop k) := by
  induction s with
  | nil => intro k; cases k <;> simp [replaceAllAux]
  | cons c s ih =>
    intro k
    cases k with
    | zero => simp
    | succ k => simp only [replaceAllAux, List.drop_succ_cons]; exact ih k

theorem replaceAll_nil (pat rep : List Char) : replaceAll pat rep [] = [] := by
  simp [replaceAll, replaceAllAux]

theorem replaceAll_cons_no_match (pat rep : List Char) (c : Char) (s : List Char)
    (h : ¬ pat <+: c :: s) :
    replaceAll pat rep (c :: s) = c :: replaceAll pat rep s := by
  have h2 : pat.isPrefixOf (c :: s) = false := by
    cases hb : pat.isPrefixOf (c :: s) with
    | false => rfl
    | true => exact absurd (List.isPrefixOf_iff_prefix.mp hb) h
  simp [replaceAll, replaceAllAux, h2]

theorem replaceAll_at_match (p : Char) (ps rep s : List Char) :
    replaceAll (p :: ps) rep ((p :: ps) ++ s) = rep ++ replaceAll (p :: ps) rep s := by
  have h2 : (p :: ps).isPrefixOf (p :: (ps ++ s)) = true :=
    List.isPrefixOf_iff_prefix.mpr (List.prefix_append (p :: ps) s)
  simp only [replaceAll, List.cons_append, replaceAllAux, h2, if_true]
  rw [replaceAllAux_skip]
  simp

theorem replaceAll_skip_block (p : Char) (ps rep : List Char) (w s : List Char)
    (hw : ∀ y ∈ w, y ≠ p) :
    replaceAll (p :: ps) rep (w ++ s) = w ++ replaceAll (p :: ps) rep s := by
  induction w with
  | nil => rfl
  | cons y w ih =>
    have hy : y ≠ p := hw y (List.mem_cons_self y w)
    have hnp : ¬ (p :: ps) <+: y :: (w ++ s) := by
      intro hp
      exact hy (List.cons_prefix_cons.mp hp).1.symm
    rw [List.cons_append, replaceAll_cons_no_match _ _ _ _ hnp,
      ih (fun z hz => hw z (List.mem_cons_of_mem y hz))]
    rfl

theorem replaceAll_single (c : Char) (rep s : List Char) :
    replaceAll [c] rep s = s.flatMap (fun x => if x = c then rep else [x]) := by
  induction s with
  | nil => simp [replaceAll_nil]
  | cons x s ih =>
    by_cases hx : x = c
    · subst hx
      have h := replaceAll_at_match x [] rep s
      simp only [List.singleton_append] at h
      rw [h, ih]
      simp
    · have hnp : ¬ [c] <+: x :: s := by
        intro hp
        exact hx (List.cons_prefix_cons.mp hp).1.symm
      rw [replaceAll_cons_no_match _ _ _ _ hnp, ih]
      simp [hx]

/-! ### `encode` as a simultaneous substitution -/

theorem flatMap_subst_nil (s : List Char) : s.flatMap (subst []) = s := by
  induction s with
  | nil => rfl
  | cons x s ih => simp [List.flatMap_cons, subst, ih]

theorem subst_specialChars : subst specialChars = encodeChar := rfl

/-- One pass of `encode` over a string in which the characters of `P` are
already written as tokens. -/
theorem encode_pass (P : List Char) (c : Char) (hP : ∀ p ∈ P, p ∈ specialChars)
    (hc : c ∈ specialChars) (s : List Char) :
    replaceAll [c] (token c) (s.flatMap (subst P)) = s.flatMap (subst (P ++ [c])) := by
  rw [replaceAll_single, List.flatMap_assoc]
  congr 1
  funext x
  by_cases hx : x ∈ P
  · have hfix : ∀ w : List Char, (∀ y ∈ w, y ≠ c) →
        w.flatMap (fun x => if x = c then token c else [x]) = w := by
      intro w
      induction w with
      | nil => intro _; rfl
      | cons y w ih =>
        intro hw
        have hy : y ≠ c := hw y (List.mem_cons_self y w)
        simp [List.flatMap_cons, hy, ih (fun z hz => hw z (List.mem_cons_of_mem y hz))]
    have hne : ∀ y ∈ token x, y ≠ c := by
      intro y hy hyc
      exact token_chars_not_special x (hP x hx) y hy (hyc ▸ hc)
    simp only [subst, hx, if_true, List.mem_append, true_or]
    exact hfix _ hne
  · by_cases hxc : x = c
    · subst hxc
      simp [subst, hx]
    · simp [subst, hx, hxc]

theorem encode_fold (L : List Char) :
    ∀ (P : List Char), (∀ p ∈ P, p ∈ specialChars) → (∀ c ∈ L, c ∈ specialChars) →
      ∀ s : List Char,
        L.foldl (fun str character => replaceAll [character] (token character) str)
          (s.flatMap (subst P)) = s.flatMap (subst (P ++ L)) := by
  induction L with
  | nil => intro P _ _ s; simp
  | cons c L ih =>
    intro P hP hL s
    have hc : c ∈ specialChars := hL c (List.mem_cons_self c L)
    rw [List.foldl_cons, encode_pass P c hP hc s]
    have hP2 : ∀ p ∈ P ++ [c], p ∈ specialChars := by
      intro p hp
      rcases List.mem_append.mp hp with h | h
      · exact hP p h
      · rw [List.mem_singleton.mp h]; exact hc
    rw [ih (P ++ [c]) hP2 (fun z hz => hL z (List.mem_cons_of_mem c hz)) s]
    simp

theorem encode_eq_flatMap (s : List Char) : encode s = s.flatMap encodeChar := by
  have h := encode_fold specialChars [] (by simp) (fun _ h => h) s
  rw [flatMap_subst_nil] at h
  simpa [encode, subst_specialChars] using h

/-! ### `decode` after `encode` -/

/-- A text without the letter `A` and without special characters that starts
the image of `s` under `subst L` was already at the start of `s`. -/
theorem prefix_of_prefix_flatMap_subst (L : List Char) (hL : ∀ c ∈ L, c ∈ specialChars)
    (p : List Char) :
    (∀ y ∈ p, y ≠ 'A' ∧ y ∉ specialChars) →
      ∀ s : List Char, p <+: s.flatMap (subst L) → p <+: s := by
  induction p with
  | nil => intro _ s _; exact List.nil_prefix
  | cons y p ih =>
    intro hp s hpre
    have hy := hp y (List.mem_cons_self y p)
    cases s with
    | nil => simp at hpre
    | cons x r =>
      rw [List.flatMap_cons] at hpre
      by_cases hx : x ∈ L
      · have hshape := (token_shape x (hL x hx)).1
        simp only [subst, hx, if_true] at hpre
        rw [hshape, List.cons_append] at hpre
        exact absurd (List.cons_prefix_cons.mp hpre).1 hy.1
      · simp only [subst, hx, if_false, List.singleton_append] at hpre
        have h2 := List.cons_prefix_cons.mp hpre
        exact List.cons_prefix_cons.mpr
          ⟨h2.1, ih (fun z hz => hp z (List.mem_cons_of_mem y hz)) r h2.2⟩

theorem not_token_prefix_token_append (c x : Char) (hc : c ∈ specialChars)
    (hx : x ∈ specialChars) (hne : x ≠ c) (R : List Char) : ¬ token c <+: token x ++ R := by
  intro h
  have hinc := token_incomparable c hc x hx hne
  rcases List.prefix_or_prefix_of_prefix h (List.prefix_append (token x) R) with h1 | h1
  · have := List.isPrefixOf_iff_prefix.mpr h1
    rw [hinc.1] at this
    exact Bool.noConfusion this
  · have := List.isPrefixOf_iff_prefix.mpr h1
    rw [hinc.2] at this
    exact Bool.noConfusion this

/-- One pass of `decode`: in a string where `c` and the characters of `L` are
written as tokens, replacing the token of `c` writes exactly the characters `c`
of the original back, provided the original has no literal token of `c`. -/
theorem decode_pass (c : Char) (L : List Char) (hc : c ∈ specialChars)
    (hL : ∀ x ∈ L, x ∈ specialChars) (hcL : c ∉ L) :
    ∀ s : List Char, ¬ token c <:+: s →
      replaceAll (token c) [c] (s.flatMap (subst (c :: L))) = s.flatMap (subst L) := by
  have hcL2 : ∀ x ∈ c :: L, x ∈ specialChars := by
    intro x hx
    rcases List.mem_cons.mp hx with h | h
    · rw [h]; exact hc
    · exact hL x h
  obtain ⟨hshape, hnoA⟩ := token_shape c hc
  intro s
  induction s with
  | nil => intro _; simp [replaceAll_nil]
  | cons x r ih =>
    intro hs
    have hr : ¬ token c <:+: r := fun h => hs (List.infix_cons h)
    have hpre : ¬ token c <+: x :: r := fun h => hs h.isInfix
    rw [List.flatMap_cons, List.flatMap_cons]
    by_cases hxc : x = c
    · subst hxc
      have h1 : subst (x :: L) x = token x := by simp [subst]
      have h2 : subst L x = [x] := by simp [subst, hcL]
      rw [h1, h2, hshape, replaceAll_at_match, ← hshape, ih hr]
    · by_cases hxL : x ∈ L
      · have h1 : subst (c :: L) x = token x := by simp [subst, hxL]
        have h2 : subst L x = token x := by simp [subst, hxL]
        have hxs := hL x hxL
        obtain ⟨hshapex, hnoAx⟩ := token_shape x hxs
        rw [h1, h2]
        have hnp : ¬ token c <+: token x ++ r.flatMap (subst (c :: L)) :=
          not_token_prefix_token_append c x hc hxs hxc _
        rw [hshapex, List.cons_append] at hnp ⊢
        rw [hshape] at hnp ⊢
        rw [replaceAll_cons_no_match _ _ _ _ hnp,
          replaceAll_skip_block 'A' _ _ _ _ (fun y hy h => hnoAx (h ▸ hy))]
        rw [← hshape, ih hr]
        rfl
      · have h1 : subst (c :: L) x = [x] := by simp [subst, hxL, hxc]
        have h2 : subst L x = [x] := by simp [subst, hxL]
        rw [h1, h2, List.singleton_append, List.singleton_append]
        have hnp : ¬ token c <+: x :: r.flatMap (subst (c :: L)) := by
          intro h
          rw [hshape] at h
          have h3 := List.cons_prefix_cons.mp h
          have htail : ∀ y ∈ (token c).tail, y ≠ 'A' ∧ y ∉ specialChars := by
            intro y hy
            refine ⟨fun h => hnoA (h ▸ hy), ?_⟩
            exact token_chars_not_special c hc y (List.mem_of_mem_tail hy)
          have h4 := prefix_of_prefix_flatMap_subst (c :: L) hcL2 _ htail r h3.2
          apply hpre
          rw [hshape]
          exact List.cons_prefix_cons.mpr ⟨h3.1, h4⟩
        rw [replaceAll_cons_no_match _ _ _ _ hnp, ih hr]

theorem decode_fold (s : List Char) (L : List Char) :
    L.Nodup → (∀ c ∈ L, c ∈ specialChars) → (∀ c ∈ L, ¬ token c <:+: s) →
      L.foldl (fun str character => replaceAll (token character) [character] str)
        (s.flatMap (subst L)) = s := by
  induction L with
  | nil => intro _ _ _; simp [flatMap_subst_nil]
  | cons c L ih =>
    intro hnd hL hfree
    have hnd2 := List.nodup_cons.mp hnd
    have hL2 : ∀ x ∈ L, x ∈ specialChars := fun x hx => hL x (List.mem_cons_of_mem c hx)
    rw [List.foldl_cons,
      decode_pass c L (hL c (List.mem_cons_self c L)) hL2 hnd2.1 s
        (hfree c (List.mem_cons_self c L))]
    exact ih hnd2.2 hL2 (fun x hx => hfree x (List.mem_cons_of_mem c hx))

/-- Round trip for every string without a literal token. -/
theorem decode_encode_of_tokenFree (s : List Char) (h : TokenFree s) :
    decode (encode s) = s := by
  rw [encode_eq_flatMap, ← subst_specialChars]
  exact decode_fold s specialChars specialChars_nodup (fun _ h => h) h

theorem tokenFree_of_all_special (s : List Char) (h : ∀ x ∈ s, x ∈ specialChars) :
    TokenFree s := by
  intro c hc hin
  have hshape := (token_shape c hc).1
  have hA : 'A' ∈ token c := by rw [hshape]; exact List.mem_cons_self _ _
  exact letterA_not_special (h 'A' (hin.subset hA))

theorem specialChars_codes :
    specialChars.map Char.toNat =
      [10, 13, 33, 34, 35, 36, 37, 38, 39, 46, 47, 60, 61, 62, 64, 91, 92, 93, 123, 125] := by
  decide

/-! ### Claims on the transport encoding -/

/-- C1, as stated, fails: the text `ASCII10` has no special character, so `encode`
leaves it as it is, and `decode` then reads it as the token of a newline. -/
theorem C1_literal_token_not_restored :
    encode "ASCII10".data = "ASCII10".data ∧ decode (encode "ASCII10".data) = "\n".data
      ∧ decode (encode "ASCII10".data) ≠ "ASCII10".data := by
  decide

/-- C1, amended: for every string `s` in which no token (the text `ASCII` followed
by the decimal code of a special character) occurs, `decode (encode s) = s`. -/
theorem C1_decode_encode_tokenFree (s : List Char) (h : TokenFree s) :
    decode (encode s) = s :=
  decode_encode_of_tokenFree s h

theorem C1_decode_encode_tokenFree_witness :
    TokenFree "ASCII.10 <b>hi</b>".data
      ∧ decode (encode "ASCII.10 <b>hi</b>".data) = "ASCII.10 <b>hi</b>".data :=
  ⟨by decide, C1_decode_encode_tokenFree _ (by decide)⟩

/-- C2: for every string built only from the twenty special characters, in any
order and with any repetition, `decode (encode s) = s`. -/
theorem C2_decode_encode_special_only (s : List Char) (h : ∀ x ∈ s, x ∈ specialChars) :
    decode (encode s) = s :=
  decode_encode_of_tokenFree s (tokenFree_of_all_special s h)

theorem C2_decode_encode_special_only_witness :
    (∀ x ∈ "\x7b\x7d\n\n[\\]..!\r\x7b".data, x ∈ specialChars)
      ∧ decode (encode "\x7b\x7d\n\n[\\]..!\r\x7b".data) = "\x7b\x7d\n\n[\\]..!\r\x7b".data :=
  ⟨by decide, C2_decode_encode_special_only _ (by decide)⟩

/-- C3: the twenty sequential `replaceAll` passes of `encode` equal one
simultaneous substitution (the token `ASCII` + decimal code for each of the
twenty special characters, the character itself otherwise), and `encode`
distributes over concatenation. -/
theorem C3_encode_simultaneous :
    (∀ s : List Char, encode s = s.flatMap
        (fun c => if c ∈ specialChars then "ASCII".data ++ (toString c.toNat).data else [c]))
      ∧ (∀ a b : List Char, encode (a ++ b) = encode a ++ encode b) := by
  refine ⟨fun s => encode_eq_flatMap s, fun a b => ?_⟩
  rw [encode_eq_flatMap, encode_eq_flatMap, encode_eq_flatMap, List.flatMap_append]

/-- C4: the result of `encode` contains none of the twenty special characters. -/
theorem C4_encode_no_special (s : List Char) : ∀ y ∈ encode s, y ∉ specialChars := by
  intro y hy
  rw [encode_eq_flatMap] at hy
  obtain ⟨x, _, hyx⟩ := List.mem_flatMap.mp hy
  unfold encodeChar at hyx
  by_cases hx : x ∈ specialChars
  · rw [if_pos hx] at hyx
    exact token_chars_not_special x hx y hyx
  · rw [if_neg hx] at hyx
    rw [List.mem_singleton.mp hyx]
    exact hx

theorem C4_encode_no_special_witness :
    'I' ∈ encode "<b>hi.</b>\n".data ∧ 'I' ∉ specialChars :=
  ⟨by decide, C4_encode_no_special "<b>hi.</b>\n".data 'I' (by decide)⟩

/-! ## Theorems on the overlays -/

theorem settle_fields (o : Outcome) :
    o.settle.timers = o.state.timers ∧ o.settle.Overlay = o.state.Overlay
      ∧ o.settle.now = o.state.now ∧ ∀ j, o.settle.visible j = o.state.visible j := by
  unfold Outcome.settle
  cases o.thrown <;> refine ⟨rfl, rfl, rfl, fun j => ?_⟩ <;> cases j <;> rfl

theorem settleTimer_fields (o : Outcome) :
    o.settleTimer.timers = o.state.timers ∧ o.settleTimer.Overlay = o.state.Overlay
      ∧ o.settleTimer.now = o.state.now ∧ ∀ j, o.settleTimer.visible j = o.state.visible j := by
  unfold Outcome.settleTimer
  cases o.thrown <;> refine ⟨rfl, rfl, rfl, fun j => ?_⟩ <;> cases j <;> rfl

theorem removeClickListener_fields (s : State) :
    (ActionDialog.removeClickListener s).timers = s.timers
      ∧ (ActionDialog.removeClickListener s).Overlay = s.Overlay
      ∧ (ActionDialog.removeClickListener s).now = s.now
      ∧ ∀ j, (ActionDialog.removeClickListener s).visible j = s.visible j := by
  unfold ActionDialog.removeClickListener
  split <;> refine ⟨rfl, rfl, rfl, fun j => ?_⟩ <;> cases j <;> rfl

theorem additionalFunction_fields (name : String) (func : JSVal) (s : State) :
    (additionalFunction name func s).state.timers = s.timers
      ∧ (additionalFunction name func s).state.Overlay = s.Overlay
      ∧ (additionalFunction name func s).state.now = s.now
      ∧ ∀ j, (additionalFunction name func s).state.visible j = s.visible j := by
  unfold additionalFunction
  split
  · exact ⟨rfl, rfl, rfl, fun j => rfl⟩
  · split
    · refine ⟨rfl, rfl, rfl, fun j => ?_⟩; cases j <;> rfl
    · exact ⟨rfl, rfl, rfl, fun j => rfl⟩

theorem additionalFunction_thrown (name : String) (func : JSVal) (s : State)
    (hv : func.truthy = true) (ht : func.typeof ≠ "function") :
    (additionalFunction name func s).thrown
      = some ("Error: overlays.js: " ++ name ++ ".hide(): func is " ++ func.typeof
          ++ ", expected function") := by
  unfold additionalFunction
  cases func <;> simp_all [JSVal.truthy, JSVal.typeof]

theorem accepted_button (default : String) (button : JSVal)
    (h : (button == .undefined || button.typeof == "string") = true) :
    (if button = .undefined then JSVal.string default else button)
      = .string (buttonText default button) := by
  cases button <;> simp_all [JSVal.typeof, buttonText]

theorem rejected_button (default : String) (button : JSVal)
    (h : (button == .undefined || button.typeof == "string") = false) :
    ∀ b, (if button = .undefined then JSVal.string default else button) ≠ .string b := by
  cases button <;> simp_all [JSVal.typeof]

theorem AlertDialog_display_rejected (title message : Option String) (button func : JSVal)
    (s : State) (h : (button == .undefined || button.typeof == "string") = false) :
    ∃ msg, AlertDialog.display title message button func s = { state := s, thrown := some msg } := by
  have hr := rejected_button "Close" button h
  unfold AlertDialog.display
  generalize (if button = .undefined then JSVal.string "Close" else button) = bt at hr
  cases bt with
  | string b => exact absurd rfl (hr b)
  | _ => exact ⟨_, rfl⟩

theorem ActionDialog_display_rejected (title message : Option String) (button func : JSVal)
    (s : State) (h : (button == .undefined || button.typeof == "string") = false) :
    ∃ msg, ActionDialog.display title message button func s = { state := s, thrown := some msg } := by
  have hr := rejected_button "OK" button h
  unfold ActionDialog.display
  generalize (if button = .undefined then JSVal.string "OK" else button) = bt at hr
  cases bt with
  | string b => exact absurd rfl (hr b)
  | _ => exact ⟨_, rfl⟩

theorem AlertDialog_display_accepted (title message : Option String) (button func : JSVal)
    (s : State) (h : (button == .undefined || button.typeof == "string") = true) :
    AlertDialog.display title message button func s =
      if func.truthy && func.typeof != "function" then
        { state := s,
          thrown := some ("Error: overlays.js: AlertDialog.display(): func is " ++ func.typeof
            ++ ", expected function") }
      else if !s.AlertDialog_visible then
        { state := setTimeout (.alertDisplay (title.getD "Alert!") (message.getD "")
            (buttonText "Close" button) func) (displayTimeout s) s, thrown := none }
      else
        { state := s,
          thrown := some ("Error: overlays.js: AlertDialog.display(): AlertDialog "
            ++ "(a.k.a. 'alert') is already visible") } := by
  unfold AlertDialog.display
  simp only [accepted_button "Close" button h]

theorem ActionDialog_display_accepted (title message : Option String) (button func : JSVal)
    (s : State) (h : (button == .undefined || button.typeof == "string") = true) :
    ActionDialog.display title message button func s =
      if !func.truthy || func.typeof != "function" then
        { state := s,
          thrown := some ("Error: overlays.js: ActionDialog.display(): func is " ++ func.typeof
            ++ ", expected function") }
      else if !s.ActionDialog_visible then
        { state := setTimeout (.actionDisplay (title.getD "Alert!") (message.getD "")
            (buttonText "OK" button)) (displayTimeout s)
            { ActionDialog.removeClickListener s with ActionDialog_onClickFunction := func },
          thrown := none }
      else
        { state := { ActionDialog.removeClickListener s with ActionDialog_onClickFunction := func },
          thrown := some ("Error: overlays.js: ActionDialog.display(): ActionDialog "
            ++ "(a.k.a. 'action') is already visible") } := by
  obtain ⟨_, r2, _, r4⟩ := removeClickListener_fields s
  have r5 := r4 .ActionDialog
  simp only [State.visible] at r5
  unfold ActionDialog.display
  simp only [accepted_button "OK" button h, displayTimeout, r2, r5]

theorem Dialog_display_alert (title message : Option String) (button func : JSVal) (s : State) :
    Dialog.display "alert" title message button func s
      = AlertDialog.display title message button func s := by
  simp [Dialog.display]

theorem Dialog_display_action (title message : Option String) (button func : JSVal) (s : State) :
    Dialog.display "action" title message button func s
      = ActionDialog.display title message button func s := by
  simp [Dialog.display]

theorem Dialog_hide_alert (func : JSVal) (s : State) :
    Dialog.hide "alert" func s = AlertDialog.hide func s := by
  simp [Dialog.hide]

theorem Dialog_hide_action (func : JSVal) (s : State) :
    Dialog.hide "action" func s = ActionDialog.hide func s := by
  simp [Dialog.hide]

/-- Every `display` leaves the register, the clock and the flags `visible` as
they are, whether it throws or not. -/
theorem display_frame (i : Inst) (a : DisplayArgs) (s : State) :
    (display i a s).state.Overlay = s.Overlay ∧ (display i a s).state.now = s.now
      ∧ ∀ j, (display i a s).state.visible j = s.visible j := by
  cases i
  · simp only [display, SplashScreen.display, setTimeout]
    split <;> exact ⟨rfl, rfl, fun j => by cases j <;> rfl⟩
  · simp only [display, Menu.display, setTimeout]
    split <;> exact ⟨rfl, rfl, fun j => by cases j <;> rfl⟩
  · simp only [display, Dialog_display_alert]
    cases hb : (a.button == .undefined || a.button.typeof == "string")
    · obtain ⟨msg, hm⟩ := AlertDialog_display_rejected a.title a.message a.button a.func s hb
      rw [hm]; exact ⟨rfl, rfl, fun j => rfl⟩
    · rw [AlertDialog_display_accepted _ _ _ _ _ hb]
      split
      · exact ⟨rfl, rfl, fun j => rfl⟩
      · split
        · exact ⟨rfl, rfl, fun j => by cases j <;> rfl⟩
        · exact ⟨rfl, rfl, fun j => rfl⟩
  · simp only [display, Dialog_display_action]
    obtain ⟨_, r2, r3, r4⟩ := removeClickListener_fields s
    cases hb : (a.button == .undefined || a.button.typeof == "string")
    · obtain ⟨msg, hm⟩ := ActionDialog_display_rejected a.title a.message a.button a.func s hb
      rw [hm]; exact ⟨rfl, rfl, fun j => rfl⟩
    · rw [ActionDialog_display_accepted _ _ _ _ _ hb]
      split
      · exact ⟨rfl, rfl, fun j => rfl⟩
      · split
        · exact ⟨r2, r3, fun j => by rw [← r4 j]; cases j <;> rfl⟩
        · exact ⟨r2, r3, fun j => by rw [← r4 j]; cases j <;> rfl⟩

/-- The two ways a `display` call can end: it schedules the closure `displayTask`
with the delay read from the register, or it throws and schedules nothing. -/
theorem display_result (i : Inst) (a : DisplayArgs) (s : State) :
    (s.visible i = false ∧ argsAccepted i a = true ∧ (display i a s).thrown = none
        ∧ (display i a s).state.timers = s.timers ++
            [{ delay := displayTimeout s, due := s.now + displayTimeout s,
               task := displayTask i a }])
      ∨ ((s.visible i = true ∨ argsAccepted i a = false)
        ∧ (display i a s).thrown.isSome = true
        ∧ (display i a s).state.timers = s.timers) := by
  cases i
  · simp only [display, SplashScreen.display, setTimeout, State.visible, argsAccepted,
      displayTask]
    cases hv : s.SplashScreen_visible <;> simp
  · simp only [display, Menu.display, setTimeout, State.visible, argsAccepted, displayTask]
    cases hv : s.Menu_visible <;> simp
  · simp only [display, Dialog_display_alert, State.visible, argsAccepted, displayTask]
    cases hb : (a.button == .undefined || a.button.typeof == "string")
    · obtain ⟨msg, hm⟩ := AlertDialog_display_rejected a.title a.message a.button a.func s hb
      rw [hm]; simp
    · rw [AlertDialog_display_accepted _ _ _ _ _ hb]
      cases h1 : a.func.truthy <;> cases h2 : (a.func.typeof == "function")
        <;> cases hv : s.AlertDialog_visible <;> simp [bne, h2, setTimeout]
  · simp only [display, Dialog_display_action, State.visible, argsAccepted, displayTask]
    obtain ⟨r1, _, r3, _⟩ := removeClickListener_fields s
    cases hb : (a.button == .undefined || a.button.typeof == "string")
    · obtain ⟨msg, hm⟩ := ActionDialog_display_rejected a.title a.message a.button a.func s hb
      rw [hm]; simp
    · rw [ActionDialog_display_accepted _ _ _ _ _ hb]
      cases h1 : a.func.truthy <;> cases h2 : (a.func.typeof == "function")
        <;> cases hv : s.ActionDialog_visible <;> simp [bne, h2, setTimeout, r1, r3]

/-- Every `hide` returns normally and schedules the closure `hideTask`, with the
animation time as delay when the object is visible and with no delay otherwise. -/
theorem hide_result (i : Inst) (func : JSVal) (s : State) :
    (hide i func s).thrown = none
      ∧ (hide i func s).state.timers = s.timers ++
          [{ delay := if s.visible i then s.Overlay.animation_duration else 0,
             due := s.now + (if s.visible i then s.Overlay.animation_duration else 0),
             task := hideTask i func }]
      ∧ (hide i func s).state.Overlay = s.Overlay ∧ (hide i func s).state.now = s.now
      ∧ ∀ j, (hide i func s).state.visible j = s.visible j := by
  cases i
  · cases hv : s.SplashScreen_visible <;> refine ⟨?_, ?_, ?_, ?_, fun j => ?_⟩
      <;> (try cases j)
      <;> simp [hide, SplashScreen.hide, setTimeout, State.visible, hideTask, hv]
  · cases hv : s.Menu_visible <;> refine ⟨?_, ?_, ?_, ?_, fun j => ?_⟩
      <;> (try cases j)
      <;> simp [hide, Menu.hide, setTimeout, State.visible, hideTask, hv]
  · cases hv : s.AlertDialog_visible <;> refine ⟨?_, ?_, ?_, ?_, fun j => ?_⟩
      <;> (try cases j)
      <;> simp [hide, Dialog_hide_alert, AlertDialog.hide, setTimeout, State.visible,
        hideTask, hv]
  · cases hv : s.ActionDialog_visible
    · obtain ⟨r1, r2, r3, r4⟩ := removeClickListener_fields s
      refine ⟨?_, ?_, ?_, ?_, fun j => ?_⟩
      · simp [hide, Dialog_hide_action, ActionDialog.hide]
      · simp [hide, Dialog_hide_action, ActionDialog.hide, setTimeout, State.visible,
          hideTask, hv, r1, r3]
      · simp [hide, Dialog_hide_action, ActionDialog.hide, setTimeout, hv, r2]
      · simp [hide, Dialog_hide_action, ActionDialog.hide, setTimeout, hv, r3]
      · rw [← r4 j]
        cases j <;> simp [hide, Dialog_hide_action, ActionDialog.hide, setTimeout,
          State.visible, hv]
    · generalize hs2 : ({ s with dom := { s.dom with
          actionDialogRoot_animation :=
            "fadeOut " ++ toString s.Overlay.animation_duration ++ "ms forwards",
          actionDialog_animation :=
            "scaleOut " ++ toString s.Overlay.animation_duration ++ "ms forwards" } } : State)
        = s2
      have hh : hide .ActionDialog func s = { state := (setTimeout (.actionHide func)
          s.Overlay.animation_duration (ActionDialog.removeClickListener s2)), thrown := none } := by
        simp [hide, Dialog_hide_action, ActionDialog.hide, hv, ← hs2]
      obtain ⟨r1, r2, r3, r4⟩ := removeClickListener_fields s2
      have e1 : s2.timers = s.timers := by rw [← hs2]
      have e2 : s2.Overlay = s.Overlay := by rw [← hs2]
      have e3 : s2.now = s.now := by rw [← hs2]
      have e4 : ∀ j, s2.visible j = s.visible j := by
        intro j; rw [← hs2]; cases j <;> rfl
      rw [hh]
      refine ⟨rfl, ?_, ?_, ?_, fun j => ?_⟩
      · simp [setTimeout, State.visible, hideTask, hv, r1, r3, e1, e3]
      · simp [setTimeout, r2, e2]
      · simp [setTimeout, r3, e3]
      · rw [← e4 j, ← r4 j]
        cases j <;> rfl

/-- A timer closure touches neither the pending timers nor the clock, and the
only flag `visible` it writes is the one of its own overlay object. -/
theorem runTask_frame (t : Task) (s : State) :
    (runTask t s).state.timers = s.timers ∧ (runTask t s).state.now = s.now
      ∧ ∀ j, (runTask t s).state.visible j =
          if t.displayOf = some j then true
          else if t.hideOf = some j then false else s.visible j := by
  cases t with
  | splashDisplay _ | alertDisplay _ _ _ _ | actionDisplay _ _ _ | menuDisplay _ =>
    refine ⟨rfl, rfl, fun j => ?_⟩
    cases j <;> simp [runTask, Overlay.setInstanceOpen, State.visible, Task.displayOf,
      Task.hideOf]
  | splashHide f | alertHide f | actionHide f | menuHide f =>
    simp only [runTask]
    refine ⟨(additionalFunction_fields _ f _).1, (additionalFunction_fields _ f _).2.2.1,
      fun j => ?_⟩
    rw [(additionalFunction_fields _ f _).2.2.2 j]
    cases j <;> simp [Overlay.setInstanceOpen, State.visible, Task.displayOf, Task.hideOf]

theorem displayOf_displayTask (i : Inst) (a : DisplayArgs) :
    (displayTask i a).displayOf = some i ∧ (displayTask i a).hideOf = none := by
  cases i <;> exact ⟨rfl, rfl⟩

theorem hideOf_hideTask (i : Inst) (func : JSVal) :
    (hideTask i func).hideOf = some i ∧ (hideTask i func).displayOf = none := by
  cases i <;> exact ⟨rfl, rfl⟩

/-- The closure of `display`: in one step the content is written, the flag
`visible` is set and the register is opened; nothing is thrown. -/
theorem runTask_displayTask (i : Inst) (a : DisplayArgs) (s : State) :
    (runTask (displayTask i a) s).thrown = none
      ∧ (runTask (displayTask i a) s).state.visible i = true
      ∧ (runTask (displayTask i a) s).state.Overlay.instance_open = true
      ∧ shownContent (runTask (displayTask i a) s).state i = requestedContent i a := by
  cases i <;> exact ⟨rfl, rfl, rfl, rfl⟩

/-- The closure of `hide`: the flag `visible` and the register are cleared first;
a truthy argument that is not a function then makes the closure throw. -/
theorem runTask_hideTask (i : Inst) (func : JSVal) (s : State) :
    (runTask (hideTask i func) s).state.visible i = false
      ∧ (runTask (hideTask i func) s).state.Overlay.instance_open = false
      ∧ (func.truthy = false → (runTask (hideTask i func) s).thrown = none)
      ∧ (func.truthy = true → func.typeof ≠ "function" →
          (runTask (hideTask i func) s).thrown
            = some ("Error: overlays.js: " ++ i.name ++ ".hide(): func is " ++ func.typeof
                ++ ", expected function")) := by
  have hfr := (runTask_frame (hideTask i func) s).2.2 i
  rw [(hideOf_hideTask i func).1, (hideOf_hideTask i func).2] at hfr
  refine ⟨by simpa using hfr, ?_, ?_, ?_⟩
  · cases i <;> simp only [hideTask, runTask]
      <;> rw [(additionalFunction_fields _ func _).2.1] <;> rfl
  · intro hf
    cases i <;> simp [hideTask, runTask, additionalFunction, hf]
  · intro hv ht
    cases i <;> simp only [hideTask, runTask, Inst.name]
      <;> exact additionalFunction_thrown _ func _ hv ht

theorem canFire_spec (s : State) (k : Nat) (t : Timer) (h : canFire s k = some t) :
    s.timers[k]? = some t ∧ t.due ≤ s.now := by
  unfold canFire at h
  cases hk : s.timers[k]? with
  | none => rw [hk] at h; cases h
  | some u =>
    rw [hk] at h
    simp only at h
    split at h
    · rename_i hc
      cases h
      exact ⟨rfl, hc.1⟩
    · cases h

/-! ### Runs -/

theorem step_visible_of_no_hide (i : Inst) (s : State) (e : Event)
    (hv : s.visible i = true)
    (he : ∀ k t, e = .fire k → canFire s k = some t → t.task.hideOf ≠ some i) :
    (step s e).visible i = true := by
  cases e with
  | display j a =>
    simp only [step]
    rw [(settle_fields _).2.2.2 i, (display_frame j a s).2.2 i]; exact hv
  | hide j func =>
    simp only [step]
    rw [(settle_fields _).2.2.2 i, (hide_result j func s).2.2.2.2 i]; exact hv
  | setInstanceOpen val => rw [← hv]; cases i <;> rfl
  | setAnimDuration val => rw [← hv]; cases i <;> rfl
  | tick ms => rw [← hv]; cases i <;> rfl
  | fire k =>
    simp only [step]
    cases hc : canFire s k with
    | none => exact hv
    | some t =>
      simp only
      rw [(settleTimer_fields _).2.2.2 i, (runTask_frame _ _).2.2 i]
      have hne := he k t rfl hc
      have hv2 : ({ s with timers := s.timers.eraseIdx k } : State).visible i = true := by
        rw [← hv]; cases i <;> rfl
      simp [hne, hv2]

theorem run_visible_of_no_hide (i : Inst) (evs : List Event) :
    ∀ s : State, s.visible i = true → noHideFired i s evs = true →
      (run s evs).visible i = true := by
  induction evs with
  | nil => intro s hv _; exact hv
  | cons e es ih =>
    intro s hv hn
    simp only [noHideFired, Bool.and_eq_true] at hn
    have hstep : (step s e).visible i = true := by
      apply step_visible_of_no_hide i s e hv
      intro k t hek hc
      subst hek
      have h1 := hn.1
      simp only [hc, decide_eq_true_eq] at h1
      exact h1
    exact ih (step s e) hstep hn.2

theorem visibleInsts_length (s : State) :
    (visibleInsts s).length =
      s.SplashScreen_visible.toNat + s.Menu_visible.toNat + s.AlertDialog_visible.toNat
        + s.ActionDialog_visible.toNat := by
  simp only [visibleInsts, List.filter, State.visible]
  cases s.SplashScreen_visible <;> cases s.Menu_visible <;> cases s.AlertDialog_visible
    <;> cases s.ActionDialog_visible <;> rfl

theorem visibleInsts_congr (s s' : State) (h : ∀ j, s'.visible j = s.visible j) :
    visibleInsts s' = visibleInsts s := by
  have : s'.visible = s.visible := funext h
  simp only [visibleInsts, this]

theorem visibleInsts_length_set (s s' : State) (i : Inst) (b : Bool)
    (h : ∀ j, s'.visible j = if j = i then b else s.visible j) :
    (visibleInsts s').length ≤ (visibleInsts s).length + b.toNat := by
  have h1 := h .SplashScreen
  have h2 := h .Menu
  have h3 := h .AlertDialog
  have h4 := h .ActionDialog
  simp only [State.visible] at h1 h2 h3 h4
  rw [visibleInsts_length s', visibleInsts_length s, h1, h2, h3, h4]
  cases i <;> cases b <;> cases s.SplashScreen_visible <;> cases s.Menu_visible
    <;> cases s.AlertDialog_visible <;> cases s.ActionDialog_visible <;> simp

theorem filter_eraseIdx_length (p : Timer → Bool) (l : List Timer) :
    ∀ (k : Nat) (t : Timer), l[k]? = some t →
      ((l.eraseIdx k).filter p).length + (p t).toNat = (l.filter p).length := by
  induction l with
  | nil => intro k t h; simp at h
  | cons x l ih =>
    intro k t h
    cases k with
    | zero =>
      simp only [List.getElem?_cons_zero, Option.some.injEq] at h
      subst h
      cases hp : p x <;> simp [List.filter, hp]
    | succ k =>
      simp only [List.getElem?_cons_succ] at h
      have := ih k t h
      cases hp : p x <;> simp [List.filter, hp] <;> omega

theorem hideOf_of_displayOf (t : Task) (i : Inst) (h : t.displayOf = some i) :
    t.hideOf = none := by
  cases t <;> simp_all [Task.displayOf, Task.hideOf]

theorem pendingDisplays_congr (s s' : State) (h : s'.timers = s.timers) :
    pendingDisplays s' = pendingDisplays s := by
  simp only [pendingDisplays, h]

/-- The quantity kept by disciplined callers: overlay objects that are visible
plus `display` closures still waiting. -/
theorem step_load (s : State) (e : Event)
    (hinv : (visibleInsts s).length + (pendingDisplays s).length ≤ 1)
    (hd : ∀ i a, e = .display i a → visibleInsts s = [] ∧ pendingDisplays s = []) :
    (visibleInsts (step s e)).length + (pendingDisplays (step s e)).length ≤ 1 := by
  cases e with
  | display i a =>
    obtain ⟨hv, hp⟩ := hd i a rfl
    simp only [step]
    have e1 : visibleInsts (display i a s).settle = visibleInsts s :=
      visibleInsts_congr _ _ (fun j => by
        rw [(settle_fields _).2.2.2 j, (display_frame i a s).2.2 j])
    rw [e1, hv]
    simp only [pendingDisplays, (settle_fields _).1] at hp ⊢
    rcases display_result i a s with ⟨_, _, _, ht⟩ | ⟨_, _, ht⟩
    · rw [ht, List.filter_append, hp]
      simp [List.filter, (displayOf_displayTask i a).1]
    · rw [ht, hp]; simp
  | hide i func =>
    simp only [step]
    have e1 : visibleInsts (hide i func s).settle = visibleInsts s :=
      visibleInsts_congr _ _ (fun j => by
        rw [(settle_fields _).2.2.2 j, (hide_result i func s).2.2.2.2 j])
    have e2 : pendingDisplays (hide i func s).settle = pendingDisplays s := by
      simp only [pendingDisplays, (settle_fields _).1, (hide_result i func s).2.1,
        List.filter_append]
      simp [List.filter, (hideOf_hideTask i func).2]
    rw [e1, e2]; exact hinv
  | setInstanceOpen val =>
    have e1 : visibleInsts (step s (.setInstanceOpen val)) = visibleInsts s :=
      visibleInsts_congr _ _ (fun j => by cases j <;> rfl)
    rw [e1]; exact hinv
  | setAnimDuration val =>
    have e1 : visibleInsts (step s (.setAnimDuration val)) = visibleInsts s :=
      visibleInsts_congr _ _ (fun j => by cases j <;> rfl)
    rw [e1]; exact hinv
  | tick ms =>
    have e1 : visibleInsts (step s (.tick ms)) = visibleInsts s :=
      visibleInsts_congr _ _ (fun j => by cases j <;> rfl)
    rw [e1]; exact hinv
  | fire k =>
    simp only [step]
    cases hc : canFire s k with
    | none => exact hinv
    | some t =>
      simp only
      have hk := (canFire_spec s k t hc).1
      have hcount := filter_eraseIdx_length (fun t => t.task.displayOf.isSome) s.timers k t hk
      have hvis : ∀ j, (runTask t.task { s with timers := s.timers.eraseIdx k }).settleTimer.visible j
          = if t.task.displayOf = some j then true
            else if t.task.hideOf = some j then false else s.visible j := by
        intro j
        rw [(settleTimer_fields _).2.2.2 j, (runTask_frame _ _).2.2 j]
        cases j <;> rfl
      have htim : (runTask t.task { s with timers := s.timers.eraseIdx k }).settleTimer.timers
          = s.timers.eraseIdx k := by
        rw [(settleTimer_fields _).1, (runTask_frame _ _).1]
      have hpd : pendingDisplays (runTask t.task { s with timers := s.timers.eraseIdx k }).settleTimer
          = (s.timers.eraseIdx k).filter (fun t => t.task.displayOf.isSome) := by
        simp only [pendingDisplays, htim]
      rw [hpd]
      have hps : pendingDisplays s = s.timers.filter (fun t => t.task.displayOf.isSome) := rfl
      rw [hps] at hinv
      cases hdo : t.task.displayOf with
      | some i =>
        have hho : t.task.hideOf = none := hideOf_of_displayOf t.task i hdo
        have hset := visibleInsts_length_set s _ i true (fun j => by
          rw [hvis j, hdo, hho]
          by_cases hji : j = i
          · simp [hji]
          · have : ¬ some i = some j := fun h => hji (Option.some.inj h).symm
            simp [hji, this])
        simp only [hdo, Option.isSome_some, Bool.toNat_true] at hcount
        simp only [Bool.toNat_true] at hset
        omega
      | none =>
        simp only [hdo, Option.isSome_none, Bool.toNat_false, Nat.add_zero] at hcount
        rw [hcount]
        cases hho : t.task.hideOf with
        | some i =>
          have hset := visibleInsts_length_set s _ i false (fun j => by
            rw [hvis j, hdo, hho]
            by_cases hji : j = i
            · simp [hji]
            · have : ¬ some i = some j := fun h => hji (Option.some.inj h).symm
              simp [hji, this])
          simp only [Bool.toNat_false, Nat.add_zero] at hset
          omega
        | none =>
          have e1 := visibleInsts_congr s _ (fun j => by rw [hvis j, hdo, hho]; simp)
          rw [e1]; exact hinv

theorem run_load (evs : List Event) :
    ∀ s : State, (visibleInsts s).length + (pendingDisplays s).length ≤ 1 →
      disciplined s evs = true →
      (visibleInsts (run s evs)).length + (pendingDisplays (run s evs)).length ≤ 1 := by
  induction evs with
  | nil => intro s h _; exact h
  | cons e es ih =>
    intro s hinv hd
    simp only [disciplined, Bool.and_eq_true] at hd
    refine ih (step s e) (step_load s e hinv ?_) hd.2
    intro i a he
    subst he
    simpa using hd.1

/-! ### Claims on the overlays -/

/-- C5: for each overlay object, calling `display` while its flag `visible` is
set throws an error, schedules no transition and leaves the shared register
(`instance_open` and `animation_duration`) as it was. -/
theorem C5_display_while_visible_throws (i : Inst) (a : DisplayArgs) (s : State)
    (h : s.visible i = true) :
    (display i a s).thrown.isSome = true ∧ (display i a s).state.timers = s.timers
      ∧ (display i a s).state.Overlay = s.Overlay := by
  rcases display_result i a s with ⟨hf, _⟩ | ⟨_, ht, htm⟩
  · rw [h] at hf; cases hf
  · exact ⟨ht, htm, (display_frame i a s).1⟩

theorem C5_display_while_visible_throws_witness :
    (run State.init [.display .Menu noArgs, .fire 0]).visible .Menu = true
      ∧ ((display .Menu noArgs (run State.init [.display .Menu noArgs, .fire 0])).thrown.isSome
          = true
        ∧ (display .Menu noArgs (run State.init [.display .Menu noArgs, .fire 0])).state.timers
          = (run State.init [.display .Menu noArgs, .fire 0]).timers
        ∧ (display .Menu noArgs (run State.init [.display .Menu noArgs, .fire 0])).state.Overlay
          = (run State.init [.display .Menu noArgs, .fire 0]).Overlay) :=
  ⟨by decide, C5_display_while_visible_throws _ _ _ (by decide)⟩

/-- C6, as stated, fails: a second `Menu.display()` issued before the timer of the
first has run finds `visible` still unset, throws nothing and starts a second
timer. -/
theorem C6_second_display_before_transition_accepted :
    (display .Menu noArgs State.init).thrown = none
      ∧ (display .Menu noArgs (display .Menu noArgs State.init).state).thrown = none
      ∧ (display .Menu noArgs (display .Menu noArgs State.init).state).state.timers
        = [{ delay := 0, due := 0, task := .menuDisplay "Menu" },
           { delay := 0, due := 0, task := .menuDisplay "Menu" }] := by
  decide

/-- C6, amended: once the transition scheduled by an accepted `display` has run,
and as long as no transition of a `hide` of the same object runs, every further
`display` on that object throws and schedules nothing. (A second `display`
issued before the first transition has run is accepted.) -/
theorem C6_second_display_after_transition_rejected (i : Inst) (a a' : DisplayArgs)
    (s s' : State) (evs : List Event)
    (h1 : (display i a s).thrown = none)
    (h2 : noHideFired i (runTask (displayTask i a) s').settleTimer evs = true) :
    (display i a s).state.timers = s.timers ++
        [{ delay := displayTimeout s, due := s.now + displayTimeout s, task := displayTask i a }]
      ∧ (display i a' (run (runTask (displayTask i a) s').settleTimer evs)).thrown.isSome = true
      ∧ (display i a' (run (runTask (displayTask i a) s').settleTimer evs)).state.timers
          = (run (runTask (displayTask i a) s').settleTimer evs).timers := by
  have hvis : (runTask (displayTask i a) s').settleTimer.visible i = true := by
    rw [(settleTimer_fields _).2.2.2 i]
    exact (runTask_displayTask i a s').2.1
  have hv3 := run_visible_of_no_hide i evs _ hvis h2
  refine ⟨?_, ?_⟩
  · rcases display_result i a s with ⟨_, _, _, ht⟩ | ⟨_, ht, _⟩
    · exact ht
    · rw [h1] at ht; cases ht
  · rcases display_result i a' (run (runTask (displayTask i a) s').settleTimer evs)
      with ⟨hf, _⟩ | ⟨_, ht, htm⟩
    · rw [hv3] at hf; cases hf
    · exact ⟨ht, htm⟩

theorem C6_second_display_after_transition_rejected_witness :
    (display .Menu noArgs State.init).thrown = none
      ∧ noHideFired .Menu (runTask (displayTask .Menu noArgs) State.init).settleTimer
          [.display .SplashScreen noArgs, .tick 250, .fire 0, .hide .SplashScreen .undefined]
        = true
      ∧ (display .Menu noArgs (run (runTask (displayTask .Menu noArgs) State.init).settleTimer
          [.display .SplashScreen noArgs, .tick 250, .fire 0,
            .hide .SplashScreen .undefined])).thrown.isSome = true :=
  ⟨by decide, by decide,
    (C6_second_display_after_transition_rejected .Menu noArgs noArgs State.init State.init
      [.display .SplashScreen noArgs, .tick 250, .fire 0, .hide .SplashScreen .undefined]
      (by decide) (by decide)).2.1⟩

/-- C7, as stated, fails: `Menu.display()`, its timer, `SplashScreen.display()`,
250 ms and its timer leave two overlay objects visible; the register only
postpones the second transition. -/
theorem C7_two_overlays_visible :
    visibleInsts (run State.init
        [.display .Menu noArgs, .fire 0, .display .SplashScreen noArgs, .tick 250, .fire 0])
      = [.SplashScreen, .Menu]
    ∧ ¬ (visibleInsts (run State.init
        [.display .Menu noArgs, .fire 0, .display .SplashScreen noArgs, .tick 250,
          .fire 0])).length ≤ 1 := by
  decide

/-- C7, amended: in every state reached from the initial state by `display` and
`hide` calls, register calls, passing time and firing timers, at most one overlay
object is visible, provided each `display` is called only while no overlay
object is visible and no transition of an earlier `display` is pending. -/
theorem C7_at_most_one_visible_disciplined (evs : List Event)
    (h : disciplined State.init evs = true) :
    (visibleInsts (run State.init evs)).length ≤ 1 := by
  have := run_load evs State.init (by decide) h
  omega

theorem C7_at_most_one_visible_disciplined_witness :
    disciplined State.init
        [.display .Menu noArgs, .fire 0, .hide .Menu (.function 1), .tick 250, .fire 0,
          .display .AlertDialog noArgs, .fire 0] = true
      ∧ (visibleInsts (run State.init
          [.display .Menu noArgs, .fire 0, .hide .Menu (.function 1), .tick 250, .fire 0,
            .display .AlertDialog noArgs, .fire 0])).length ≤ 1 :=
  ⟨by decide, C7_at_most_one_visible_disciplined _ (by decide)⟩

/-- C8: for each overlay object and every prior state, `hide(cb)` schedules exactly
one transition, with delay `Overlay.animation_duration` when the object was
visible at the call and delay 0 otherwise, and once that transition has run (in
whatever state the page is by then) the flag `visible` of the object and
`Overlay.instance_open` are both false. -/
theorem C8_hide_schedules_one_transition (i : Inst) (cb : JSVal) (s : State) :
    (hide i cb s).state.timers = s.timers ++
        [{ delay := if s.visible i then s.Overlay.animation_duration else 0,
           due := s.now + (if s.visible i then s.Overlay.animation_duration else 0),
           task := hideTask i cb }]
      ∧ ∀ s' : State,
          (runTask (hideTask i cb) s').settleTimer.visible i = false
            ∧ (runTask (hideTask i cb) s').settleTimer.Overlay.instance_open = false := by
  refine ⟨(hide_result i cb s).2.1, fun s' => ?_⟩
  rw [(settleTimer_fields _).2.2.2 i, (settleTimer_fields _).2.1]
  exact ⟨(runTask_hideTask i cb s').1, (runTask_hideTask i cb s').2.1⟩

/-- C9, as stated, fails: `ActionDialog` is not visible, yet `display` without a
callback throws at the `typeof` test and schedules nothing. -/
theorem C9_display_rejects_arguments :
    State.init.visible .ActionDialog = false
      ∧ (display .ActionDialog noArgs State.init).thrown
        = some "Error: overlays.js: ActionDialog.display(): func is undefined, expected function"
      ∧ (display .ActionDialog noArgs State.init).state.timers = [] := by
  decide

/-- C9, amended: for each overlay object that is not visible and every `display`
call whose arguments pass the `typeof` tests of that object, `display` schedules
one transition, with delay `Overlay.animation_duration` when
`Overlay.instance_open` is true at the call and 0 otherwise; that transition
writes the content, sets `visible` and sets `Overlay.instance_open` in one step;
and it cannot fire before the clock has advanced by its delay. -/
theorem C9_display_delay (i : Inst) (a : DisplayArgs) (s : State)
    (hv : s.visible i = false) (ha : argsAccepted i a = true) :
    (display i a s).thrown = none
      ∧ (display i a s).state.timers = s.timers ++
          [{ delay := if s.Overlay.instance_open then s.Overlay.animation_duration else 0,
             due := s.now + (if s.Overlay.instance_open then s.Overlay.animation_duration else 0),
             task := displayTask i a }]
      ∧ (∀ s' : State,
          (runTask (displayTask i a) s').thrown = none
            ∧ (runTask (displayTask i a) s').state.visible i = true
            ∧ (runTask (displayTask i a) s').state.Overlay.instance_open = true
            ∧ shownContent (runTask (displayTask i a) s').state i = requestedContent i a)
      ∧ (∀ (s2 : State) (k : Nat),
          canFire s2 k = some
            { delay := if s.Overlay.instance_open then s.Overlay.animation_duration else 0,
              due := s.now + (if s.Overlay.instance_open then s.Overlay.animation_duration else 0),
              task := displayTask i a } →
          s.now + (if s.Overlay.instance_open then s.Overlay.animation_duration else 0)
            ≤ s2.now) := by
  refine ⟨?_, ?_, fun s' => runTask_displayTask i a s', fun s2 k hc => ?_⟩
  · rcases display_result i a s with ⟨_, _, ht, _⟩ | ⟨h, _, _⟩
    · exact ht
    · rcases h with h | h
      · rw [hv] at h; cases h
      · rw [ha] at h; cases h
  · rcases display_result i a s with ⟨_, _, _, ht⟩ | ⟨h, _, _⟩
    · exact ht
    · rcases h with h | h
      · rw [hv] at h; cases h
      · rw [ha] at h; cases h
  · exact (canFire_spec s2 k _ hc).2

theorem C9_display_delay_witness :
    (run State.init [.display .Menu noArgs, .fire 0]).visible .AlertDialog = false
      ∧ argsAccepted .AlertDialog noArgs = true
      ∧ (display .AlertDialog noArgs (run State.init [.display .Menu noArgs, .fire 0])).thrown
          = none
      ∧ (display .AlertDialog noArgs
            (run State.init [.display .Menu noArgs, .fire 0])).state.timers
          = [{ delay := 250, due := 250, task := .alertDisplay "Alert!" "" "Close" .undefined }] :=
  ⟨by decide, by decide,
    (C9_display_delay .AlertDialog noArgs (run State.init [.display .Menu noArgs, .fire 0])
      (by decide) (by decide)).1,
    by decide⟩

/-- C10: the number 0 is provided and is not a function, yet `Menu.hide(0)`
returns normally and its transition runs to the end without any error
(`if (!func) return;`): nothing is thrown, nothing is logged and no timer is
left. -/
theorem C10_falsy_argument_no_error :
    JSVal.number 0 ≠ JSVal.undefined ∧ (JSVal.number 0).typeof ≠ "function"
      ∧ (hide .Menu (.number 0) State.init).thrown = none
      ∧ (run State.init [.hide .Menu (.number 0), .fire 0]).log = []
      ∧ (run State.init [.hide .Menu (.number 0), .fire 0]).timers = [] := by
  decide

/-- For each overlay object and every argument that is truthy and not a
function, `hide` itself returns normally and schedules its transition; the
error is thrown by that transition when it runs, after the flag `visible` and
`Overlay.instance_open` have been cleared. -/
theorem hide_truthy_non_function (i : Inst) (onClosed : JSVal) (s s' : State)
    (hv : onClosed.truthy = true) (ht : onClosed.typeof ≠ "function") :
    (hide i onClosed s).thrown = none
      ∧ (hide i onClosed s).state.timers = s.timers ++
          [{ delay := if s.visible i then s.Overlay.animation_duration else 0,
             due := s.now + (if s.visible i then s.Overlay.animation_duration else 0),
             task := hideTask i onClosed }]
      ∧ (runTask (hideTask i onClosed) s').thrown
          = some ("Error: overlays.js: " ++ i.name ++ ".hide(): func is " ++ onClosed.typeof
              ++ ", expected function")
      ∧ (runTask (hideTask i onClosed) s').state.visible i = false
      ∧ (runTask (hideTask i onClosed) s').state.Overlay.instance_open = false :=
  ⟨(hide_result i onClosed s).1, (hide_result i onClosed s).2.1,
    (runTask_hideTask i onClosed s').2.2.2 hv ht, (runTask_hideTask i onClosed s').1,
    (runTask_hideTask i onClosed s').2.1⟩

theorem hide_truthy_non_function_later :
    (JSVal.string "later").truthy = true ∧ (JSVal.string "later").typeof ≠ "function"
      ∧ (hide .Menu (.string "later") State.init).thrown = none
      ∧ (runTask (hideTask .Menu (.string "later")) State.init).thrown
          = some "Error: overlays.js: Menu.hide(): func is string, expected function" :=
  ⟨by decide, by decide,
    (hide_truthy_non_function .Menu (.string "later") State.init State.init
      (by decide) (by decide)).1,
    by decide⟩


/-! ### Callbacks of the overlays -/

theorem hide_log (i : Inst) (func : JSVal) (s : State) :
    (hide i func s).state.log = s.log := by
  cases i
  · cases hv : s.SplashScreen_visible <;> simp [hide, SplashScreen.hide, setTimeout, hv]
  · cases hv : s.Menu_visible <;> simp [hide, Menu.hide, setTimeout, hv]
  · cases hv : s.AlertDialog_visible
      <;> simp [hide, Dialog_hide_alert, AlertDialog.hide, setTimeout, hv]
  · have hr : ∀ x : State, (ActionDialog.removeClickListener x).log = x.log := by
      intro x
      unfold ActionDialog.removeClickListener
      split <;> rfl
    cases hv : s.ActionDialog_visible
      <;> simp [hide, Dialog_hide_action, ActionDialog.hide, setTimeout, hv, hr]

theorem runTask_hideTask_function (i : Inst) (f : Nat) (s : State) :
    ∃ s1 : State, s1.visible i = false ∧ s1.Overlay.instance_open = false ∧ s1.log = s.log
      ∧ s1.timers = s.timers
      ∧ runTask (hideTask i (.function f)) s
          = { state := { s1 with log := s1.log ++ [.invoked f] }, thrown := none } := by
  cases i
  · exact ⟨Overlay.setInstanceOpen false { s with SplashScreen_visible := false },
      rfl, rfl, rfl, rfl, rfl⟩
  · exact ⟨Overlay.setInstanceOpen false { s with Menu_visible := false },
      rfl, rfl, rfl, rfl, rfl⟩
  · exact ⟨Overlay.setInstanceOpen false { s with AlertDialog_visible := false },
      rfl, rfl, rfl, rfl, rfl⟩
  · exact ⟨Overlay.setInstanceOpen false { s with ActionDialog_visible := false },
      rfl, rfl, rfl, rfl, rfl⟩

/-- C11: for each overlay object and every function `onClosed`, the call
`hide(onClosed)` itself invokes nothing and starts exactly one timer; the closure
of that timer invokes `onClosed` exactly once, in a state in which the flag
`visible` of the object and `Overlay.instance_open` are already false; and a timer
is gone once it has fired. -/
theorem C11_hide_invokes_callback_once (i : Inst) (onClosed : Nat) (s : State) :
    (hide i (.function onClosed) s).thrown = none
      ∧ (hide i (.function onClosed) s).state.log = s.log
      ∧ (hide i (.function onClosed) s).state.timers = s.timers ++
          [{ delay := if s.visible i then s.Overlay.animation_duration else 0,
             due := s.now + (if s.visible i then s.Overlay.animation_duration else 0),
             task := hideTask i (.function onClosed) }]
      ∧ (∀ s' : State, ∃ s1 : State,
          s1.visible i = false ∧ s1.Overlay.instance_open = false ∧ s1.log = s'.log
            ∧ runTask (hideTask i (.function onClosed)) s'
              = { state := { s1 with log := s1.log ++ [.invoked onClosed] }, thrown := none })
      ∧ (∀ (s2 : State) (k : Nat) (t : Timer), canFire s2 k = some t →
          t.task = hideTask i (.function onClosed) →
          (step s2 (.fire k)).log = s2.log ++ [.invoked onClosed]
            ∧ (step s2 (.fire k)).timers = s2.timers.eraseIdx k
            ∧ (step s2 (.fire k)).visible i = false
            ∧ (step s2 (.fire k)).Overlay.instance_open = false) := by
  refine ⟨(hide_result i _ s).1, hide_log i _ s, (hide_result i _ s).2.1, ?_, ?_⟩
  · intro s'
    obtain ⟨s1, h1, h2, h3, _, h5⟩ := runTask_hideTask_function i onClosed s'
    exact ⟨s1, h1, h2, h3, h5⟩
  · intro s2 k t hc ht
    obtain ⟨s1, h1, h2, h3, h4, h5⟩ :=
      runTask_hideTask_function i onClosed { s2 with timers := s2.timers.eraseIdx k }
    simp only [step, hc, ht, h5, Outcome.settleTimer]
    refine ⟨?_, ?_, ?_, ?_⟩
    · show s1.log ++ _ = _
      rw [h3]
    · show s1.timers = _
      rw [h4]
    · rw [← h1]; cases i <;> rfl
    · exact h2

theorem C11_hide_invokes_callback_once_witness :
    canFire (run State.init [.display .Menu noArgs, .fire 0, .hide .Menu (.function 7),
        .tick 250]) 0
      = some { delay := 250, due := 250, task := hideTask .Menu (.function 7) }
    ∧ (run State.init [.display .Menu noArgs, .fire 0, .hide .Menu (.function 7),
        .tick 250, .fire 0]).log = [.invoked 7] :=
  ⟨by decide,
    ((C11_hide_invokes_callback_once .Menu 7 State.init).2.2.2.2
      (run State.init [.display .Menu noArgs, .fire 0, .hide .Menu (.function 7), .tick 250])
      0 { delay := 250, due := 250, task := hideTask .Menu (.function 7) }
      (by decide) rfl).1⟩

/-- C12 fails for the alert dialog: shown with a callback, hidden without a click
and shown again with another callback, its button carries both callbacks, and
one click invokes both. -/
theorem C12_alert_callbacks_accumulate :
    (run State.init
        [.display .AlertDialog (withCallback 1), .fire 0, .hide .AlertDialog .undefined,
          .tick 250, .fire 0, .display .AlertDialog (withCallback 2), .fire 0]).dom.alertDialog_btn_click
      = [{ callback := 1, once := true }, { callback := 2, once := true }]
    ∧ (dispatchClick (run State.init
        [.display .AlertDialog (withCallback 1), .fire 0, .hide .AlertDialog .undefined,
          .tick 250, .fire 0, .display .AlertDialog (withCallback 2),
          .fire 0]).dom.alertDialog_btn_click).1
      = [.invoked 1, .invoked 2]
    ∧ (run State.init
        [.display .AlertDialog (withCallback 1), .fire 0, .hide .AlertDialog .undefined,
          .tick 250, .fire 0, .display .AlertDialog (withCallback 2), .fire 0]).log = []
    ∧ (run State.init
        [.display .ActionDialog (withCallback 1), .fire 0, .hide .ActionDialog .undefined,
          .tick 250, .fire 0, .display .ActionDialog (withCallback 2),
          .fire 0]).dom.actionDialog_btnOk_click
      = [{ callback := 2, once := false }] := by
  decide

theorem actionListenersOk_congr (s s' : State)
    (h1 : s'.dom.actionDialog_btnOk_click = s.dom.actionDialog_btnOk_click)
    (h2 : s'.ActionDialog_onClickFunction = s.ActionDialog_onClickFunction)
    (h : actionListenersOk s) : actionListenersOk s' := by
  unfold actionListenersOk at h ⊢
  rw [h1, h2]
  exact h

theorem settle_action (o : Outcome) :
    o.settle.dom = o.state.dom
      ∧ o.settle.ActionDialog_onClickFunction = o.state.ActionDialog_onClickFunction := by
  unfold Outcome.settle
  cases o.thrown <;> exact ⟨rfl, rfl⟩

theorem settleTimer_action (o : Outcome) :
    o.settleTimer.dom = o.state.dom
      ∧ o.settleTimer.ActionDialog_onClickFunction = o.state.ActionDialog_onClickFunction := by
  unfold Outcome.settleTimer
  cases o.thrown <;> exact ⟨rfl, rfl⟩

theorem removeClickListener_clears (s : State) (h : actionListenersOk s) :
    (ActionDialog.removeClickListener s).dom.actionDialog_btnOk_click = []
      ∧ (ActionDialog.removeClickListener s).ActionDialog_onClickFunction
          = s.ActionDialog_onClickFunction := by
  unfold ActionDialog.removeClickListener
  rcases h with h | ⟨f, hf, hl⟩
  · split
    · refine ⟨?_, rfl⟩
      show removeEventListener _ s.dom.actionDialog_btnOk_click = []
      rw [h]
      cases s.ActionDialog_onClickFunction <;> rfl
    · exact ⟨h, rfl⟩
  · have ht : s.ActionDialog_onClickFunction.truthy = true := by rw [hf]; rfl
    rw [if_pos ht]
    refine ⟨?_, rfl⟩
    show removeEventListener _ s.dom.actionDialog_btnOk_click = []
    rw [hf, hl]
    simp [removeEventListener]

theorem display_actionListenersOk (i : Inst) (a : DisplayArgs) (s : State)
    (h : actionListenersOk s) : actionListenersOk (display i a s).state := by
  cases i
  · simp only [display, SplashScreen.display, setTimeout]
    split <;> exact h
  · simp only [display, Menu.display, setTimeout]
    split <;> exact h
  · simp only [display, Dialog_display_alert]
    cases hb : (a.button == .undefined || a.button.typeof == "string")
    · obtain ⟨msg, hm⟩ := AlertDialog_display_rejected a.title a.message a.button a.func s hb
      rw [hm]; exact h
    · rw [AlertDialog_display_accepted _ _ _ _ _ hb]
      split
      · exact h
      · split <;> exact h
  · simp only [display, Dialog_display_action]
    obtain ⟨r1, _⟩ := removeClickListener_clears s h
    cases hb : (a.button == .undefined || a.button.typeof == "string")
    · obtain ⟨msg, hm⟩ := ActionDialog_display_rejected a.title a.message a.button a.func s hb
      rw [hm]; exact h
    · rw [ActionDialog_display_accepted _ _ _ _ _ hb]
      split
      · exact h
      · split <;> exact Or.inl r1

theorem ActionDialog_hide_form (func : JSVal) (s : State) :
    ∃ (s2 : State) (d : Nat),
      s2.dom.actionDialog_btnOk_click = s.dom.actionDialog_btnOk_click
        ∧ s2.ActionDialog_onClickFunction = s.ActionDialog_onClickFunction
        ∧ hide .ActionDialog func s
          = { state := setTimeout (.actionHide func) d (ActionDialog.removeClickListener s2),
              thrown := none } := by
  by_cases hv : s.ActionDialog_visible = true
  · simp only [hide, Dialog_hide_action, ActionDialog.hide, hv, if_true]
    refine ⟨_, _, ?_, ?_, rfl⟩ <;> rfl
  · simp only [hide, Dialog_hide_action, ActionDialog.hide, hv, if_false]
    exact ⟨s, 0, rfl, rfl, rfl⟩

theorem hide_actionListenersOk (i : Inst) (func : JSVal) (s : State)
    (h : actionListenersOk s) : actionListenersOk (hide i func s).state := by
  cases i
  · cases hv : s.SplashScreen_visible
      <;> simp only [hide, SplashScreen.hide, setTimeout, hv, Bool.false_eq_true, if_false,
        if_true] <;> exact h
  · cases hv : s.Menu_visible
      <;> simp only [hide, Menu.hide, setTimeout, hv, Bool.false_eq_true, if_false, if_true]
      <;> exact h
  · cases hv : s.AlertDialog_visible
      <;> simp only [hide, Dialog_hide_alert, AlertDialog.hide, setTimeout, hv,
        Bool.false_eq_true, if_false, if_true] <;> exact h
  · obtain ⟨s2, d, e1, e2, he⟩ := ActionDialog_hide_form func s
    rw [he]
    have h2 : actionListenersOk s2 := actionListenersOk_congr s s2 e1 e2 h
    exact Or.inl (removeClickListener_clears s2 h2).1

theorem additionalFunction_action (name : String) (func : JSVal) (s : State) :
    (additionalFunction name func s).state.dom = s.dom
      ∧ (additionalFunction name func s).state.ActionDialog_onClickFunction
          = s.ActionDialog_onClickFunction := by
  unfold additionalFunction
  split
  · exact ⟨rfl, rfl⟩
  · split <;> exact ⟨rfl, rfl⟩

theorem runTask_actionListenersOk (t : Task) (s : State) (h : actionListenersOk s) :
    actionListenersOk (runTask t s).state := by
  cases t with
  | splashDisplay _ | alertDisplay _ _ _ _ | menuDisplay _ => exact h
  | splashHide f | alertHide f | actionHide f | menuHide f =>
    simp only [runTask]
    exact actionListenersOk_congr _ _
      (by rw [(additionalFunction_action _ f _).1]; rfl)
      (by rw [(additionalFunction_action _ f _).2]; rfl) h
  | actionDisplay title message button =>
    unfold actionListenersOk at h ⊢
    simp only [runTask, Overlay.setInstanceOpen]
    rcases h with h | ⟨f, hf, hl⟩
    · rw [h]
      cases hc : s.ActionDialog_onClickFunction with
      | function f => right; exact ⟨f, rfl, by simp [JSVal.truthy, addEventListener]⟩
      | undefined | null | nan => left; simp [JSVal.truthy]
      | bool b => left; cases b <;> simp [JSVal.truthy, addEventListener]
      | number n => left; by_cases hn : n = 0 <;> simp [JSVal.truthy, addEventListener, hn]
      | string x => left; by_cases hx : x = "" <;> simp [JSVal.truthy, addEventListener, hx]
      | object o => left; simp [JSVal.truthy, addEventListener]
    · right
      refine ⟨f, hf, ?_⟩
      rw [hf, hl]
      simp [JSVal.truthy, addEventListener]

/-- The action dialog never carries more than one confirm callback, and the one
it carries is the one stored by the last `display` that passed the `typeof`
tests. -/
theorem step_actionListenersOk (s : State) (e : Event) (h : actionListenersOk s) :
    actionListenersOk (step s e) := by
  cases e with
  | display i a =>
    exact actionListenersOk_congr _ _
      (congrArg Dom.actionDialog_btnOk_click (settle_action (display i a s)).1)
      (settle_action (display i a s)).2 (display_actionListenersOk i a s h)
  | hide i func =>
    exact actionListenersOk_congr _ _
      (congrArg Dom.actionDialog_btnOk_click (settle_action (hide i func s)).1)
      (settle_action (hide i func s)).2 (hide_actionListenersOk i func s h)
  | setInstanceOpen val => exact h
  | setAnimDuration val => exact h
  | tick ms => exact h
  | fire k =>
    simp only [step]
    cases hc : canFire s k with
    | none => exact h
    | some t =>
      exact actionListenersOk_congr _ _
        (congrArg Dom.actionDialog_btnOk_click (settleTimer_action _).1)
        (settleTimer_action _).2 (runTask_actionListenersOk t.task _ h)

theorem run_actionListenersOk (events : List Event) :
    ∀ s : State, actionListenersOk s → actionListenersOk (run s events) := by
  induction events with
  | nil => intro s h; exact h
  | cons e es ih => intro s h; exact ih (step s e) (step_actionListenersOk s e h)

theorem init_actionListenersOk (events : List Event) :
    (run State.init events).dom.actionDialog_btnOk_click.length ≤ 1 := by
  rcases run_actionListenersOk events State.init (Or.inl rfl) with h | ⟨f, _, h⟩
  · rw [h]; exact Nat.zero_le 1
  · rw [h]; exact Nat.le_refl 1

/-! ## Theorems on the chat page -/

theorem ChatData_get_set (cd : ChatData) (key : String) (value : Message) (k : String)
    (hkey : key ≠ "__proto__") :
    (cd.set key value).get k = if k = key then some value else cd.get k := by
  induction cd with
  | nil =>
    by_cases hk : k = key
    · simp [ChatData.set, ChatData.get, hk, hkey]
    · have hk2 : ¬ key = k := fun h => hk h.symm
      simp [ChatData.set, ChatData.get, hk, hk2, hkey]
  | cons p cd ih =>
    obtain ⟨k0, v0⟩ := p
    by_cases hp : k0 = key
    · by_cases hk : k = key
      · simp [ChatData.set, ChatData.get, hp, hk]
      · have hk2 : ¬ key = k := fun h => hk h.symm
        simp [ChatData.set, ChatData.get, hp, hk, hk2]
    · by_cases hk : k0 = k
      · have hk3 : ¬ k = key := fun h => hp (hk.trans h)
        simp [ChatData.set, ChatData.get, hp, hk, hk3]
      · simp [ChatData.set, ChatData.get, hp, hk, ih]

/-- The assignment to a property the object has of its own, whatever its name. -/
theorem ChatData_get_set_own (cd : ChatData) (key : String) (value : Message) (k : String)
    (hown : (cd.get key).isSome = true) :
    (cd.set key value).get k = if k = key then some value else cd.get k := by
  induction cd with
  | nil => simp [ChatData.get] at hown
  | cons p cd ih =>
    obtain ⟨k0, v0⟩ := p
    by_cases hp : k0 = key
    · by_cases hk : k = key
      · simp [ChatData.set, ChatData.get, hp, hk]
      · have hk2 : ¬ key = k := fun h => hk h.symm
        simp [ChatData.set, ChatData.get, hp, hk, hk2]
    · have hown2 : (ChatData.get cd key).isSome = true := by
        simpa [ChatData.get, hp] using hown
      by_cases hk : k0 = k
      · have hk3 : ¬ k = key := fun h => hp (hk.trans h)
        simp [ChatData.set, ChatData.get, hp, hk, hk3]
      · simp [ChatData.set, ChatData.get, hp, hk, ih hown2]

/-- The assignment to `__proto__` on an object without an own property of that
name creates no property. -/
theorem ChatData_set_proto (cd : ChatData) (value : Message)
    (h : cd.get "__proto__" = none) : cd.set "__proto__" value = cd := by
  induction cd with
  | nil => simp [ChatData.set]
  | cons p cd ih =>
    obtain ⟨k0, v0⟩ := p
    by_cases hp : k0 = "__proto__"
    · simp [ChatData.get, hp] at h
    · have h2 : ChatData.get cd "__proto__" = none := by simpa [ChatData.get, hp] using h
      simp [ChatData.set, hp, ih h2]

theorem ChatData_get_delete (cd : ChatData) (key k : String) :
    (cd.delete key).get k = if k = key then none else cd.get k := by
  induction cd with
  | nil => simp [ChatData.delete, ChatData.get]
  | cons p cd ih =>
    obtain ⟨k0, v0⟩ := p
    by_cases hp : k0 = key
    · by_cases hk : k = key
      · subst hk
        simp [ChatData.delete, hp, ih]
      · have hk2 : ¬ key = k := fun h => hk h.symm
        simp [ChatData.delete, ChatData.get, hp, hk, hk2, ih]
    · by_cases hk : k0 = k
      · have hk3 : ¬ k = key := fun h => hp (hk.trans h)
        simp [ChatData.delete, ChatData.get, hp, hk, hk3]
      · simp [ChatData.delete, ChatData.get, hp, hk, ih]

theorem ChatData_mem_keys (cd : ChatData) (k : String) :
    k ∈ cd.keys ↔ (cd.get k).isSome = true := by
  induction cd with
  | nil => simp [ChatData.keys, ChatData.get]
  | cons p cd ih =>
    obtain ⟨k0, v0⟩ := p
    have ih2 : k ∈ List.map (fun p => p.1) cd ↔ (ChatData.get cd k).isSome = true := ih
    by_cases hk : k0 = k
    · simp [ChatData.keys, ChatData.get, hk]
    · have hk2 : ¬ k = k0 := fun h => hk h.symm
      simp only [ChatData.keys, List.map_cons, List.mem_cons, hk2, false_or, ChatData.get, hk,
        if_false]
      exact ih2

theorem byId_isSome (p : ChatPage) (id : String) :
    (p.byId id).isSome = true ↔ ∃ b ∈ p.chatarea, b.id = id := by
  unfold ChatPage.byId
  simp [List.find?_isSome]

theorem loadMessagesToUI_key (E : Externals) (key : String) (p : ChatPage) (m : Message)
    (hk : key ≠ "") (hm : p.ChatData.get key = some m) :
    loadMessagesToUI E (some key) p =
      { p with chatarea := p.chatarea.eraseP (fun b => b.id == "message-placeholder") ++
          [{ cls := if m.uid = E.USER_ID then .this_chatbubble_bg else .that, id := key,
             innerHTML := m.message }] } := by
  have hk2 : (key == "") = false := by simpa using hk
  have hm2 : ChatData.get (removeBubble "message-placeholder" p).ChatData key = some m := hm
  simp only [loadMessagesToUI, hk2, hm, Option.isSome_some, if_true, Bool.false_eq_true,
    if_false, loadMessageFrom, hm2, loadMessageOf]
  by_cases hu : m.uid = E.USER_ID
  · simp [hu, appendHTMLString, removeBubble]
  · simp [hu, appendHTMLString, removeBubble]

/-- The page after an add-notification that carries a message with a key that
is neither empty nor `__proto__`. -/
theorem onChildAdded_data (E : Externals) (data : Message) (p : ChatPage)
    (hk : data.pushkey ≠ "") (hproto : data.pushkey ≠ "__proto__") :
    onChildAdded E (.data data) p =
      { p with
        ChatData := p.ChatData.set data.pushkey
          { pushkey := data.pushkey, uid := data.uid,
            message := E.SanitizeHtml (decode data.message), time := data.time },
        chatarea := p.chatarea.eraseP (fun b => b.id == "message-placeholder") ++
          [{ cls := if data.uid = E.USER_ID then .this_chatbubble_bg else .that,
             id := data.pushkey, innerHTML := E.SanitizeHtml (decode data.message) }] } := by
  unfold onChildAdded
  simp only [if_neg hproto]
  rw [loadMessagesToUI_key E data.pushkey _
    { pushkey := data.pushkey, uid := data.uid,
      message := E.SanitizeHtml (decode data.message), time := data.time } hk
    (by simp [ChatData_get_set _ _ _ _ hproto])]

/-- The page after an add-notification with the key `__proto__`, on a page
without messages: no entry is made, and the bubble is appended. -/
theorem onChildAdded_proto_key :
    (onChildAdded sampleExternals (.data (sampleMessage "__proto__" "you" none))
        emptyPage).ChatData = []
      ∧ (onChildAdded sampleExternals (.data (sampleMessage "__proto__" "you" none))
          emptyPage).chatarea
        = [{ cls := .that, id := "__proto__", innerHTML := [] }] := by
  decide

theorem filter_neg_of_filter_nil (q : Bubble → Bool) (l : List Bubble)
    (h : l.filter q = []) : l.filter (fun b => !q b) = l := by
  induction l with
  | nil => rfl
  | cons x xs ih =>
    cases hq : q x
    · simp only [List.filter, hq] at h ⊢
      simp [ih h]
    · simp [List.filter, hq] at h

theorem eraseP_eq_filter_of_one (q : Bubble → Bool) (l : List Bubble)
    (h : (l.filter q).length = 1) : l.eraseP q = l.filter (fun b => !q b) := by
  induction l with
  | nil => simp at h
  | cons x xs ih =>
    cases hq : q x
    · simp only [List.filter, hq] at h
      simp [List.eraseP_cons, hq, List.filter, ih h]
    · simp only [List.filter, hq, List.length_cons, Nat.add_eq_right] at h
      have h0 : xs.filter q = [] := List.length_eq_zero.mp h
      simp [List.eraseP_cons, hq, List.filter, filter_neg_of_filter_nil q xs h0]

theorem mem_eraseP_of_id_ne (l : List Bubble) (id0 : String) (b : Bubble) (hb : b ∈ l)
    (hne : b.id ≠ id0) : b ∈ l.eraseP (fun x => x.id == id0) := by
  induction l with
  | nil => cases hb
  | cons x xs ih =>
    by_cases hx : x.id = id0
    · have hbx : b ≠ x := fun h => hne (h ▸ hx)
      have hbxs : b ∈ xs := by
        cases hb with
        | head => exact absurd rfl hbx
        | tail _ h => exact h
      simp [List.eraseP_cons, hx, hbxs]
    · cases hb with
      | head => simp [List.eraseP_cons, hx]
      | tail _ h => simp [List.eraseP_cons, hx, ih h]

theorem onChildRemoved_found (pushkey : String) (p : ChatPage)
    (h : ∃ b ∈ p.chatarea, b.id = pushkey) :
    onChildRemoved pushkey p =
      { page := { p with chatarea := p.chatarea.eraseP (fun b => b.id == pushkey),
                         ChatData := p.ChatData.delete pushkey },
        effects := [], thrown := none } := by
  have hs := (byId_isSome p pushkey).mpr h
  unfold onChildRemoved
  cases hb : p.byId pushkey with
  | none => rw [hb] at hs; cases hs
  | some b => rfl

theorem onChildRemoved_missing (pushkey : String) (p : ChatPage)
    (h : ¬ ∃ b ∈ p.chatarea, b.id = pushkey) :
    (onChildRemoved pushkey p).page = p ∧ (onChildRemoved pushkey p).thrown.isSome = true := by
  unfold onChildRemoved
  cases hb : p.byId pushkey with
  | none => exact ⟨rfl, rfl⟩
  | some b =>
    exact absurd ((byId_isSome p pushkey).mp (by rw [hb]; rfl)) h

/-- Every key of `ChatData` has a bubble, and no key is the id of the optimistic
bubble. -/
theorem deliver_keeps_bubbles (E : Externals) (p : ChatPage) (n : Notification)
    (hn : ∀ data, n = .added (.data data) → isPushKey data.pushkey)
    (hb : ∀ k ∈ p.ChatData.keys, ∃ b ∈ p.chatarea, b.id = k)
    (hp : ∀ k ∈ p.ChatData.keys, k ≠ "message-placeholder") :
    (∀ k ∈ (deliver E p n).ChatData.keys, ∃ b ∈ (deliver E p n).chatarea, b.id = k)
      ∧ (∀ k ∈ (deliver E p n).ChatData.keys, k ≠ "message-placeholder")
      ∧ ∀ k, k ∈ (deliver E p n).ChatData.keys ↔
          match n with
          | .added (.data data) => k = data.pushkey ∨ k ∈ p.ChatData.keys
          | .added .default_placeholder => k ∈ p.ChatData.keys
          | .removed key => k ≠ key ∧ k ∈ p.ChatData.keys := by
  cases n with
  | added val =>
    cases val with
    | default_placeholder => exact ⟨hb, hp, fun k => Iff.rfl⟩
    | data data =>
      obtain ⟨hk1, hk2, hk3⟩ := hn data rfl
      have hkeys : ∀ k, k ∈ (deliver E p (.added (.data data))).ChatData.keys ↔
          (k = data.pushkey ∨ k ∈ p.ChatData.keys) := by
        intro k
        simp only [deliver, onChildAdded_data E data p hk1 hk3]
        rw [ChatData_mem_keys, ChatData_mem_keys, ChatData_get_set _ _ _ _ hk3]
        by_cases hkk : k = data.pushkey
        · simp [hkk]
        · simp [hkk]
      refine ⟨?_, ?_, hkeys⟩
      · intro k hk
        rcases (hkeys k).mp hk with h | h
        · simp only [deliver, onChildAdded_data E data p hk1 hk3]
          exact ⟨_, List.mem_append_right _ (List.mem_singleton_self _), h.symm⟩
        · obtain ⟨b, hbm, hbk⟩ := hb k h
          refine ⟨b, ?_, hbk⟩
          simp only [deliver, onChildAdded_data E data p hk1 hk3]
          exact List.mem_append_left _
            (mem_eraseP_of_id_ne p.chatarea "message-placeholder" b hbm (hbk ▸ hp k h))
      · intro k hk
        rcases (hkeys k).mp hk with h | h
        · rw [h]; exact hk2
        · exact hp k h
  | removed key =>
    by_cases hex : ∃ b ∈ p.chatarea, b.id = key
    · have hkeys : ∀ k, k ∈ (deliver E p (.removed key)).ChatData.keys ↔
          (k ≠ key ∧ k ∈ p.ChatData.keys) := by
        intro k
        simp only [deliver, onChildRemoved_found key p hex]
        rw [ChatData_mem_keys, ChatData_mem_keys, ChatData_get_delete]
        by_cases hkk : k = key
        · simp [hkk]
        · simp [hkk]
      refine ⟨?_, ?_, hkeys⟩
      · intro k hk
        obtain ⟨hne, hin⟩ := (hkeys k).mp hk
        obtain ⟨b, hbm, hbk⟩ := hb k hin
        refine ⟨b, ?_, hbk⟩
        simp only [deliver, onChildRemoved_found key p hex]
        exact mem_eraseP_of_id_ne p.chatarea key b hbm (hbk ▸ hne)
      · intro k hk
        exact hp k ((hkeys k).mp hk).2
    · have hsame : deliver E p (.removed key) = p := (onChildRemoved_missing key p hex).1
      rw [hsame]
      refine ⟨hb, hp, fun k => ⟨fun hk => ⟨?_, hk⟩, fun hk => hk.2⟩⟩
      intro hkk
      exact hex (hkk ▸ hb k hk)

theorem addedNotRemoved_cons (n : Notification) (ns : List Notification) (key : String) :
    AddedNotRemoved (n :: ns) key ↔
      ((∃ data, n = .added (.data data) ∧ data.pushkey = key) ∧ Notification.removed key ∉ ns)
        ∨ AddedNotRemoved ns key := by
  constructor
  · rintro ⟨pre, post, data, heq, hkey, hpost⟩
    cases pre with
    | nil =>
      simp only [List.nil_append, List.cons.injEq] at heq
      left
      exact ⟨⟨data, heq.1, hkey⟩, heq.2 ▸ hpost⟩
    | cons x pre =>
      simp only [List.cons_append, List.cons.injEq] at heq
      right
      exact ⟨pre, post, data, heq.2, hkey, hpost⟩
  · rintro (⟨⟨data, hn, hkey⟩, hns⟩ | ⟨pre, post, data, heq, hkey, hpost⟩)
    · exact ⟨[], ns, data, by simp [hn], hkey, hns⟩
    · exact ⟨n :: pre, post, data, by simp [heq], hkey, hpost⟩

theorem deliverAll_keys (E : Externals) (ns : List Notification) :
    ∀ p : ChatPage,
      (∀ data, Notification.added (.data data) ∈ ns → isPushKey data.pushkey) →
      (∀ k ∈ p.ChatData.keys, ∃ b ∈ p.chatarea, b.id = k) →
      (∀ k ∈ p.ChatData.keys, k ≠ "message-placeholder") →
      ∀ k, k ∈ (deliverAll E p ns).ChatData.keys ↔
        (AddedNotRemoved ns k ∨ (k ∈ p.ChatData.keys ∧ Notification.removed k ∉ ns)) := by
  induction ns with
  | nil =>
    intro p _ _ _ k
    simp only [deliverAll, List.foldl_nil, List.not_mem_nil, not_false_eq_true, and_true]
    constructor
    · intro h; exact Or.inr h
    · rintro (⟨pre, post, data, heq, _⟩ | h)
      · simp at heq
      · exact h
  | cons n ns ih =>
    intro p hv hb hp k
    have hstep := deliver_keeps_bubbles E p n
      (fun data hd => hv data (hd ▸ List.mem_cons_self _ _)) hb hp
    have hrec := ih (deliver E p n) (fun data hd => hv data (List.mem_cons_of_mem _ hd))
      hstep.1 hstep.2.1 k
    have hfold : deliverAll E p (n :: ns) = deliverAll E (deliver E p n) ns := rfl
    rw [hfold, hrec, addedNotRemoved_cons, hstep.2.2 k]
    cases n with
    | added val =>
      cases val with
      | default_placeholder =>
        simp
      | data data =>
        simp only [Notification.added.injEq, SnapshotVal.data.injEq, exists_eq_left',
          List.mem_cons, reduceCtorEq, false_or]
        constructor
        · rintro (h | ⟨h | h, hr⟩)
          · exact Or.inl (Or.inr h)
          · exact Or.inl (Or.inl ⟨h.symm, hr⟩)
          · exact Or.inr ⟨h, hr⟩
        · rintro ((⟨h, hr⟩ | h) | ⟨h, hr⟩)
          · exact Or.inr ⟨Or.inl h.symm, hr⟩
          · exact Or.inl h
          · exact Or.inr ⟨Or.inr h, hr⟩
    | removed key =>
      simp only [reduceCtorEq, false_and, exists_false, false_or, List.mem_cons,
        Notification.removed.injEq, not_or]
      constructor
      · rintro (h | ⟨⟨hne, h⟩, hr⟩)
        · exact Or.inl h
        · exact Or.inr ⟨h, hne, hr⟩
      · rintro (h | ⟨h, hne, hr⟩)
        · exact Or.inl h
        · exact Or.inr ⟨⟨hne, h⟩, hr⟩

/-! ### Claims on the chat page -/

/-- C13: for every record of the view-model with a numeric time stamp and every
current time, the unsend callback asks for the remote delete if and only if the
record's uid is the local user id and `now - stamp` is at most 3,600,000 ms; a
record older than that is turned down with a `Not allowed` alert and no remote
delete. -/
theorem C13_unsend_window (E : Externals) (now : Int) (id : String) (p : ChatPage)
    (m : Message) (stamp : Int)
    (hm : p.ChatData.get id = some m) (hs : m.time.stamp = some stamp) :
    ((∃ key, ChatEffect.remoteDelete key ∈ (unsendCallback E now id p).effects)
        ↔ (m.uid = E.USER_ID ∧ now - stamp ≤ 3600000))
      ∧ ((m.uid = E.USER_ID ∧ now - stamp ≤ 3600000) →
          unsendCallback E now id p
            = { page := p, effects := [.remoteDelete id], thrown := none })
      ∧ (now - stamp > 3600000 →
          isNotAllowed p (unsendCallback E now id p)
            ∧ ∀ key, ChatEffect.remoteDelete key ∉ (unsendCallback E now id p).effects) := by
  by_cases hu : m.uid = E.USER_ID
  · by_cases ht : now - stamp > 3600000
    · have hle : ¬ now - stamp ≤ 3600000 := by omega
      simp [unsendCallback, hm, hs, hu, ht, hle, isNotAllowed]
    · have hle : now - stamp ≤ 3600000 := by omega
      simp [unsendCallback, hm, hs, hu, ht, hle]
  · simp [unsendCallback, hm, hu, isNotAllowed]

theorem C13_unsend_window_witness :
    (samplePage "abc123" "me" (some 1000)).ChatData.get "abc123"
        = some (sampleMessage "abc123" "me" (some 1000))
      ∧ ((∃ key, ChatEffect.remoteDelete key ∈ (unsendCallback sampleExternals 3601000 "abc123"
            (samplePage "abc123" "me" (some 1000))).effects)
          ↔ ((sampleMessage "abc123" "me" (some 1000)).uid = sampleExternals.USER_ID
              ∧ (3601000 : Int) - 1000 ≤ 3600000)) :=
  ⟨by decide,
    (C13_unsend_window sampleExternals 3601000 "abc123" (samplePage "abc123" "me" (some 1000))
      (sampleMessage "abc123" "me" (some 1000)) 1000 (by decide) rfl).1⟩

/-- C14: for every record whose uid differs from the local user id the unsend
callback answers with a `Not allowed` alert, asks for no remote delete and leaves
the view-model as it is, whatever the time stamp of the record (a missing one
included); the rejection of a record that is too old has the same shape. -/
theorem C14_unsend_not_owner (E : Externals) (now : Int) (id : String) (p : ChatPage)
    (m : Message) (hm : p.ChatData.get id = some m) (hu : m.uid ≠ E.USER_ID) :
    unsendCallback E now id p
        = { page := p,
            effects := [.dialogDisplay "alert" "Not allowed"
              "You can unsend a message only if you have sent it."],
            thrown := none }
      ∧ isNotAllowed p (unsendCallback E now id p)
      ∧ (∀ stamp : Option Int,
          (unsendCallback E now id
              { p with ChatData := (p.ChatData.set id
                  { m with time := { m.time with stamp := stamp } }) }).effects
            = (unsendCallback E now id p).effects
          ∧ (unsendCallback E now id
              { p with ChatData := (p.ChatData.set id
                  { m with time := { m.time with stamp := stamp } }) }).page.ChatData
            = p.ChatData.set id { m with time := { m.time with stamp := stamp } })
      ∧ (∀ (p2 : ChatPage) (m2 : Message) (stamp2 : Int),
          p2.ChatData.get id = some m2 → m2.uid = E.USER_ID → m2.time.stamp = some stamp2 →
          now - stamp2 > 3600000 → isNotAllowed p2 (unsendCallback E now id p2)) := by
  have hu2 : (m.uid != E.USER_ID) = true := by simpa using hu
  refine ⟨?_, ?_, ?_, ?_⟩
  · simp [unsendCallback, hm, hu]
  · simp [unsendCallback, hm, hu, isNotAllowed]
  · intro stamp
    have hown : (p.ChatData.get id).isSome = true := by rw [hm]; rfl
    simp [unsendCallback, hm, hu, ChatData_get_set_own _ _ _ _ hown]
  · intro p2 m2 stamp2 hm2 hu3 hs2 ht
    simp [unsendCallback, hm2, hu3, hs2, ht, isNotAllowed]

theorem C14_unsend_not_owner_witness :
    (samplePage "abc123" "you" none).ChatData.get "abc123"
        = some (sampleMessage "abc123" "you" none)
      ∧ (sampleMessage "abc123" "you" none).uid ≠ sampleExternals.USER_ID
      ∧ unsendCallback sampleExternals 5 "abc123" (samplePage "abc123" "you" none)
        = { page := samplePage "abc123" "you" none,
            effects := [.dialogDisplay "alert" "Not allowed"
              "You can unsend a message only if you have sent it."],
            thrown := none } :=
  ⟨by decide, by decide,
    (C14_unsend_not_owner sampleExternals 5 "abc123" (samplePage "abc123" "you" none)
      (sampleMessage "abc123" "you" none) (by decide) (by decide)).1⟩

theorem utf8ByteSize_go_ascii (s : List Char) (h : ∀ c ∈ s, c.toNat < 128) :
    String.utf8ByteSize.go s = jsLength s := by
  induction s with
  | nil => rfl
  | cons c cs ih =>
    have hc : c.toNat < 128 := h c (List.mem_cons_self c cs)
    have h1 : c.utf8Size = 1 := by
      have hv : c.val.toNat < 128 := hc
      have hle : c.val ≤ 127 := by
        rw [UInt32.le_def]
        show c.val.toNat ≤ 127
        omega
      simp [Char.utf8Size, hle]
    have h2 : c.toNat < 65536 := by omega
    simp only [String.utf8ByteSize.go, jsLength, List.map_cons, List.sum_cons, h1, h2, if_true]
    rw [ih (fun x hx => h x (List.mem_cons_of_mem c hx))]
    simp [jsLength, Nat.add_comm]

/-- C15, as stated, fails: a draft of 683 euro signs makes a body of exactly 2049
bytes (UTF-8) and the listener accepts it, because it compares the length of the
string, here 683, with 2048. -/
theorem C15_bytes_not_measured :
    trim (List.replicate 683 '€') ≠ []
      ∧ (String.mk (emptyPage.quote_reply_text ++ trim (List.replicate 683 '€'))).utf8ByteSize
          = 2049
      ∧ jsLength (emptyPage.quote_reply_text ++ trim (List.replicate 683 '€')) = 683
      ∧ (btnsendClick sampleExternals
            { emptyPage with txtmsg_value := List.replicate 683 '€' }).effects
          = [.focus, .remoteCreate (List.replicate 683 '€')] := by
  set_option maxRecDepth 100000 in decide

/-- C15, amended: for every non-blank draft the send listener turns the message
down (warning `Text exceeds limit of 2KB`, draft kept in the input, no record
created) if and only if the composed body, the pending quote followed by the
trimmed text, has more than 2048 UTF-16 code units; for a body of ASCII
characters that number is its size in bytes. -/
theorem C15_send_limit (E : Externals) (p : ChatPage) (h : trim p.txtmsg_value ≠ []) :
    (isTooLong p (btnsendClick E p)
        ↔ jsLength (p.quote_reply_text ++ trim p.txtmsg_value) > 2048)
      ∧ ((∀ c ∈ p.quote_reply_text ++ trim p.txtmsg_value, c.toNat < 128) →
          (String.mk (p.quote_reply_text ++ trim p.txtmsg_value)).utf8ByteSize
            = jsLength (p.quote_reply_text ++ trim p.txtmsg_value)) := by
  have h1 : (trim p.txtmsg_value == []) = false := by simpa using h
  refine ⟨?_, fun hc => utf8ByteSize_go_ascii _ hc⟩
  by_cases hl : jsLength (p.quote_reply_text ++ trim p.txtmsg_value) > 2048
  · simp [btnsendClick, h1, hl, isTooLong]
  · by_cases hh : trim (E.makeHtml (p.quote_reply_text ++ trim p.txtmsg_value)) = []
    · simp [btnsendClick, h1, hl, hh, isTooLong]
    · simp [btnsendClick, h1, hl, hh, isTooLong]

theorem C15_send_limit_witness :
    trim "  hello ".data ≠ []
      ∧ (isTooLong { emptyPage with txtmsg_value := "  hello ".data }
            (btnsendClick sampleExternals { emptyPage with txtmsg_value := "  hello ".data })
          ↔ jsLength (({ emptyPage with txtmsg_value := "  hello ".data } :
                ChatPage).quote_reply_text
              ++ trim ({ emptyPage with txtmsg_value := "  hello ".data } :
                ChatPage).txtmsg_value) > 2048) :=
  ⟨by decide,
    (C15_send_limit sampleExternals { emptyPage with txtmsg_value := "  hello ".data }
      (by decide)).1⟩

/-- C16: an add-notification with a message (and a key that is neither empty
nor `__proto__`) makes the view-model map the key to `{pushkey, uid, message = sanitize(decode(body)), time}`,
leaves every other entry as it is and appends exactly one bubble with that key as
id, of class `this` for the local user and `that` otherwise, after the optimistic
bubble, if there is one, has been taken out; `decode` of `encode("<b>hi</b>")` is
`<b>hi</b>`; a `default-placeholder` notification changes nothing. -/
theorem C16_add_notification (E : Externals) (data : Message) (p : ChatPage)
    (hk : data.pushkey ≠ "") (hproto : data.pushkey ≠ "__proto__") :
    (onChildAdded E (.data data) p).ChatData.get data.pushkey
        = some { pushkey := data.pushkey, uid := data.uid,
                 message := E.SanitizeHtml (decode data.message), time := data.time }
      ∧ (∀ k, k ≠ data.pushkey →
          (onChildAdded E (.data data) p).ChatData.get k = p.ChatData.get k)
      ∧ (onChildAdded E (.data data) p).chatarea
          = p.chatarea.eraseP (fun b => b.id == "message-placeholder") ++
              [{ cls := if data.uid = E.USER_ID then .this_chatbubble_bg else .that,
                 id := data.pushkey, innerHTML := E.SanitizeHtml (decode data.message) }]
      ∧ ((∀ b ∈ p.chatarea, b.id ≠ "message-placeholder") →
          (onChildAdded E (.data data) p).chatarea
            = p.chatarea ++
                [{ cls := if data.uid = E.USER_ID then .this_chatbubble_bg else .that,
                   id := data.pushkey, innerHTML := E.SanitizeHtml (decode data.message) }])
      ∧ decode (encode "<b>hi</b>".data) = "<b>hi</b>".data
      ∧ onChildAdded E .default_placeholder p = p := by
  rw [onChildAdded_data E data p hk hproto]
  refine ⟨?_, ?_, rfl, ?_, by decide, rfl⟩
  · simp [ChatData_get_set _ _ _ _ hproto]
  · intro k hkk
    simp [ChatData_get_set _ _ _ _ hproto, hkk]
  · intro hno
    have : p.chatarea.eraseP (fun b => b.id == "message-placeholder") = p.chatarea := by
      apply List.eraseP_of_forall_not
      intro b hb
      simpa using hno b hb
    simp only [this]

theorem C16_add_notification_witness :
    (sampleMessage "abc123" "me" (some 1000)).pushkey ≠ ""
      ∧ (sampleMessage "abc123" "me" (some 1000)).pushkey ≠ "__proto__"
      ∧ (onChildAdded sampleExternals (.data (sampleMessage "abc123" "me" (some 1000)))
          emptyPage).chatarea
        = [{ cls := .this_chatbubble_bg, id := "abc123", innerHTML := [] }] :=
  ⟨by decide, by decide, by
    have h := (C16_add_notification sampleExternals (sampleMessage "abc123" "me" (some 1000))
      emptyPage (by decide) (by decide)).2.2.1
    rw [h]
    decide⟩

/-- C17: a remove-notification for a key whose bubble is in the chat area exactly
once takes the entry of the key out of the view-model and the bubble out of the
chat area; every other entry and every other bubble stays, in the same order. -/
theorem C17_remove_notification (pushkey : String) (p : ChatPage)
    (h : (p.chatarea.filter (fun b => b.id == pushkey)).length = 1) :
    (onChildRemoved pushkey p).thrown = none
      ∧ (onChildRemoved pushkey p).page.ChatData.get pushkey = none
      ∧ (∀ b ∈ (onChildRemoved pushkey p).page.chatarea, b.id ≠ pushkey)
      ∧ (∀ k, k ≠ pushkey →
          (onChildRemoved pushkey p).page.ChatData.get k = p.ChatData.get k)
      ∧ (onChildRemoved pushkey p).page.chatarea
          = p.chatarea.filter (fun b => !(b.id == pushkey)) := by
  have hex : ∃ b ∈ p.chatarea, b.id = pushkey := by
    cases hf : p.chatarea.filter (fun b => b.id == pushkey) with
    | nil => rw [hf] at h; cases h
    | cons b bs =>
      have hb : b ∈ p.chatarea.filter (fun b => b.id == pushkey) := by
        rw [hf]; exact List.mem_cons_self b bs
      have := List.mem_filter.mp hb
      exact ⟨b, this.1, by simpa using this.2⟩
  rw [onChildRemoved_found pushkey p hex]
  have he := eraseP_eq_filter_of_one (fun b => b.id == pushkey) p.chatarea h
  refine ⟨rfl, ?_, ?_, ?_, he⟩
  · simp [ChatData_get_delete]
  · intro b hb
    simp only [he] at hb
    have := (List.mem_filter.mp hb).2
    simpa using this
  · intro k hk
    simp [ChatData_get_delete, hk]

theorem C17_remove_notification_witness :
    ((samplePage "abc123" "you" none).chatarea.filter (fun b => b.id == "abc123")).length = 1
      ∧ (onChildRemoved "abc123" (samplePage "abc123" "you" none)).thrown = none
      ∧ (onChildRemoved "abc123" (samplePage "abc123" "you" none)).page.ChatData.get "abc123"
          = none :=
  ⟨by decide,
    (C17_remove_notification "abc123" (samplePage "abc123" "you" none) (by decide)).1,
    (C17_remove_notification "abc123" (samplePage "abc123" "you" none) (by decide)).2.1⟩

/-- C18: for every sequence of add- and remove-notifications whose added keys can
be keys generated by the remote database, delivered to a page with an empty view-model, the
keys of the view-model afterwards are exactly the keys that were added and not
removed later in the sequence. -/
theorem C18_view_model_keys (E : Externals) (chatarea : List Bubble)
    (txtmsg_value quote_reply_text : List Char) (ns : List Notification)
    (h : ∀ n ∈ ns, n.wellKeyed = true) (key : String) :
    key ∈ (deliverAll E
        { ChatData := [], chatarea := chatarea, txtmsg_value := txtmsg_value,
          quote_reply_text := quote_reply_text } ns).ChatData.keys
      ↔ AddedNotRemoved ns key := by
  have hv : ∀ data, Notification.added (.data data) ∈ ns → isPushKey data.pushkey := by
    intro data hd
    have := h _ hd
    simpa [Notification.wellKeyed] using this
  rw [deliverAll_keys E ns _ hv (by simp [ChatData.keys]) (by simp [ChatData.keys])]
  simp [ChatData.keys]

theorem C18_view_model_keys_witness :
    (∀ n ∈ [Notification.added (.data (sampleMessage "abc123" "me" none)),
        .added (.data (sampleMessage "def456" "you" none)), .removed "abc123",
        .added .default_placeholder], n.wellKeyed = true)
      ∧ ("def456" ∈ (deliverAll sampleExternals emptyPage
            [Notification.added (.data (sampleMessage "abc123" "me" none)),
              .added (.data (sampleMessage "def456" "you" none)), .removed "abc123",
              .added .default_placeholder]).ChatData.keys
          ↔ AddedNotRemoved
            [Notification.added (.data (sampleMessage "abc123" "me" none)),
              .added (.data (sampleMessage "def456" "you" none)), .removed "abc123",
              .added .default_placeholder] "def456") :=
  ⟨by decide, C18_view_model_keys sampleExternals [] [] [] _ (by decide) "def456"⟩

theorem highlightId_tm (key : String) (blockquoteIds : List String) :
    highlightId ("tm_" ++ key) blockquoteIds = some key := by
  have hdata : ("tm_" ++ key).data = 't' :: 'm' :: '_' :: key.data := by
    rw [String.data_append]; rfl
  have hinc : includes ("tm_" ++ key).data "tm_".data = true := by
    unfold includes
    rw [hdata]
    exact decide_eq_true (List.prefix_append ['t', 'm', '_'] key.data).isInfix
  unfold highlightId
  rw [if_pos hinc, hdata]
  rfl

/-- C19: for every message key `k`, the reply callback builds a quote block with
id `tm_` followed by `k`; the block is put in front of the next message sent; and
the click listener maps the id `tm_` followed by `k` back to `k`, its first three
characters removed, so that the element it looks up is the one with id `k`. -/
theorem C19_quote_back_reference (E : Externals) (long_pressed_element : Bubble)
    (p q : ChatPage) (blockquoteIds : List String) :
    (replyCallback long_pressed_element p).page.quote_reply_text
        = "<blockquote id=\"".data ++ ("tm_" ++ long_pressed_element.id).data
            ++ "\" style=\"overflow:auto; max-height:100px;\">".data
            ++ long_pressed_element.innerHTML ++ "</blockquote>\n\n".data
      ∧ (∀ draft : List Char, trim draft ≠ [] →
          jsLength ((replyCallback long_pressed_element p).page.quote_reply_text ++ trim draft)
            ≤ 2048 →
          trim (E.makeHtml
            ((replyCallback long_pressed_element p).page.quote_reply_text ++ trim draft)) ≠ [] →
          (btnsendClick E
              { (replyCallback long_pressed_element p).page with txtmsg_value := draft }).effects
            = [.focus, .remoteCreate (encode (E.highlightCode (E.makeHtml
                (quoteBlock long_pressed_element.id long_pressed_element.innerHTML
                  ++ trim draft))))])
      ∧ highlightId ("tm_" ++ long_pressed_element.id) blockquoteIds
          = some long_pressed_element.id
      ∧ substring ("tm_" ++ long_pressed_element.id).data 3 = long_pressed_element.id.data
      ∧ highlightTarget ("tm_" ++ long_pressed_element.id) blockquoteIds q
          = q.byId long_pressed_element.id := by
  refine ⟨?_, ?_, highlightId_tm _ _, ?_, ?_⟩
  · simp [replyCallback, quoteBlock, String.data_append]
  · intro draft h1 h2 h3
    have h1b : (trim draft == []) = false := by simpa using h1
    have h2b : ¬ jsLength (quoteBlock long_pressed_element.id long_pressed_element.innerHTML
        ++ trim draft) > 1024 * 2 := by
      simp only [replyCallback] at h2
      omega
    have h3b : (trim (E.makeHtml (quoteBlock long_pressed_element.id
        long_pressed_element.innerHTML ++ trim draft)) == []) = false := by
      simp only [replyCallback] at h3
      simpa using h3
    simp only [btnsendClick, replyCallback, h1b, Bool.false_eq_true, if_false, h2b, h3b]
  · rw [String.data_append]; rfl
  · simp [highlightTarget, highlightId_tm]

theorem C19_quote_back_reference_witness :
    trim "ok".data ≠ []
      ∧ (btnsendClick sampleExternals
            { (replyCallback ⟨.that, "abc123", "hi".data⟩ emptyPage).page with
              txtmsg_value := "ok".data }).effects
          = [.focus, .remoteCreate (encode (sampleExternals.highlightCode
              (sampleExternals.makeHtml (quoteBlock "abc123" "hi".data ++ trim "ok".data))))]
      ∧ highlightId ("tm_" ++ "abc123") [] = some "abc123" :=
  ⟨by decide,
    (C19_quote_back_reference sampleExternals ⟨.that, "abc123", "hi".data⟩ emptyPage emptyPage
      []).2.1 "ok".data (by decide) (by decide) (by decide),
    by decide⟩

/-- C20, as stated, fails: with the viewport 4900 px away from the end of the
content (the threshold is 1024), `smoothScroll` still moves the scroll position
to the bottom, from 100 to 4400. -/
theorem C20_scrolls_from_far :
    ¬ ((⟨5000, 600, 100, ""⟩ : Scrollable).scrollHeight
          - (⟨5000, 600, 100, ""⟩ : Scrollable).scrollTop < 1024)
      ∧ (smoothScroll ⟨5000, 600, 100, ""⟩).scrollTop = 4400
      ∧ (smoothScroll ⟨5000, 600, 100, ""⟩).scrollTop
          ≠ (⟨5000, 600, 100, ""⟩ : Scrollable).scrollTop
      ∧ (smoothScroll ⟨5000, 600, 100, ""⟩).scrollBehavior = "auto" := by
  decide

/-- C20, amended: for every scroll state `smoothScroll` moves the scroll position
to the bottom (the value `scrollHeight`, kept by the browser within the scroll
range); the distance `scrollHeight - scrollTop` before the call only selects the
scroll behaviour, `smooth` below 1024 and `auto` otherwise. -/
theorem C20_smoothScroll_always_scrolls (element : Scrollable) :
    (smoothScroll element).scrollTop
        = max 0 (min element.scrollHeight (element.scrollHeight - element.clientHeight))
      ∧ (smoothScroll element).scrollHeight = element.scrollHeight
      ∧ (smoothScroll element).clientHeight = element.clientHeight
      ∧ (smoothScroll element).scrollBehavior
          = (if element.scrollHeight - element.scrollTop < 1024 then "smooth" else "auto") := by
  unfold smoothScroll setScrollTop
  by_cases h : element.scrollHeight - element.scrollTop < 1024
  · simp [h]
  · simp [h]

/-! ## Theorems on the URL query functions -/

theorem splitItem_length (item : List Char) :
    (splitItem item).length = item.count '=' + 1 := by
  unfold splitItem
  induction item with
  | nil => simp
  | cons x xs ih =>
    rw [List.splitOnP_cons]
    by_cases hx : x = '='
    · subst hx
      simp [ih]
    · have hb : (x == '=') = false := by simpa using hx
      simp [hb, List.count_cons, ih]

theorem splitItem_of_one (item : List Char) (h : item.count '=' = 1) :
    splitItem item = [itemName item, itemValue item] := by
  unfold splitItem itemName itemValue
  induction item with
  | nil => simp at h
  | cons x xs ih =>
    rw [List.splitOnP_cons]
    by_cases hx : x = '='
    · subst hx
      have h0 : xs.count '=' = 0 := by simpa using h
      have hs : xs.splitOnP (fun c => c == '=') = [xs] := by
        apply List.splitOnP_eq_single
        intro y hy hye
        have : y = '=' := by simpa using hye
        subst this
        exact List.count_eq_zero.mp h0 hy
      simp [hs, List.takeWhile, List.dropWhile]
    · have hb : (x == '=') = false := by simpa using hx
      have hne : (x != '=') = true := by simpa using hx
      have hc : xs.count '=' = 1 := by simpa [List.count_cons, hb] using h
      simp [hb, hne, ih hc, List.takeWhile, List.dropWhile, List.modifyHead]

theorem splitItem_two (item param value : List Char) (h : splitItem item = [param, value]) :
    item.count '=' = 1 := by
  have := splitItem_length item
  rw [h] at this
  simpa using this.symm

theorem Parameters_get_set (P : Parameters) (key : List Char) (value : QueryValue)
    (name : List Char) :
    (P.set key value).get name = if key = name then some value else P.get name := by
  induction P with
  | nil => simp [Parameters.set, Parameters.get]
  | cons kv rest ih =>
    obtain ⟨k, v⟩ := kv
    by_cases hk : k = key
    · subst hk
      by_cases hn : k = name <;> simp [Parameters.set, Parameters.get, hn]
    · by_cases hn : k = name
      · subst hn
        simp [Parameters.set, Parameters.get, hk, Ne.symm hk]
      · simp [Parameters.set, Parameters.get, hk, hn, ih]

theorem foldl_pushValue_arr (values rest : List (List Char)) :
    rest.foldl (fun o v => some (pushValue o v)) (some (.arr values))
      = some (.arr (values ++ rest)) := by
  induction rest generalizing values with
  | nil => simp
  | cons v rest ih =>
    rw [List.foldl_cons]
    have h : pushValue (some (.arr values)) v = .arr (values ++ [v]) := rfl
    rw [h, ih]
    simp

theorem foldl_pushValue_none (values : List (List Char)) :
    values.foldl (fun o v => some (pushValue o v)) none = returnedValue values := by
  match values with
  | [] => rfl
  | [v] => rfl
  | v :: w :: rest =>
    rw [List.foldl_cons, List.foldl_cons]
    have h : pushValue (some (pushValue none v)) w = .arr [v, w] := rfl
    rw [h, foldl_pushValue_arr]
    rfl
theorem not_malformed_iff (item : List Char) :
    ¬ malformed item ↔ item = [] ∨ item.count '=' = 1 := by
  unfold malformed
  by_cases h : item = [] <;> simp [h]

theorem valuesOf_cons_skip (name item : List Char) (items : List (List Char))
    (h : ¬ (itemName item = name ∧ itemName item ≠ [] ∧ itemValue item ≠ [])) :
    valuesOf name (item :: items) = valuesOf name items := by
  unfold valuesOf
  rw [List.filter_cons_of_neg (by simpa using h)]

theorem valuesOf_cons_take (name item : List Char) (items : List (List Char))
    (h : itemName item = name ∧ itemName item ≠ [] ∧ itemValue item ≠ []) :
    valuesOf name (item :: items) = itemValue item :: valuesOf name items := by
  unfold valuesOf
  rw [List.filter_cons_of_pos (by simpa using h), List.map_cons]

theorem matchingValues_cons_skip (lc : List Char → List Char) (field item : List Char)
    (items : List (List Char))
    (h : ¬ (itemName item ≠ [] ∧ itemValue item ≠ [] ∧ lc field = lc (itemName item))) :
    matchingValues lc field (item :: items) = matchingValues lc field items := by
  unfold matchingValues
  rw [List.filter_cons_of_neg (by simpa using h)]

theorem matchingValues_cons_take (lc : List Char → List Char) (field item : List Char)
    (items : List (List Char))
    (h : itemName item ≠ [] ∧ itemValue item ≠ [] ∧ lc field = lc (itemName item)) :
    matchingValues lc field (item :: items)
      = itemValue item :: matchingValues lc field items := by
  unfold matchingValues
  rw [List.filter_cons_of_pos (by simpa using h), List.map_cons]

/-- On items that are not malformed the loop of `getURLQueryFieldValue` returns,
and it has appended the matching values to the array. -/
theorem getURLQueryFieldValueLoop_returns (lc : List Char → List Char) (field : List Char)
    (items : List (List Char)) (values : List (List Char))
    (hwf : ∀ item ∈ items, ¬ malformed item) :
    getURLQueryFieldValueLoop lc field items values
      = .returned (values ++ matchingValues lc field items) := by
  induction items generalizing values with
  | nil => simp [getURLQueryFieldValueLoop, matchingValues]
  | cons item items ih =>
    have ih' := fun v => ih v (fun i hi => hwf i (List.mem_cons_of_mem _ hi))
    rw [getURLQueryFieldValueLoop]
    by_cases he : item = []
    · subst he
      rw [if_pos rfl, ih', matchingValues_cons_skip]
      simp [itemName]
    · have h1 : item.count '=' = 1 := by
        rcases (not_malformed_iff item).mp (hwf item (List.mem_cons_self _ _)) with h | h
        · exact absurd h he
        · exact h
      rw [if_neg he, splitItem_of_one item h1]
      by_cases hm : itemName item ≠ [] ∧ itemValue item ≠ [] ∧ lc field = lc (itemName item)
      · simp only [if_pos hm]
        rw [ih', matchingValues_cons_take _ _ _ _ hm]
        simp
      · simp only [if_neg hm]
        rw [ih', matchingValues_cons_skip _ _ _ _ hm]

/-- The loop of `getURLQueryFieldValue` throws exactly when an item is malformed. -/
theorem getURLQueryFieldValueLoop_throws (lc : List Char → List Char) (field : List Char)
    (items : List (List Char)) (values : List (List Char)) :
    (∃ e, getURLQueryFieldValueLoop lc field items values = .thrown e)
      ↔ ∃ item ∈ items, malformed item := by
  induction items generalizing values with
  | nil => simp [getURLQueryFieldValueLoop]
  | cons item items ih =>
    rw [getURLQueryFieldValueLoop]
    by_cases he : item = []
    · subst he
      rw [if_pos rfl, ih]
      simp [malformed]
    · rw [if_neg he]
      by_cases h1 : item.count '=' = 1
      · have hn : ¬ malformed item := (not_malformed_iff item).mpr (Or.inr h1)
        rw [splitItem_of_one item h1]
        by_cases hm : itemName item ≠ [] ∧ itemValue item ≠ [] ∧ lc field = lc (itemName item)
        · simp only [if_pos hm]
          rw [ih]
          simp [hn]
        · simp only [if_neg hm]
          rw [ih]
          simp [hn]
      · have hmal : malformed item := ⟨he, h1⟩
        have hsplit : ∀ p v, splitItem item ≠ [p, v] :=
          fun p v h => h1 (splitItem_two item p v h)
        constructor
        · intro _
          exact ⟨item, List.mem_cons_self _ _, hmal⟩
        · intro _
          rcases hs : splitItem item with _ | ⟨a, _ | ⟨b, _ | ⟨c, r⟩⟩⟩
          · exact ⟨_, rfl⟩
          · exact ⟨_, rfl⟩
          · exact absurd hs (hsplit a b)
          · exact ⟨_, rfl⟩
theorem selectedValues_cons_skip (fields : List (List Char)) (name item : List Char)
    (items : List (List Char))
    (h : ¬ (itemName item = name ∧ itemName item ≠ [] ∧ itemValue item ≠ []
      ∧ (fields = [] ∨ name ∈ fields))) :
    selectedValues fields name (item :: items) = selectedValues fields name items := by
  unfold selectedValues
  by_cases hs : fields = [] ∨ name ∈ fields
  · rw [if_pos hs, if_pos hs, valuesOf_cons_skip]
    intro h'
    exact h ⟨h'.1, h'.2.1, h'.2.2, hs⟩
  · rw [if_neg hs, if_neg hs]

theorem selectedValues_cons_take (fields : List (List Char)) (item : List Char)
    (items : List (List Char))
    (h : itemName item ≠ [] ∧ itemValue item ≠ []
      ∧ (fields = [] ∨ itemName item ∈ fields)) :
    selectedValues fields (itemName item) (item :: items)
      = itemValue item :: selectedValues fields (itemName item) items := by
  unfold selectedValues
  rw [if_pos h.2.2, if_pos h.2.2, valuesOf_cons_take _ _ _ ⟨rfl, h.1, h.2.1⟩]

/-- One turn of the loop of `getURLQuery` for an item with a name and a value
that is asked for, while `Parameters.hasOwnProperty` is the inherited method
and the name is not `__proto__`. -/
theorem getURLQueryLoop_take (fields : List (List Char)) (item : List Char)
    (items : List (List Char)) (P : Parameters)
    (he : item ≠ []) (h1 : item.count '=' = 1)
    (hq : itemName item ≠ [] ∧ itemValue item ≠ [] ∧ (fields = [] ∨ itemName item ∈ fields))
    (hproto : itemName item ≠ protoName) (hP : P.get hasOwnPropertyName = none) :
    getURLQueryLoop fields (item :: items) P
      = getURLQueryLoop fields items
          (P.set (itemName item) (pushValue (P.get (itemName item)) (itemValue item))) := by
  rw [getURLQueryLoop, if_neg he, splitItem_of_one item h1]
  have h2 : ¬ (itemName item = [] ∨ itemValue item = []) := by
    intro h
    rcases h with h | h
    · exact hq.1 h
    · exact hq.2.1 h
  have h3 : ¬ (fields.length ≠ 0 ∧ itemName item ∉ fields) := by
    intro h
    rcases hq.2.2 with hf | hf
    · exact h.1 (by simp [hf])
    · exact h.2 hf
  simp only [if_neg h2, if_neg h3, hP]
  rcases hg : P.get (itemName item) with _ | ⟨v⟩ | ⟨vs⟩
  · simp only [if_neg hproto]
    rfl
  · rfl
  · rfl

/-- One turn of the loop of `getURLQuery` for an item that is empty, or lacks a
name or a value, or is not asked for. -/
theorem getURLQueryLoop_skip (fields : List (List Char)) (item : List Char)
    (items : List (List Char)) (P : Parameters)
    (hwf : ¬ malformed item)
    (hq : ¬ (itemName item ≠ [] ∧ itemValue item ≠ []
      ∧ (fields = [] ∨ itemName item ∈ fields))) :
    getURLQueryLoop fields (item :: items) P = getURLQueryLoop fields items P := by
  rw [getURLQueryLoop]
  by_cases he : item = []
  · rw [if_pos he]
  · have h1 : item.count '=' = 1 := by
      rcases (not_malformed_iff item).mp hwf with h | h
      · exact absurd h he
      · exact h
    rw [if_neg he, splitItem_of_one item h1]
    by_cases h2 : itemName item = [] ∨ itemValue item = []
    · simp only [if_pos h2]
    · have h3 : fields.length ≠ 0 ∧ itemName item ∉ fields := by
        by_contra h3
        apply hq
        refine ⟨fun h => h2 (Or.inl h), fun h => h2 (Or.inr h), ?_⟩
        by_cases hf : fields = []
        · exact Or.inl hf
        · right
          by_contra hm
          exact h3 ⟨by simpa using hf, hm⟩
      simp only [if_neg h2, if_pos h3]

/-- On items that are not malformed and name neither `__proto__` nor
`hasOwnProperty`, the loop of `getURLQuery` returns, and every property holds
what `pushValue` makes of the values read for its name. -/
theorem getURLQueryLoop_returns (fields : List (List Char)) (items : List (List Char))
    (P : Parameters)
    (hwf : ∀ item ∈ items, ¬ malformed item)
    (hord : ∀ item ∈ items, itemName item ≠ protoName ∧ itemName item ≠ hasOwnPropertyName)
    (hP : P.get hasOwnPropertyName = none) :
    ∃ P', getURLQueryLoop fields items P = .returned P'
      ∧ ∀ name, P'.get name
          = (selectedValues fields name items).foldl (fun o v => some (pushValue o v))
              (P.get name) := by
  induction items generalizing P with
  | nil =>
    refine ⟨P, by simp [getURLQueryLoop], ?_⟩
    intro name
    simp [selectedValues, valuesOf]
  | cons item items ih =>
    have hwf' : ∀ i ∈ items, ¬ malformed i := fun i hi => hwf i (List.mem_cons_of_mem _ hi)
    have hord' : ∀ i ∈ items, itemName i ≠ protoName ∧ itemName i ≠ hasOwnPropertyName :=
      fun i hi => hord i (List.mem_cons_of_mem _ hi)
    have hw := hwf item (List.mem_cons_self _ _)
    have ho := hord item (List.mem_cons_self _ _)
    by_cases hq : itemName item ≠ [] ∧ itemValue item ≠ []
        ∧ (fields = [] ∨ itemName item ∈ fields)
    · have he : item ≠ [] := by
        intro h
        apply hq.1
        rw [h]
        rfl
      have h1 : item.count '=' = 1 := by
        rcases (not_malformed_iff item).mp hw with h | h
        · exact absurd h he
        · exact h
      have hP' : (P.set (itemName item) (pushValue (P.get (itemName item)) (itemValue item))).get
          hasOwnPropertyName = none := by
        rw [Parameters_get_set, if_neg ho.2, hP]
      obtain ⟨P', hret, hget⟩ := ih _ hwf' hord' hP'
      refine ⟨P', ?_, ?_⟩
      · rw [getURLQueryLoop_take fields item items P he h1 hq ho.1 hP, hret]
      · intro name
        rw [hget name, Parameters_get_set]
        by_cases hn : itemName item = name
        · subst hn
          rw [if_pos rfl, selectedValues_cons_take fields item items hq, List.foldl_cons]
        · rw [if_neg hn, selectedValues_cons_skip fields name item items (fun h => hn h.1)]
    · obtain ⟨P', hret, hget⟩ := ih P hwf' hord' hP
      refine ⟨P', ?_, ?_⟩
      · rw [getURLQueryLoop_skip fields item items P hw hq, hret]
      · intro name
        rw [hget name, selectedValues_cons_skip fields name item items]
        intro h
        apply hq
        refine ⟨h.2.1, h.2.2.1, ?_⟩
        rw [h.1]
        exact h.2.2.2

/-- The result of `getURLQuery` on a query whose items are not malformed and
name neither `__proto__` nor `hasOwnProperty`: under every name the object
holds the returned form of the values read for it. -/
theorem getURLQuery_returns (fields : List (List Char)) (q : List Char)
    (hwf : ∀ item ∈ splitQuery q, ¬ malformed item)
    (hord : ∀ item ∈ splitQuery q,
      itemName item ≠ protoName ∧ itemName item ≠ hasOwnPropertyName) :
    ∃ P, getURLQuery fields q = .returned P
      ∧ ∀ name, P.get name = returnedValue (selectedValues fields name (splitQuery q)) := by
  obtain ⟨P, hret, hget⟩ := getURLQueryLoop_returns fields (splitQuery q) [] hwf hord rfl
  refine ⟨P, hret, ?_⟩
  intro name
  rw [hget name]
  exact foldl_pushValue_none _

/-- While no item names `hasOwnProperty`, the loop of `getURLQuery` throws
exactly when an item is malformed. -/
theorem getURLQueryLoop_throws (fields : List (List Char)) (items : List (List Char))
    (P : Parameters)
    (hord : ∀ item ∈ items, itemName item ≠ hasOwnPropertyName)
    (hP : P.get hasOwnPropertyName = none) :
    (∃ e, getURLQueryLoop fields items P = .thrown e) ↔ ∃ item ∈ items, malformed item := by
  induction items generalizing P with
  | nil => simp [getURLQueryLoop]
  | cons item items ih =>
    have hord' : ∀ i ∈ items, itemName i ≠ hasOwnPropertyName :=
      fun i hi => hord i (List.mem_cons_of_mem _ hi)
    have ho := hord item (List.mem_cons_self _ _)
    by_cases hw : malformed item
    · constructor
      · intro _
        exact ⟨item, List.mem_cons_self _ _, hw⟩
      · intro _
        rw [getURLQueryLoop, if_neg hw.1]
        have hsplit : ∀ p v, splitItem item ≠ [p, v] :=
          fun p v h => hw.2 (splitItem_two item p v h)
        rcases hs : splitItem item with _ | ⟨a, _ | ⟨b, _ | ⟨c, r⟩⟩⟩
        · exact ⟨_, rfl⟩
        · exact ⟨_, rfl⟩
        · exact absurd hs (hsplit a b)
        · exact ⟨_, rfl⟩
    · have hiff : (∃ i ∈ item :: items, malformed i) ↔ ∃ i ∈ items, malformed i := by
        simp [hw]
      rw [hiff]
      by_cases hq : itemName item ≠ [] ∧ itemValue item ≠ []
          ∧ (fields = [] ∨ itemName item ∈ fields)
      · have he : item ≠ [] := by
          intro h
          apply hq.1
          rw [h]
          rfl
        have h1 : item.count '=' = 1 := by
          rcases (not_malformed_iff item).mp hw with h | h
          · exact absurd h he
          · exact h
        by_cases hproto : itemName item = protoName
        · rw [getURLQueryLoop, if_neg he, splitItem_of_one item h1]
          have h2 : ¬ (itemName item = [] ∨ itemValue item = []) := by
            intro h
            rcases h with h | h
            · exact hq.1 h
            · exact hq.2.1 h
          have h3 : ¬ (fields.length ≠ 0 ∧ itemName item ∉ fields) := by
            intro h
            rcases hq.2.2 with hf | hf
            · exact h.1 (by simp [hf])
            · exact h.2 hf
          simp only [if_neg h2, if_neg h3, hP]
          rcases hg : P.get (itemName item) with _ | ⟨v⟩ | ⟨vs⟩
          · simp only [if_pos hproto]
            exact ih P hord' hP
          · simp only []
            apply ih _ hord'
            rw [Parameters_get_set, if_neg ho, hP]
          · simp only []
            apply ih _ hord'
            rw [Parameters_get_set, if_neg ho, hP]
        · rw [getURLQueryLoop_take fields item items P he h1 hq hproto hP]
          apply ih _ hord'
          rw [Parameters_get_set, if_neg ho, hP]
      · rw [getURLQueryLoop_skip fields item items P hw hq]
        exact ih P hord' hP
/-- The function `getURLQueryFieldValue` throws exactly when an item of the
query is malformed, whatever the field. -/
theorem getURLQueryFieldValue_throws (lc : List Char → List Char) (field q : List Char) :
    (∃ e, getURLQueryFieldValue lc field q = .thrown e)
      ↔ ∃ item ∈ splitQuery q, malformed item := by
  rw [← getURLQueryFieldValueLoop_throws lc field (splitQuery q) []]
  unfold getURLQueryFieldValue
  rcases h : getURLQueryFieldValueLoop lc field (splitQuery q) [] with v | e
  · simp
  · simp

/-- While no item names `hasOwnProperty`, the function `getURLQuery` throws
exactly when an item of the query is malformed, whatever the fields. -/
theorem getURLQuery_throws (fields : List (List Char)) (q : List Char)
    (hord : ∀ item ∈ splitQuery q, itemName item ≠ hasOwnPropertyName) :
    (∃ e, getURLQuery fields q = .thrown e) ↔ ∃ item ∈ splitQuery q, malformed item :=
  getURLQueryLoop_throws fields (splitQuery q) [] hord rfl

/-! ### Claims on the URL query functions -/

/-- C21: the query `?hasOwnProperty=1&a=2` has two items of one `=` each, a
name and a value, yet `getURLQuery([], q)` returns no mapping: the first item
creates the own property `hasOwnProperty`, and the call
`Parameters.hasOwnProperty(param)` made for the second item throws a
`TypeError`.  For `?__proto__=1` the mapping returned has no key at all.  The
sibling `getURLQueryFieldValue` reads the first query without an error. -/
theorem C21_getURLQuery_own_property_shadows_method :
    splitQuery "?hasOwnProperty=1&a=2".data = [[], "hasOwnProperty=1".data, "a=2".data]
    ∧ (splitQuery "?hasOwnProperty=1&a=2".data).all (fun item => decide (¬ malformed item)) = true
    ∧ getURLQuery [] "?hasOwnProperty=1&a=2".data
        = .thrown "TypeError: Parameters.hasOwnProperty is not a function"
    ∧ getURLQuery [] "?__proto__=1".data = .returned []
    ∧ getURLQueryFieldValue asciiLowerCase "a".data "?hasOwnProperty=1&a=2".data
        = .returned (some (.str "2".data)) := by
  decide

/-- C22 as stated fails for the empty field: in the query `?=v` the item `=v`
has the value `v` and the empty name, which equals the field `''` whatever the
letter case, yet `getURLQueryFieldValue('', q)` returns `undefined`. -/
theorem C22_empty_name_never_matches :
    splitQuery "?=v".data = [[], "=v".data]
    ∧ valuesNamedLike asciiLowerCase [] (splitQuery "?=v".data) = ["v".data]
    ∧ getURLQueryFieldValue asciiLowerCase [] "?=v".data = .returned none := by
  decide

/-- C22, amended: for every query `q` whose non-empty items hold exactly one
`=` and every field `f`, `getURLQueryFieldValue(f, q)` returns `undefined` when
no item with a non-empty name and a non-empty value has a name equal to `f`
ignoring letter case, the single value when exactly one item does, and the
array of all matching values in the order of the items when two or more do. -/
theorem C22_getURLQueryFieldValue_result (toLowerCase : List Char → List Char)
    (f q : List Char) (hwf : ∀ item ∈ splitQuery q, ¬ malformed item) :
    (matchingValues toLowerCase f (splitQuery q) = [] →
        getURLQueryFieldValue toLowerCase f q = .returned none)
    ∧ (∀ value, matchingValues toLowerCase f (splitQuery q) = [value] →
        getURLQueryFieldValue toLowerCase f q = .returned (some (.str value)))
    ∧ (2 ≤ (matchingValues toLowerCase f (splitQuery q)).length →
        getURLQueryFieldValue toLowerCase f q
          = .returned (some (.arr (matchingValues toLowerCase f (splitQuery q))))) := by
  have h : getURLQueryFieldValue toLowerCase f q
      = .returned (returnedValue (matchingValues toLowerCase f (splitQuery q))) := by
    unfold getURLQueryFieldValue
    rw [getURLQueryFieldValueLoop_returns toLowerCase f (splitQuery q) [] hwf]
    simp
  rw [h]
  refine ⟨?_, ?_, ?_⟩
  · intro h0
    rw [h0]
    rfl
  · intro value h1
    rw [h1]
    rfl
  · intro h2
    rcases hm : matchingValues toLowerCase f (splitQuery q) with _ | ⟨a, _ | ⟨b, r⟩⟩
    · rw [hm] at h2
      simp at h2
    · rw [hm] at h2
      simp at h2
    · rfl

theorem C22_getURLQueryFieldValue_result_witness :
    (∀ item ∈ splitQuery "?a=1&B=2&A=3".data, ¬ malformed item)
    ∧ getURLQueryFieldValue asciiLowerCase "a".data "?a=1&B=2&A=3".data
        = .returned (some (.arr ["1".data, "3".data])) :=
  ⟨by decide,
    (C22_getURLQueryFieldValue_result asciiLowerCase "a".data "?a=1&B=2&A=3".data
      (by decide)).2.2 (by decide)⟩

/-- C30: in the query `?hasOwnProperty=1&a=2&b` the item `b` is malformed, and
`getURLQueryFieldValue` throws the malformed-parameter error for it; but
`getURLQuery([], q)` throws a `TypeError` at the item `a=2`, before it reads
`b`, while `getURLQuery(['b'], q)` skips the first two items and throws the
malformed-parameter error: whether that error is thrown depends on `fields`.
On `?hasOwnProperty=1&a=2`, which has no malformed item, `getURLQuery([], q)`
throws and `getURLQueryFieldValue` does not. -/
theorem C30_getURLQuery_error_depends_on_fields :
    splitQuery "?hasOwnProperty=1&a=2&b".data
        = [[], "hasOwnProperty=1".data, "a=2".data, "b".data]
    ∧ malformed "b".data
    ∧ getURLQuery [] "?hasOwnProperty=1&a=2&b".data
        = .thrown "TypeError: Parameters.hasOwnProperty is not a function"
    ∧ getURLQuery ["b".data] "?hasOwnProperty=1&a=2&b".data
        = .thrown "Error: generalfunc.js: getURLQuery(): malformed URL parameter 'b'"
    ∧ getURLQueryFieldValue asciiLowerCase "a".data "?hasOwnProperty=1&a=2&b".data
        = .thrown "Error: generalfunc.js: getURLQueryFieldValue(): malformed URL parameter 'b'"
    ∧ getURLQuery ["a".data, "hasOwnProperty".data] "?hasOwnProperty=1&a=2".data
        = .thrown "TypeError: Parameters.hasOwnProperty is not a function"
    ∧ getURLQueryFieldValue asciiLowerCase "b".data "?hasOwnProperty=1&a=2".data
        = .returned none := by
  decide

/-! ## Further theorems on the transport encoding -/

theorem tokenFree_of_codes (s : List Char)
    (h : ∀ n ∈ reservedCodes, ¬ ("ASCII".data ++ (toString n).data) <:+: s) : TokenFree s := by
  intro c hc
  have hmem : c.toNat ∈ reservedCodes := by
    have := List.mem_map_of_mem Char.toNat hc
    rw [specialChars_codes] at this
    exact this
  exact h c.toNat hmem

theorem flatMap_encodeChar_of_no_special (w : List Char) (h : ∀ y ∈ w, y ∉ specialChars) :
    w.flatMap encodeChar = w := by
  induction w with
  | nil => rfl
  | cons y w ih =>
    have hy : y ∉ specialChars := h y (List.mem_cons_self y w)
    rw [List.flatMap_cons, ih (fun z hz => h z (List.mem_cons_of_mem y hz))]
    simp [encodeChar, hy]

theorem encode_chars_not_special (s : List Char) : ∀ y ∈ encode s, y ∉ specialChars := by
  intro y hy
  rw [encode_eq_flatMap] at hy
  obtain ⟨x, _, hyx⟩ := List.mem_flatMap.mp hy
  unfold encodeChar at hyx
  by_cases hx : x ∈ specialChars
  · rw [if_pos hx] at hyx
    exact token_chars_not_special x hx y hyx
  · rw [if_neg hx] at hyx
    rw [List.mem_singleton.mp hyx]
    exact hx

/-- One pass of `decode` does not change what `encode` makes of a string: the
token it replaces is what `encode` writes for the character put in its place. -/
theorem encodeChar_decode_pass (c : Char) (hc : c ∈ specialChars) :
    ∀ (n : Nat) (u : List Char), u.length ≤ n →
      (replaceAll (token c) [c] u).flatMap encodeChar = u.flatMap encodeChar := by
  intro n
  induction n with
  | zero =>
    intro u hu
    have : u = [] := List.length_eq_zero.mp (Nat.le_zero.mp hu)
    subst this
    rw [replaceAll_nil]
  | succ n ih =>
    intro u hu
    cases u with
    | nil => rw [replaceAll_nil]
    | cons x xs =>
      by_cases hpre : token c <+: x :: xs
      · obtain ⟨r, hr⟩ := hpre
        have hshape := (token_shape c hc).1
        have hlen : r.length ≤ n := by
          have h1 : (token c ++ r).length = (x :: xs).length := by rw [hr]
          rw [List.length_append, hshape] at h1
          simp only [List.length_cons] at h1 hu
          omega
        rw [← hr]
        have hmatch : replaceAll (token c) [c] (token c ++ r)
            = [c] ++ replaceAll (token c) [c] r := by
          rw [hshape]
          exact replaceAll_at_match 'A' (token c).tail [c] r
        rw [hmatch, List.flatMap_append, List.flatMap_append, ih r hlen,
          flatMap_encodeChar_of_no_special (token c) (token_chars_not_special c hc)]
        simp [encodeChar, hc]
      · rw [replaceAll_cons_no_match _ _ _ _ hpre, List.flatMap_cons, List.flatMap_cons,
          ih xs (by simpa using hu)]

theorem encodeChar_decode_fold (L : List Char) (hL : ∀ c ∈ L, c ∈ specialChars)
    (u : List Char) :
    (L.foldl (fun str character => replaceAll (token character) [character] str) u).flatMap
      encodeChar = u.flatMap encodeChar := by
  induction L generalizing u with
  | nil => rfl
  | cons c L ih =>
    rw [List.foldl_cons, ih (fun z hz => hL z (List.mem_cons_of_mem c hz)),
      encodeChar_decode_pass c (hL c (List.mem_cons_self c L)) _ u (le_refl _)]

/-- What `encode` makes of a decoded string is what it makes of the string. -/
theorem encode_decode_flatMap (t : List Char) : encode (decode t) = t.flatMap encodeChar := by
  rw [encode_eq_flatMap]
  exact encodeChar_decode_fold specialChars (fun _ h => h) t

theorem token_sixth :
    ∀ x ∈ specialChars, "ASCII".data ++ [(token x).getD 5 'A'] <+: token x
      ∧ (token x).getD 5 'A' ∉ specialChars := by
  decide

/-- A special character followed by digits, with or without the text `ASCII`
in front of it, holds no token. -/
theorem tokenFree_special_then_digits (c : Char) (hc : c ∈ specialChars) (ds : List Char)
    (hds : ∀ d ∈ ds, d.isDigit = true) :
    TokenFree (c :: ds) ∧ TokenFree ("ASCII".data ++ c :: ds) := by
  have hA : ∀ d ∈ ds, d ≠ 'A' := by
    intro d hd h
    have := hds d hd
    rw [h] at this
    exact absurd this (by decide)
  have hcA : c ≠ 'A' := fun h => letterA_not_special (h ▸ hc)
  have hnoA : 'A' ∉ c :: ds := by
    intro h
    rcases List.mem_cons.mp h with h | h
    · exact hcA h.symm
    · exact hA 'A' h rfl
  constructor
  · intro x hx hin
    have hshape := (token_shape x hx).1
    have : 'A' ∈ token x := by rw [hshape]; exact List.mem_cons_self _ _
    exact hnoA (hin.subset this)
  · intro x hx hin
    have hshape := (token_shape x hx).1
    obtain ⟨pre, post, hpp⟩ := hin
    obtain ⟨hy, hys⟩ := token_sixth x hx
    generalize (token x).getD 5 'A' = y at hy hys
    cases pre with
    | nil =>
      have h1 : "ASCII".data ++ [y] <+: "ASCII".data ++ c :: ds := by
        refine hy.trans ?_
        exact ⟨post, by simpa using hpp⟩
      have h2 : [y] <+: c :: ds := (List.prefix_append_right_inj _).mp h1
      have : y = c := by
        obtain ⟨w, hw⟩ := h2
        simp at hw
        exact hw.1
      exact hys (this ▸ hc)
    | cons p pre =>
      have hpp' : p :: (pre ++ token x ++ post) = 'A' :: ("SCII".data ++ c :: ds) := by
        simpa using hpp
      have htail : pre ++ token x ++ post = "SCII".data ++ c :: ds := (List.cons.inj hpp').2
      have hAin : 'A' ∈ "SCII".data ++ c :: ds := by
        rw [← htail, hshape]
        simp
      rcases List.mem_append.mp hAin with h | h
      · exact absurd h (by decide)
      · exact hnoA h

/-! ### Further claims on the transport encoding -/

/-- C28: for every string `s` in which the text `ASCII` is nowhere followed by
the decimal code of a special character (10, 13, 33, ..., 125),
`decode (encode s) = s`; so it is for a special character followed by digits,
with or without the text `ASCII` in front of it. -/
theorem C28_round_trip_without_literal_token (s : List Char)
    (h : (∀ n ∈ reservedCodes, ¬ ("ASCII".data ++ (toString n).data) <:+: s)
      ∨ ∃ c ∈ specialChars, ∃ ds : List Char, (∀ d ∈ ds, d.isDigit = true)
          ∧ (s = c :: ds ∨ s = "ASCII".data ++ c :: ds)) :
    decode (encode s) = s := by
  apply decode_encode_of_tokenFree
  rcases h with h | ⟨c, hc, ds, hds, h | h⟩
  · exact tokenFree_of_codes s h
  · rw [h]
    exact (tokenFree_special_then_digits c hc ds hds).1
  · rw [h]
    exact (tokenFree_special_then_digits c hc ds hds).2

theorem C28_round_trip_without_literal_token_witness :
    (∀ n ∈ reservedCodes,
      ¬ ("ASCII".data ++ (toString n).data) <:+: "ASCII!12 and \n10 ASCII.".data)
    ∧ encode "ASCII!12 and \n10 ASCII.".data
        = "ASCIIASCII3312 and ASCII1010 ASCIIASCII46".data
    ∧ decode (encode "ASCII!12 and \n10 ASCII.".data) = "ASCII!12 and \n10 ASCII.".data :=
  ⟨by decide, by decide,
    C28_round_trip_without_literal_token "ASCII!12 and \n10 ASCII.".data (Or.inl (by decide))⟩

/-- C29: for every string `t` that holds no special character, and so for
every `t = encode s`, `encode (decode t) = t`. -/
theorem C29_encode_decode (t : List Char)
    (h : (∀ x ∈ t, x ∉ specialChars) ∨ ∃ s, t = encode s) :
    encode (decode t) = t := by
  have hns : ∀ x ∈ t, x ∉ specialChars := by
    rcases h with h | ⟨s, hs⟩
    · exact h
    · rw [hs]
      exact encode_chars_not_special s
  rw [encode_decode_flatMap]
  exact flatMap_encodeChar_of_no_special t hns

theorem C29_encode_decode_witness :
    (∀ x ∈ "ASCII10ASCII100ASCII3ASCIIASCII33".data, x ∉ specialChars)
    ∧ decode "ASCII10ASCII100ASCII3ASCIIASCII33".data = "\n\n0ASCII3ASCII!".data
    ∧ encode (decode "ASCII10ASCII100ASCII3ASCIIASCII33".data)
        = "ASCII10ASCII100ASCII3ASCIIASCII33".data :=
  ⟨by decide, by decide,
    C29_encode_decode "ASCII10ASCII100ASCII3ASCIIASCII33".data (Or.inl (by decide))⟩

/-! ## Further theorems on the overlays -/

theorem startsA_not_category (m : String)
    (h : "Error: overlays.js: A".data <+: m.data) : isCategoryError (some m) = false := by
  unfold isCategoryError
  cases hb : "Error: overlays.js: Dialog.".data.isPrefixOf m.data with
  | false => exact hb
  | true =>
    have hp := List.isPrefixOf_iff_prefix.mp hb
    have := List.prefix_of_prefix_length_le h hp (by decide)
    exact absurd this (by decide)

theorem startsA_append (a b : String) (h : "Error: overlays.js: A".data <+: a.data) :
    "Error: overlays.js: A".data <+: (a ++ b).data := by
  rw [String.data_append]
  exact h.trans (List.prefix_append _ _)

theorem AlertDialog_display_not_category (title message : Option String) (button func : JSVal)
    (s : State) :
    isCategoryError (AlertDialog.display title message button func s).thrown = false := by
  unfold AlertDialog.display
  generalize (if button = .undefined then JSVal.string "Close" else button) = bt
  cases bt with
  | string b =>
    simp only []
    split
    · exact startsA_not_category _ (startsA_append _ _ (startsA_append _ _ (by decide)))
    · split
      · rfl
      · exact startsA_not_category _ (startsA_append _ _ (by decide))
  | _ => exact startsA_not_category _ (startsA_append _ _ (startsA_append _ _ (by decide)))

theorem ActionDialog_display_not_category (title message : Option String) (button func : JSVal)
    (s : State) :
    isCategoryError (ActionDialog.display title message button func s).thrown = false := by
  unfold ActionDialog.display
  generalize (if button = .undefined then JSVal.string "OK" else button) = bt
  cases bt with
  | string b =>
    simp only []
    split
    · exact startsA_not_category _ (startsA_append _ _ (startsA_append _ _ (by decide)))
    · split
      · rfl
      · exact startsA_not_category _ (startsA_append _ _ (by decide))
  | _ => exact startsA_not_category _ (startsA_append _ _ (startsA_append _ _ (by decide)))

theorem category_message (a category b : String)
    (h : "Error: overlays.js: Dialog.".data <+: a.data) :
    isCategoryError (some (a ++ category ++ b)) = true := by
  unfold isCategoryError
  apply List.isPrefixOf_iff_prefix.mpr
  rw [String.data_append, String.data_append, List.append_assoc]
  exact h.trans (List.prefix_append _ _)

/-- With a callback that is missing or not a function, `ActionDialog.display`
throws and leaves the state as it is. -/
theorem ActionDialog_display_bad_callback (title message : Option String) (button func : JSVal)
    (s : State) (h : func.truthy = false ∨ func.typeof ≠ "function") :
    (ActionDialog.display title message button func s).thrown.isSome = true
      ∧ (ActionDialog.display title message button func s).state = s := by
  have hc : (!func.truthy || func.typeof != "function") = true := by
    rcases h with h | h
    · simp [h]
    · simp [h]
  unfold ActionDialog.display
  generalize (if button = .undefined then JSVal.string "OK" else button) = bt
  cases bt with
  | string b =>
    simp [hc]
  | _ => exact ⟨rfl, rfl⟩

/-- The register after a timer closure has run: set by the closure of a
`display`, cleared by the closure of a `hide`. -/
theorem runTask_instance_open (t : Task) (s : State) :
    (runTask t s).state.Overlay.instance_open = t.displayOf.isSome := by
  cases t with
  | splashDisplay _ | alertDisplay _ _ _ _ | actionDisplay _ _ _ | menuDisplay _ => rfl
  | splashHide f | alertHide f | actionHide f | menuHide f =>
    simp only [runTask]
    rw [(additionalFunction_fields _ f _).2.1]
    rfl

/-- While `Overlay.setInstanceOpen` is not called from outside, a set register
means that an overlay object is visible. -/
theorem step_open_visible (s : State) (e : Event) (he : ∀ v, e ≠ .setInstanceOpen v)
    (h : s.Overlay.instance_open = true → ∃ i, s.visible i = true) :
    (step s e).Overlay.instance_open = true → ∃ i, (step s e).visible i = true := by
  cases e with
  | display i a =>
    intro ho
    have hf := display_frame i a s
    have hs := settle_fields (display i a s)
    simp only [step] at ho ⊢
    rw [hs.2.1, hf.1] at ho
    obtain ⟨j, hj⟩ := h ho
    exact ⟨j, by rw [hs.2.2.2, hf.2.2, hj]⟩
  | hide i func =>
    intro ho
    have hf := hide_result i func s
    have hs := settle_fields (hide i func s)
    simp only [step] at ho ⊢
    rw [hs.2.1, hf.2.2.1] at ho
    obtain ⟨j, hj⟩ := h ho
    exact ⟨j, by rw [hs.2.2.2, hf.2.2.2.2, hj]⟩
  | setInstanceOpen v => exact absurd rfl (he v)
  | setAnimDuration v =>
    intro ho
    obtain ⟨j, hj⟩ := h ho
    exact ⟨j, by cases j <;> exact hj⟩
  | tick ms =>
    intro ho
    obtain ⟨j, hj⟩ := h ho
    exact ⟨j, by cases j <;> exact hj⟩
  | fire k =>
    simp only [step]
    cases hc : canFire s k with
    | none => exact h
    | some t =>
      simp only []
      intro ho
      have hs := settleTimer_fields (runTask t.task { s with timers := s.timers.eraseIdx k })
      rw [hs.2.1, runTask_instance_open] at ho
      obtain ⟨j, hj⟩ := Option.isSome_iff_exists.mp ho
      refine ⟨j, ?_⟩
      rw [hs.2.2.2, (runTask_frame _ _).2.2, if_pos hj]

theorem run_open_visible (evs : List Event) :
    ∀ s : State, (∀ e ∈ evs, ∀ v, e ≠ .setInstanceOpen v) →
      (s.Overlay.instance_open = true → ∃ i, s.visible i = true) →
      (run s evs).Overlay.instance_open = true → ∃ i, (run s evs).visible i = true := by
  induction evs with
  | nil => intro s _ h; exact h
  | cons e evs ih =>
    intro s he h
    have : run s (e :: evs) = run (step s e) evs := rfl
    rw [this]
    exact ih (step s e) (fun e' h' => he e' (List.mem_cons_of_mem _ h'))
      (step_open_visible s e (he e (List.mem_cons_self _ _)) h)

/-- A `display` of the splash screen, of the menu or of the alert dialog that
throws leaves the state as it is. -/
theorem display_thrown_unchanged (i : Inst) (hi : i ≠ .ActionDialog) (a : DisplayArgs)
    (s : State) (h : (display i a s).thrown.isSome = true) : (display i a s).state = s := by
  cases i with
  | SplashScreen =>
    simp only [display, SplashScreen.display] at h ⊢
    split at h
    · simp at h
    · rename_i hv
      rw [if_neg hv]
  | Menu =>
    simp only [display, Menu.display] at h ⊢
    split at h
    · simp at h
    · rename_i hv
      rw [if_neg hv]
  | AlertDialog =>
    simp only [display, Dialog_display_alert] at h ⊢
    unfold AlertDialog.display at h ⊢
    generalize (if a.button = .undefined then JSVal.string "Close" else a.button) = bt at h ⊢
    cases bt with
    | string b =>
      simp only [] at h ⊢
      split
      · rfl
      · rename_i hf
        rw [if_neg hf] at h
        split
        · rename_i hv
          rw [if_pos hv] at h
          simp at h
        · rfl
    | _ => rfl
  | ActionDialog => exact absurd rfl hi

/-! ### Further claims on the overlays -/

/-- C24: `Dialog.display` and `Dialog.hide` throw the error for an unknown
category exactly when the category is neither `alert` nor `action`, and then the
state is as before the call; `Dialog.display('action', ...)` throws whenever
the callback is missing or is not a function, and then too the state (flags,
register, kept callback, registrations, pending timers) is as before. -/
theorem C24_dialog_errors_leave_state (category : String) (title message : Option String)
    (button func : JSVal) (s : State) :
    (isCategoryError (Dialog.display category title message button func s).thrown = true
        ↔ (category ≠ "alert" ∧ category ≠ "action"))
    ∧ (isCategoryError (Dialog.hide category func s).thrown = true
        ↔ (category ≠ "alert" ∧ category ≠ "action"))
    ∧ ((Dialog.hide category func s).thrown.isSome = true
        ↔ (category ≠ "alert" ∧ category ≠ "action"))
    ∧ ((category ≠ "alert" ∧ category ≠ "action") →
        (Dialog.display category title message button func s).state = s
          ∧ (Dialog.hide category func s).state = s)
    ∧ ((func.truthy = false ∨ func.typeof ≠ "function") →
        (Dialog.display "action" title message button func s).thrown.isSome = true
          ∧ (Dialog.display "action" title message button func s).state = s) := by
  refine ⟨?_, ?_, ?_, ?_, ?_⟩
  · by_cases h1 : category = "alert"
    · subst h1
      rw [Dialog_display_alert, AlertDialog_display_not_category]
      simp
    · by_cases h2 : category = "action"
      · subst h2
        rw [Dialog_display_action, ActionDialog_display_not_category]
        simp
      · simp only [Dialog.display, if_neg h1, if_neg h2]
        rw [category_message _ _ _ (by decide)]
        simp [h1, h2]
  · by_cases h1 : category = "alert"
    · subst h1
      simp [Dialog.hide, AlertDialog.hide, isCategoryError]
    · by_cases h2 : category = "action"
      · subst h2
        simp [Dialog.hide, ActionDialog.hide, isCategoryError]
      · simp only [Dialog.hide, if_neg h1, if_neg h2]
        rw [category_message _ _ _ (by decide)]
        simp [h1, h2]
  · by_cases h1 : category = "alert"
    · subst h1
      simp [Dialog.hide, AlertDialog.hide]
    · by_cases h2 : category = "action"
      · subst h2
        simp [Dialog.hide, ActionDialog.hide]
      · simp [Dialog.hide, h1, h2]
  · intro h
    simp [Dialog.display, Dialog.hide, h.1, h.2]
  · intro h
    rw [Dialog_display_action]
    exact ActionDialog_display_bad_callback title message button func s h

theorem C24_dialog_errors_leave_state_witness :
    ("toast" ≠ "alert" ∧ "toast" ≠ "action")
    ∧ isCategoryError (Dialog.display "toast" none none .undefined (.function 1) State.init).thrown
        = true
    ∧ (Dialog.display "toast" none none .undefined (.function 1) State.init).state = State.init
    ∧ (JSVal.truthy (.string "f") = false ∨ JSVal.typeof (.string "f") ≠ "function")
    ∧ (Dialog.display "action" none none .undefined (.string "f") State.init).state
        = State.init :=
  ⟨by decide,
    (C24_dialog_errors_leave_state "toast" none none .undefined (.function 1) State.init).1.mpr
      (by decide),
    ((C24_dialog_errors_leave_state "toast" none none .undefined (.function 1)
      State.init).2.2.2.1 (by decide)).1,
    by decide,
    ((C24_dialog_errors_leave_state "toast" none none .undefined (.string "f")
      State.init).2.2.2.2 (by decide)).2⟩

/-- C25 as stated fails: with the menu and the alert dialog both open, hiding
the alert dialog clears the register although the menu stays visible and no
timer is pending; and hiding the splash screen, which was never shown, clears
the register under a visible menu. -/
theorem C25_register_cleared_while_menu_visible :
    (run State.init [.display .Menu noArgs, .fire 0, .display .AlertDialog noArgs, .tick 250,
        .fire 0, .hide .AlertDialog .undefined, .tick 250, .fire 0]).timers = []
    ∧ (run State.init [.display .Menu noArgs, .fire 0, .display .AlertDialog noArgs, .tick 250,
        .fire 0, .hide .AlertDialog .undefined, .tick 250, .fire 0]).Menu_visible = true
    ∧ (run State.init [.display .Menu noArgs, .fire 0, .display .AlertDialog noArgs, .tick 250,
        .fire 0, .hide .AlertDialog .undefined, .tick 250, .fire 0]).Overlay.instance_open
        = false
    ∧ (run State.init [.display .Menu noArgs, .fire 0, .hide .SplashScreen .undefined,
        .fire 0]).timers = []
    ∧ (run State.init [.display .Menu noArgs, .fire 0, .hide .SplashScreen .undefined,
        .fire 0]).Menu_visible = true
    ∧ (run State.init [.display .Menu noArgs, .fire 0, .hide .SplashScreen .undefined,
        .fire 0]).Overlay.instance_open = false := by
  decide

/-- C25, amended: in every state reached from the loaded module by `display` and
`hide` calls, the passing of time and the firing of timers, with or without
timers still pending, `Overlay.instance_open` is true only if at least one
overlay object is visible. -/
theorem C25_register_set_only_if_visible (evs : List Event)
    (hcalls : ∀ e ∈ evs, ∀ v, e ≠ .setInstanceOpen v)
    (h : (run State.init evs).Overlay.instance_open = true) :
    ∃ i, (run State.init evs).visible i = true :=
  run_open_visible evs State.init hcalls (fun h0 => absurd h0 (by decide)) h

theorem C25_register_set_only_if_visible_witness :
    (∀ e ∈ [Event.display .Menu noArgs, .fire 0], ∀ v, e ≠ .setInstanceOpen v)
    ∧ (run State.init [.display .Menu noArgs, .fire 0]).Overlay.instance_open = true
    ∧ ∃ i, (run State.init [.display .Menu noArgs, .fire 0]).visible i = true :=
  ⟨by simp, by decide,
    C25_register_set_only_if_visible [.display .Menu noArgs, .fire 0] (by simp) (by decide)⟩

/-- C27: after `ActionDialog.display` with the callback 1 has opened the dialog,
a second `display` with the callback 2 is rejected because the dialog is
visible, yet it has already taken the registration of callback 1 off the
button and has replaced the kept callback by 2. -/
theorem C27_rejected_display_unregisters_callback :
    (run State.init [.display .ActionDialog (withCallback 1), .fire 0]).ActionDialog_visible
        = true
    ∧ (run State.init [.display .ActionDialog (withCallback 1), .fire 0]).ActionDialog_onClickFunction
        = .function 1
    ∧ (run State.init [.display .ActionDialog (withCallback 1), .fire 0]).dom.actionDialog_btnOk_click
        = [{ callback := 1, once := false }]
    ∧ (display .ActionDialog (withCallback 2)
        (run State.init [.display .ActionDialog (withCallback 1), .fire 0])).thrown
        = some ("Error: overlays.js: ActionDialog.display(): ActionDialog "
            ++ "(a.k.a. 'action') is already visible")
    ∧ (display .ActionDialog (withCallback 2)
        (run State.init [.display .ActionDialog (withCallback 1), .fire 0])).state.ActionDialog_visible
        = true
    ∧ (display .ActionDialog (withCallback 2)
        (run State.init [.display .ActionDialog (withCallback 1), .fire 0])).state.ActionDialog_onClickFunction
        = .function 2
    ∧ (display .ActionDialog (withCallback 2)
        (run State.init [.display .ActionDialog (withCallback 1), .fire 0])).state.dom.actionDialog_btnOk_click
        = [] := by
  decide

/-! ## Theorems on the tokens -/

theorem toFixed0_le (x : Draw) (n : Nat) (hden : 0 < x.den) (h : x.num ≤ n * x.den) :
    toFixed0 x ≤ n := by
  unfold toFixed0
  have key : 2 * x.num + x.den < (n + 1) * (2 * x.den) := by
    have h2 : (n + 1) * (2 * x.den) = 2 * (n * x.den) + 2 * x.den := by ring
    omega
  exact Nat.lt_succ_iff.mp ((Nat.div_lt_iff_lt_mul (by omega)).mpr key)

theorem array_of_chars_length : array_of_chars.length = 62 := by decide

theorem generateToken_succ (fl : Draw → Draw) (random : Nat → Draw) (n : Nat) :
    generateToken fl random (n + 1)
      = generateToken fl random n
        ++ (match array_of_chars[tokenIndex fl (random n)]? with
            | some c => [c]
            | none => []) := by
  unfold generateToken
  rw [List.range_succ, List.flatMap_append]
  simp

/-- C23: for every length `n` and every sequence of draws in `[0, 1)`, whatever
double the product of a draw and 61 is rounded to within `[0, 61]`, every index
computed is at most 61, the token returned by `generateToken(n)` has exactly `n`
characters, and each of them is one of the 62 characters of the alphabet, which
are letters and digits. -/
theorem C23_generateToken_alphabet (fl : Draw → Draw) (random : Nat → Draw) (n : Nat)
    (hfl : ∀ x : Draw, 0 < x.den → x.num ≤ 61 * x.den →
      0 < (fl x).den ∧ (fl x).num ≤ 61 * (fl x).den)
    (hdraw : ∀ i, i < n → (random i).num < (random i).den) :
    (∀ i, i < n → tokenIndex fl (random i) < array_of_chars.length)
    ∧ (generateToken fl random n).length = n
    ∧ (∀ c ∈ generateToken fl random n, c ∈ array_of_chars)
    ∧ array_of_chars.length = 62
    ∧ (∀ c ∈ array_of_chars, c.isAlphanum = true) := by
  have hidx : ∀ i, i < n → tokenIndex fl (random i) < array_of_chars.length := by
    intro i hi
    have hd := hdraw i hi
    have hx := hfl { num := (random i).num * (array_of_chars.length - 1), den := (random i).den }
      (by show 0 < (random i).den; omega)
      (by
        show (random i).num * (array_of_chars.length - 1) ≤ 61 * (random i).den
        rw [array_of_chars_length]
        have : (random i).num * 61 ≤ (random i).den * 61 := Nat.mul_le_mul_right _ (le_of_lt hd)
        omega)
    have := toFixed0_le _ 61 hx.1 hx.2
    rw [array_of_chars_length]
    unfold tokenIndex
    omega
  refine ⟨hidx, ?_, ?_, array_of_chars_length, by decide⟩
  · clear hdraw
    induction n with
    | zero => simp [generateToken]
    | succ n ih =>
      have hn := hidx n (Nat.lt_succ_self n)
      rw [generateToken_succ, List.length_append,
        ih (fun i hi => hidx i (Nat.lt_succ_of_lt hi))]
      rw [List.getElem?_eq_getElem hn]
      rfl
  · clear hdraw
    induction n with
    | zero => simp [generateToken]
    | succ n ih =>
      have hn := hidx n (Nat.lt_succ_self n)
      intro c hc
      rw [generateToken_succ, List.mem_append] at hc
      rcases hc with hc | hc
      · exact ih (fun i hi => hidx i (Nat.lt_succ_of_lt hi)) c hc
      · rw [List.getElem?_eq_getElem hn] at hc
        have : c = array_of_chars[tokenIndex fl (random n)] := by simpa using hc
        rw [this]
        exact List.getElem_mem _

theorem C23_generateToken_alphabet_witness :
    (∀ x : Draw, 0 < x.den → x.num ≤ 61 * x.den →
      0 < (exactProduct x).den ∧ (exactProduct x).num ≤ 61 * (exactProduct x).den)
    ∧ (∀ i, i < 4 → (sampleRandom i).num < (sampleRandom i).den)
    ∧ generateToken exactProduct sampleRandom 4 = "auFa".data
    ∧ (generateToken exactProduct sampleRandom 4).length = 4 :=
  ⟨fun _ h1 h2 => ⟨h1, h2⟩, by decide, by decide,
    (C23_generateToken_alphabet exactProduct sampleRandom 4 (fun _ h1 h2 => ⟨h1, h2⟩)
      (by decide)).2.1⟩

/-! ## Theorems on the long press -/

/-- A `pointerup` or a `touchmove` leaves no timer pending when the pending
timers are those whose identifiers the two variables keep. -/
theorem pointerup_clears_tracked (s : PressState) (h : pressTracked s) :
    (pointerup s).pending = [] ∧ (touchmove s).pending = [] := by
  have key : (s.pending.filter (fun t => some t.id ≠ s.longpress_timer)).filter
      (fun t => some t.id ≠ s.longpress_timeout) = [] := by
    rw [List.filter_filter, List.filter_eq_nil_iff]
    intro t ht
    rcases h t ht with h1 | h1 <;> simp [h1]
  exact ⟨key, key⟩

/-- A `pointerdown` while no timer is pending starts only timers whose
identifiers the two variables keep. -/
theorem pointerdown_tracked (E : Bool) (target : PressTarget) (s : PressState)
    (h : s.pending = []) : pressTracked (pointerdown E target s) := by
  intro t ht
  cases target with
  | bubbles =>
    simp [pointerdown, pressSetTimeout, h] at ht ⊢
    rcases ht with ht | ht <;> simp [ht]
  | image =>
    simp [pointerdown, pressSetTimeout, h] at ht ⊢
    rcases ht with ht | ht <;> simp [ht]
  | link =>
    cases E
    · simp [pointerdown, h] at ht
    · simp [pointerdown, pressSetTimeout, h] at ht ⊢
      simp [ht]
  | other => simp [pointerdown, h] at ht

/-- C26: a `pointerdown` on a bubble, a second `pointerdown` on a bubble 100 ms
later and a `pointerup` 50 ms after that leave the two timers of the first
press pending, because the second press has overwritten the identifiers kept
in `longpress_timer` and `longpress_timeout`; a further `pointerup` or
`touchmove` clears nothing more, and 600 ms after the first press its timer
fires and `Menu.display()` is called, although both pointers went up within
160 ms.  After a single press that is released, the menu does not open. -/
theorem C26_overwritten_timers_stay_pending :
    (pressRun true PressState.init
        [.pointerdown .bubbles, .wait 100, .pointerdown .bubbles, .wait 50, .pointerup]).pending
        = [{ id := 0, due := 200, task := .scale }, { id := 1, due := 600, task := .openMenu }]
    ∧ (pressRun true PressState.init
        [.pointerdown .bubbles, .wait 100, .pointerdown .bubbles, .wait 50, .pointerup,
          .wait 10, .pointerup]).pending
        = [{ id := 0, due := 200, task := .scale }, { id := 1, due := 600, task := .openMenu }]
    ∧ (pressRun true PressState.init
        [.pointerdown .bubbles, .wait 100, .pointerdown .bubbles, .wait 50, .pointerup,
          .wait 10, .pointerup]).now = 160
    ∧ (pressRun true PressState.init
        [.pointerdown .bubbles, .wait 100, .pointerdown .bubbles, .wait 50, .pointerup,
          .wait 10, .pointerup, .wait 40, .fire 0, .wait 400, .fire 1]).menuDisplayed = 1
    ∧ (pressRun true PressState.init
        [.pointerdown .bubbles, .wait 100, .pointerdown .bubbles, .wait 50, .touchmove,
          .wait 10, .touchmove, .wait 40, .fire 0, .wait 400, .fire 1]).menuDisplayed = 1
    ∧ (pressRun true PressState.init
        [.pointerdown .bubbles, .wait 150, .pointerup, .wait 50, .fire 0, .wait 400,
          .fire 1]).menuDisplayed = 0 := by
  decide

end Sozialm
